import Mathlib

/-!
Jailhouse cell lifecycle: a shallow embedding of `hypervisor/control.c`.

The hypervisor state is passed explicitly.  Machine integers are natural
numbers; where the source relies on wrap-around (the `unsigned int` cursor of
`next_cpu`, the `unsigned long` arithmetic of `remap_to_root_cell`) the
reduction modulo `2^32` resp. `2^64` is written out.

A pointer to a `struct cell` is represented by the id of that cell; the root
cell is the statically allocated head of the list and is kept in a field of
its own, the cells chained behind it (`root_cell.next`, ...) in a list.

Code of the repository that `control.c` calls but that is not part of the
verified sources (frame allocator, page-table builder, CPU primitives of the
arch layer) is either a parameter collected in `Env` or a small model whose
doc comment starts with "Modelled from the spec".
-/

namespace Jailhouse

/-! ## Constants -/

/-- `PAGE_SIZE` of `asm/paging.h`. -/
def PAGE_SIZE : Nat := 4096

/-- `NUM_TEMPORARY_PAGES` of `asm/paging.h`. -/
def NUM_TEMPORARY_PAGES : Nat := 16

/-- Modelled from the spec: `sizeof(unsigned long)` on the 64-bit target that
`jailhouse_hypercall.h` requires; it is the header of an allocated CPU set. -/
def SIZEOF_LONG : Nat := 8

/-- Modelled from the spec: `sizeof(cell->small_cpu_set.bitmap)`, the inline
capacity in bytes.  The declaration of `struct cpu_set` is not among the
sources; its bitmap is one `unsigned long`. -/
def SMALL_BITMAP_BYTES : Nat := 8

/-- Modelled from the spec: error numbers of the hypervisor ABI
(permission_denied, not_found, too_big, out_of_memory, busy, exists, invalid);
the header defining them is not among the sources. -/
def EPERM : Int := 1
/-- Error number for not_found. -/
def ENOENT : Int := 2
/-- Error number for too_big. -/
def E2BIG : Int := 7
/-- Error number for out_of_memory. -/
def ENOMEM : Int := 12
/-- Error number for busy. -/
def EBUSY : Int := 16
/-- Error number for exists. -/
def EEXIST : Int := 17
/-- Error number for invalid. -/
def EINVAL : Int := 22

/-- Modelled from the spec: memory-region flag bits of the configuration
format (`cell-config.h` is not among the sources). -/
def JAILHOUSE_MEM_READ : Nat := 1
/-- Region flag WRITE. -/
def JAILHOUSE_MEM_WRITE : Nat := 2
/-- Region flag EXECUTE. -/
def JAILHOUSE_MEM_EXECUTE : Nat := 4
/-- Region flag DMA. -/
def JAILHOUSE_MEM_DMA : Nat := 8
/-- Region flag COMM_REGION: the region is backed by the comm page. -/
def JAILHOUSE_MEM_COMM_REGION : Nat := 16
/-- The valid-flags mask: the union of the region flags. -/
def JAILHOUSE_MEM_VALID_FLAGS : Nat := 31

/-- Modelled from the spec: cell flag `UNMANAGED_EXIT`. -/
def JAILHOUSE_CELL_UNMANAGED_EXIT : Nat := 1

/-- Modelled from the spec: the enumerations of the comm region. -/
def JAILHOUSE_MSG_NONE : Nat := 0
/-- Message to the cell: shutdown requested. -/
def JAILHOUSE_MSG_SHUTDOWN_REQUESTED : Nat := 1
/-- Reply from the cell: shutdown denied. -/
def JAILHOUSE_MSG_SHUTDOWN_DENIED : Nat := 1
/-- Reply from the cell: shutdown accepted. -/
def JAILHOUSE_MSG_SHUTDOWN_OK : Nat := 2
/-- Cell state RUNNING. -/
def JAILHOUSE_CELL_RUNNING : Nat := 0
/-- Cell state SHUT_DOWN. -/
def JAILHOUSE_CELL_SHUT_DOWN : Nat := 1
/-- Cell state FAILED. -/
def JAILHOUSE_CELL_FAILED : Nat := 2

/-! ## Data model -/

/-- A memory region of a cell configuration (`struct jailhouse_memory`). -/
structure jailhouse_memory where
  phys_start : Nat
  virt_start : Nat
  size : Nat
  flags : Nat
deriving DecidableEq

/-- A cell configuration (`struct jailhouse_cell_desc` with the arrays that
follow it in the blob).  `cpu_set` is the CPU bitmap behind the descriptor,
bit `c` standing for CPU `c`; `mem_regions` are the `num_memory_regions`
region descriptors; `config_size` is the value of
`jailhouse_cell_config_size`, whose definition is not among the sources. -/
structure jailhouse_cell_desc where
  name : String
  flags : Nat
  cpu_set_size : Nat
  cpu_set : Nat
  mem_regions : List jailhouse_memory
  config_size : Nat
deriving DecidableEq

/-- A CPU set (`struct cpu_set`).  `max_cpu_id` is written by `cell_init`
only, together with the choice of the storage, and takes one of two values;
the embedding keeps the choice (`allocated`: a frame of `mem_pool`, otherwise
`cell->small_cpu_set`) and derives `max_cpu_id` from it. -/
@[ext]
structure cpu_set where
  allocated : Bool
  bitmap : Nat
deriving DecidableEq

/-- The cap of a CPU set, as assigned in `cell_init`. -/
def cpu_set.max_cpu_id (set : cpu_set) : Nat :=
  if set.allocated then (PAGE_SIZE - SIZEOF_LONG) * 8 - 1 else SMALL_BITMAP_BYTES * 8 - 1

/-- The comm region shared with the guest. -/
@[ext]
structure jailhouse_comm_region where
  msg_to_cell : Nat
  reply_from_cell : Nat
  cell_state : Nat
deriving DecidableEq

/-- What a guest-physical address of a cell is backed by. -/
inductive backing where
  | host (phys : Nat)
  | comm_page
deriving DecidableEq

/-- One translation of a cell's guest page table. -/
structure pte where
  target : backing
  flags : Nat
deriving DecidableEq

/-- A cell (`struct cell`).  `mappings` stands for the guest page table kept
in `cell->arch`: the translation of every guest-physical address. -/
@[ext]
structure cell where
  id : Nat
  data_pages : Nat
  config : jailhouse_cell_desc
  cpu_set : cpu_set
  comm_region : jailhouse_comm_region
  mappings : Nat → Option pte

/-- The per-CPU record (`struct per_cpu`), as far as `control.c` uses it; the
`cell` back-reference is the id of the cell. -/
@[ext]
structure per_cpu where
  cell : Nat
  failed : Bool
  cpu_stopped : Bool
  shutdown_state : Int

/-- The hypervisor state.  `suspended` and `parked` record the effect of the
CPU primitives of the arch layer. -/
@[ext]
structure State where
  root_cell : cell
  cells : List cell
  num_cells : Nat
  per_cpu : Nat → per_cpu
  mem_pool_used : Nat
  suspended : Nat → Bool
  parked : Nat → Bool

/-- What the code does not decide itself: sizes of absent declarations, the
guest memory holding the configuration, and whether a call into the frame
allocator, the page-table builder or the arch layer succeeds.  `guest id n`
is what the guest of cell `id` does to its comm region after a shutdown
request, between load `n - 1` and load `n` of the hypervisor (for `n = 0`:
between the request and the first load): it may read the three words and
store to them. -/
structure Env where
  sizeof_cell : Nat
  sizeof_cell_desc : Nat
  config_at : Nat → jailhouse_cell_desc
  page_map_create_ok : Nat → Nat → Bool
  page_alloc_ok : Nat → Nat → Bool
  arch_map_ok : Nat → jailhouse_memory → Bool
  arch_unmap_ok : Nat → jailhouse_memory → Bool
  arch_cell_create_ok : jailhouse_cell_desc → Bool
  guest : Nat → Nat → jailhouse_comm_region → jailhouse_comm_region

/-- The cells in list order: `for_each_cell` starts at `root_cell`. -/
def for_each_cell (s : State) : List cell := s.root_cell :: s.cells

/-! ## Bit operations (`asm/bitops.h`) -/

/-- `test_bit(nr, addr)`. -/
def test_bit (nr : Nat) (bitmap : Nat) : Bool := bitmap.testBit nr

/-- `set_bit(nr, addr)`. -/
def set_bit (nr : Nat) (bitmap : Nat) : Nat := bitmap ||| 2 ^ nr

/-- `clear_bit(nr, addr)`. -/
def clear_bit (nr : Nat) (bitmap : Nat) : Nat := bitmap ^^^ (bitmap &&& 2 ^ nr)

/-- Membership of a CPU in a CPU set: the id is within the cap and its bit is
set (the guard the source writes as `cpu <= max_cpu_id && test_bit(...)`). -/
def cpu_set.contains (set : cpu_set) (cpu : Nat) : Bool :=
  decide (cpu ≤ set.max_cpu_id) && test_bit cpu set.bitmap

/-! ## CPU iteration -/

/-- The loop of `next_cpu`: `do cpu++ while (cpu <= max_cpu_id && (cpu ==
exception || !test_bit(cpu, bitmap)))` on an `unsigned int` cursor.  The
`int exception` is converted to `unsigned int` by the comparison.  The first
argument bounds the number of iterations. -/
def next_cpu_loop (set : cpu_set) (exception : Int) : Nat → Nat → Nat
  | 0, cpu => cpu
  | fuel + 1, cpu =>
    let cpu1 := (cpu + 1) % 2 ^ 32
    if cpu1 ≤ set.max_cpu_id ∧
        (cpu1 = (exception % 2 ^ 32).toNat ∨ test_bit cpu1 set.bitmap = false) then
      next_cpu_loop set exception fuel cpu1
    else cpu1

/-- `next_cpu(cpu, cpu_set, exception)`; the loop leaves after at most
`max_cpu_id + 2` increments. -/
def next_cpu (cpu : Nat) (set : cpu_set) (exception : Int) : Nat :=
  next_cpu_loop set exception (set.max_cpu_id + 2) cpu

/-- The ids visited by `for ((cpu) = -1; (cpu) = next_cpu((cpu), (set),
(exception)), (cpu) <= (set)->max_cpu_id; )`, starting from cursor `cpu`. -/
def for_each_cpu_loop (set : cpu_set) (exception : Int) : Nat → Nat → List Nat
  | 0, _ => []
  | fuel + 1, cpu =>
    let c := next_cpu cpu set exception
    if c ≤ set.max_cpu_id then c :: for_each_cpu_loop set exception fuel c else []

/-- Modelled from the spec: the macro `for_each_cpu_except(cpu, set,
exception)` of `control.h` (not among the sources): the set ids in ascending
order, without the excepted one.  The cursor starts at `-1`, that is
`2^32 - 1`. -/
def for_each_cpu_except (set : cpu_set) (exception : Int) : List Nat :=
  for_each_cpu_loop set exception (set.max_cpu_id + 2) (2 ^ 32 - 1)

/-- Modelled from the spec: the macro `for_each_cpu(cpu, set)`, which is
`for_each_cpu_except(cpu, set, -1)`. -/
def for_each_cpu (set : cpu_set) : List Nat := for_each_cpu_except set (-1)

/-! ## Cell registry -/

/-- The `retry` loop of `get_free_cell_id`: whenever some cell of the list
has the candidate id, the candidate is incremented and the scan restarts.
The first argument bounds the number of restarts. -/
def get_free_cell_id_loop (cells : List cell) : Nat → Nat → Nat
  | 0, id => id
  | fuel + 1, id =>
    if cells.any (fun c => c.id == id) then get_free_cell_id_loop cells fuel (id + 1)
    else id

/-- `get_free_cell_id()`; a list of `n` cells causes at most `n` restarts. -/
def get_free_cell_id (s : State) : Nat :=
  get_free_cell_id_loop (for_each_cell s) ((for_each_cell s).length + 1) 0

/-- Where `for_each_cell` stops on `cell->id == id`: at the root cell, or at
position `k` of the chain behind it. -/
inductive cell_ref where
  | root
  | chained (k : Nat) (c : cell)

/-- The first cell of the chain with the given id, and its position. -/
def find_chained : List cell → Nat → Option (Nat × cell)
  | [], _ => none
  | c :: cs, id =>
    if c.id = id then some (0, c)
    else (find_chained cs id).map (fun p => (p.1 + 1, p.2))

/-- The loop `for_each_cell(cell) if (cell->id == id) break;`, `none` standing
for the null pointer the loop ends with when no cell has the id. -/
def find_cell (s : State) (id : Nat) : Option cell_ref :=
  if s.root_cell.id = id then some cell_ref.root
  else (find_chained s.cells id).map (fun p => cell_ref.chained p.1 p.2)

/-- Following a cell pointer: the first cell of the list with that id (the
root cell for a pointer that matches no cell). -/
def deref (s : State) (ptr : Nat) : cell :=
  ((for_each_cell s).find? (fun c => c.id == ptr)).getD s.root_cell

/-! ## CPU primitives of the arch layer -/

/-- Modelled from the spec: `arch_suspend_cpu`, which parks the peer in a
safe state until it is resumed. -/
def arch_suspend_cpu (cpu : Nat) (s : State) : State :=
  { s with suspended := fun c => if c = cpu then true else s.suspended c }

/-- Modelled from the spec: `arch_resume_cpu`, which releases a suspended
peer. -/
def arch_resume_cpu (cpu : Nat) (s : State) : State :=
  { s with suspended := fun c => if c = cpu then false else s.suspended c }

/-- Modelled from the spec: `arch_park_cpu`, which leaves the CPU parked. -/
def arch_park_cpu (cpu : Nat) (s : State) : State :=
  { s with parked := fun c => if c = cpu then true else s.parked c }

/-- Modelled from the spec: `arch_reset_cpu`; the CPU begins executing the
guest of its new cell, so it is neither suspended nor parked afterwards. -/
def arch_reset_cpu (cpu : Nat) (s : State) : State :=
  { s with suspended := fun c => if c = cpu then false else s.suspended c,
           parked := fun c => if c = cpu then false else s.parked c }

/-- `cell_suspend(cell, cpu_data)`: suspend every CPU of the cell except the
one the caller runs on. -/
def cell_suspend (target : cell) (cpu_id : Nat) (s : State) : State :=
  (for_each_cpu_except target.cpu_set cpu_id).foldl (fun st c => arch_suspend_cpu c st) s

/-- `cell_resume(cpu_data)`: resume every other CPU of the caller's current
cell. -/
def cell_resume (cpu_id : Nat) (s : State) : State :=
  (for_each_cpu_except (deref s (s.per_cpu cpu_id).cell).cpu_set cpu_id).foldl
    (fun st c => arch_resume_cpu c st) s

/-! ## Frame allocator -/

/-- Modelled from the spec: `page_alloc(&mem_pool, num)`.  Whether the pool
can serve the request is decided by the environment from the number of used
frames; the frames handed out are zero-filled (the source relies on it: it
never initialises `cell->next` or the comm page of a new cell). -/
def page_alloc (env : Env) (num : Nat) (s : State) : Option State :=
  if env.page_alloc_ok s.mem_pool_used num then
    some { s with mem_pool_used := s.mem_pool_used + num }
  else none

/-- Modelled from the spec: `page_free(&mem_pool, page, num)`. -/
def page_free (num : Nat) (s : State) : State :=
  { s with mem_pool_used := s.mem_pool_used - num }

/-! ## Memory-region mapper -/

/-- The translation `arch_map_memory_region` installs for address `a` of the
region: the host frame at the same offset, or the comm page for a region
flagged COMM_REGION. -/
def region_pte (mem : jailhouse_memory) (a : Nat) : pte :=
  { target := if mem.flags &&& JAILHOUSE_MEM_COMM_REGION ≠ 0 then backing.comm_page
              else backing.host (mem.phys_start + (a - mem.virt_start)),
    flags := mem.flags }

/-- A page table with the region installed at its guest-physical range. -/
def map_region (mem : jailhouse_memory) (m : Nat → Option pte) : Nat → Option pte :=
  fun a => if mem.virt_start ≤ a ∧ a < mem.virt_start + mem.size then some (region_pte mem a)
           else m a

/-- A page table with the guest-physical range of the region removed. -/
def unmap_region (mem : jailhouse_memory) (m : Nat → Option pte) : Nat → Option pte :=
  fun a => if mem.virt_start ≤ a ∧ a < mem.virt_start + mem.size then none else m a

/-- Modelled from the spec: `arch_map_memory_region(cell, mem)` of the arch
layer.  It installs the region in the cell's page table, or fails with
out_of_memory and leaves the table as it was. -/
def arch_map_memory_region (env : Env) (c : cell) (mem : jailhouse_memory) : Int × cell :=
  if env.arch_map_ok c.id mem then (0, { c with mappings := map_region mem c.mappings })
  else (-ENOMEM, c)

/-- Modelled from the spec: `arch_unmap_memory_region(cell, mem)` of the arch
layer.  It removes the guest-physical range of the region from the cell's
page table, or fails with out_of_memory and leaves the table as it was. -/
def arch_unmap_memory_region (env : Env) (c : cell) (mem : jailhouse_memory) : Int × cell :=
  if env.arch_unmap_ok c.id mem then (0, { c with mappings := unmap_region mem c.mappings })
  else (-ENOMEM, c)

/-- Modelled from the spec: `arch_cell_create(cpu_data, cell)`, which builds
the guest page table of the cell from its stored configuration, or fails with
out_of_memory and leaves the cell without mappings. -/
def arch_cell_create (env : Env) (c : cell) : Int × cell :=
  if env.arch_cell_create_ok c.config then
    (0, { c with mappings := c.config.mem_regions.foldl (fun m mem => map_region mem m) c.mappings })
  else (-ENOMEM, c)

/-- Modelled from the spec: `arch_cell_destroy(cpu_data, cell)`, which drops
the guest page table of the cell. -/
def arch_cell_destroy (c : cell) : cell :=
  { c with mappings := fun _ => none }

/-- `check_mem_regions(config)` on the region array: `-EINVAL` at the first
region with a misaligned address or size or with a flag outside the mask. -/
def check_mem_regions_loop : List jailhouse_memory → Int
  | [] => 0
  | mem :: rest =>
    if mem.phys_start &&& (PAGE_SIZE - 1) ≠ 0 ∨
       mem.virt_start &&& (PAGE_SIZE - 1) ≠ 0 ∨
       mem.size &&& (PAGE_SIZE - 1) ≠ 0 ∨
       mem.flags ^^^ (mem.flags &&& JAILHOUSE_MEM_VALID_FLAGS) ≠ 0 then -EINVAL
    else check_mem_regions_loop rest

/-- `check_mem_regions(config)`. -/
def check_mem_regions (config : jailhouse_cell_desc) : Int :=
  check_mem_regions_loop config.mem_regions

/-- `address_in_region(addr, region)`; the sum is an `unsigned long`. -/
def address_in_region (addr : Nat) (region : jailhouse_memory) : Bool :=
  decide (addr ≥ region.phys_start) && decide (addr < (region.phys_start + region.size) % 2 ^ 64)

/-- Subtraction of `unsigned long` values. -/
def sub64 (a b : Nat) : Nat := (a + (2 ^ 64 - b % 2 ^ 64)) % 2 ^ 64

/-- The body of the loop of `remap_to_root_cell` up to the call of
`arch_map_memory_region`: the `overlap` of the released region `mem` with the
root region `root_mem`, or `none` where the source says `continue`. -/
def remap_overlap (mem root_mem : jailhouse_memory) : Option jailhouse_memory :=
  if address_in_region mem.phys_start root_mem then
    let phys := mem.phys_start
    let size := sub64 root_mem.size (sub64 phys root_mem.phys_start)
    let size := if size > mem.size then mem.size else size
    some { phys_start := phys, size := size,
           virt_start := sub64 ((root_mem.virt_start + phys) % 2 ^ 64) root_mem.phys_start,
           flags := root_mem.flags }
  else if address_in_region root_mem.phys_start mem then
    let phys := root_mem.phys_start
    let size := sub64 mem.size (sub64 phys mem.phys_start)
    let size := if size > root_mem.size then root_mem.size else size
    some { phys_start := phys, size := size,
           virt_start := sub64 ((root_mem.virt_start + phys) % 2 ^ 64) root_mem.phys_start,
           flags := root_mem.flags }
  else none

/-- `remap_to_root_cell(mem)`: for every region of the root configuration the
overlap is mapped into the root cell; a failure of the mapping is logged
only. -/
def remap_to_root_cell (env : Env) (mem : jailhouse_memory) (s : State) : State :=
  s.root_cell.config.mem_regions.foldl
    (fun st root_mem =>
      match remap_overlap mem root_mem with
      | none => st
      | some overlap => { st with root_cell := (arch_map_memory_region env st.root_cell overlap).2 })
    s

/-! ## Cell lifecycle -/

/-- `memcpy(bitmap, config_cpu_set, cpu_set_size)`: the low `cpu_set_size`
bytes of the bitmap are replaced by those of the configuration.  The number
stands for the memory from the start of the bitmap on: bits of the result
above `max_cpu_id` are bytes that the copy has written behind the bitmap,
into memory that belongs to something else.  The embedding records such a
store here and nowhere else; what it destroys is not modelled, so that the
state is the one of the source only as long as the copy stays within the
bitmap (`cpu_set_fits`). -/
def copy_bitmap (old src cpu_set_size : Nat) : Nat :=
  old / 2 ^ (8 * cpu_set_size) * 2 ^ (8 * cpu_set_size) + src % 2 ^ (8 * cpu_set_size)

/-- `cell_init(cell, copy_cpu_set)`: returns the error code, the initialised
cell and the state (a frame of `mem_pool` may have been taken).  The guard is
the one of the source, `cpu_set_size > PAGE_SIZE`: for a size above
`PAGE_SIZE - sizeof(unsigned long)` that passes it, the copy runs past the
frame of the CPU set (see `copy_bitmap`). -/
def cell_init (env : Env) (c : cell) (copy_cpu_set : Bool) (s : State) : Int × cell × State :=
  let c1 := { c with id := get_free_cell_id s }
  let cpu_set_size := c.config.cpu_set_size
  if cpu_set_size > PAGE_SIZE then (-EINVAL, c1, s)
  else if cpu_set_size > SMALL_BITMAP_BYTES then
    match page_alloc env 1 s with
    | none => (-ENOMEM, c1, s)
    | some s1 =>
      let set : cpu_set := { allocated := true, bitmap := 0 }
      let set := if copy_cpu_set then
          { set with bitmap := copy_bitmap set.bitmap c.config.cpu_set cpu_set_size } else set
      (0, { c1 with cpu_set := set }, s1)
  else
    let set : cpu_set := { allocated := false, bitmap := c.cpu_set.bitmap }
    let set := if copy_cpu_set then
        { set with bitmap := copy_bitmap set.bitmap c.config.cpu_set cpu_set_size } else set
    (0, { c1 with cpu_set := set }, s)

/-- `destroy_cpu_set(cell)`: an allocated CPU set gives its frame back. -/
def destroy_cpu_set (c : cell) (s : State) : State :=
  if c.cpu_set.allocated then page_free 1 s else s

/-- The cell record that `cell_create` obtains from `page_alloc` and fills
with the copy of the configuration. -/
def new_cell (cfg : jailhouse_cell_desc) (cell_pages : Nat) : cell :=
  { id := 0, data_pages := cell_pages, config := cfg,
    cpu_set := { allocated := false, bitmap := 0 },
    comm_region := { msg_to_cell := 0, reply_from_cell := 0, cell_state := 0 },
    mappings := fun _ => none }

/-- The loop of `cell_create` that unmaps the regions of the new cell from
the root cell, each through a copy with `virt_start = phys_start`; it stops
at the first failure.  Regions flagged COMM_REGION are skipped. -/
def unmap_from_root (env : Env) : List jailhouse_memory → State → Int × State
  | [], s => (0, s)
  | mem :: rest, s =>
    if mem.flags &&& JAILHOUSE_MEM_COMM_REGION = 0 then
      let tmp := { mem with virt_start := mem.phys_start }
      let r := arch_unmap_memory_region env s.root_cell tmp
      if r.1 ≠ 0 then (r.1, { s with root_cell := r.2 })
      else unmap_from_root env rest { s with root_cell := r.2 }
    else unmap_from_root env rest s

/-- The bitmap with the bits of all listed CPUs cleared. -/
def clear_bits (cpus : List Nat) (bitmap : Nat) : Nat :=
  cpus.foldl (fun b c => clear_bit c b) bitmap

/-- The bitmap with the bits of all listed CPUs set. -/
def set_bits (cpus : List Nat) (bitmap : Nat) : Nat :=
  cpus.foldl (fun b c => set_bit c b) bitmap

/-- The state with another bitmap in the root cell's CPU set. -/
def with_root_bitmap (bitmap : Nat) (s : State) : State :=
  { s with root_cell := { s.root_cell with
      cpu_set := { s.root_cell.cpu_set with bitmap := bitmap } } }

/-- The exit `err_resume` of `cell_create`. -/
def err_resume (cpu_id : Nat) (err : Int) (s : State) : Int × State :=
  (err, cell_resume cpu_id s)

/-- The exit `err_free_cell` of `cell_create`. -/
def err_free_cell (cpu_id : Nat) (cell_pages : Nat) (err : Int) (s : State) : Int × State :=
  err_resume cpu_id err (page_free cell_pages s)

/-- The exit `err_free_cpu_set` of `cell_create`. -/
def err_free_cpu_set (cpu_id : Nat) (c : cell) (cell_pages : Nat) (err : Int) (s : State) :
    Int × State :=
  err_free_cell cpu_id cell_pages err (destroy_cpu_set c s)

/-- The exit `err_restore_root` of `cell_create`: every region of the
configuration is remapped to the root cell and the bits of the new cell are
set in the root's bitmap again. -/
def err_restore_root (env : Env) (cpu_id : Nat) (c : cell) (cell_pages : Nat) (err : Int)
    (s : State) : Int × State :=
  let s1 := c.config.mem_regions.foldl (fun st mem => remap_to_root_cell env mem st) s
  let s2 := with_root_bitmap (set_bits (for_each_cpu c.cpu_set) s1.root_cell.cpu_set.bitmap) s1
  err_free_cpu_set cpu_id c cell_pages err s2

/-- The state with `per_cpu(cpu)->cell = ptr`. -/
def set_per_cpu_cell (cpu ptr : Nat) (s : State) : State :=
  { s with per_cpu := fun c => if c = cpu then { s.per_cpu c with cell := ptr } else s.per_cpu c }

/-- The state with `per_cpu(cpu)->failed = false`. -/
def clear_per_cpu_failed (cpu : Nat) (s : State) : State :=
  { s with per_cpu := fun c => if c = cpu then { s.per_cpu c with failed := false }
                               else s.per_cpu c }

/-- The end of `cell_create`: the new cell is appended to the list, the
per-CPU records of its CPUs are pointed at it, the CPUs are reset, the root
cell is resumed and the id of the new cell is returned. -/
def cell_create_publish (cpu_id : Nat) (c : cell) (s : State) : Int × State :=
  let s2 := { s with cells := s.cells ++ [c], num_cells := s.num_cells + 1 }
  let s3 := (for_each_cpu c.cpu_set).foldl (fun st cpu => set_per_cpu_cell cpu c.id st) s2
  let s4 := (for_each_cpu c.cpu_set).foldl
    (fun st cpu => arch_reset_cpu cpu (clear_per_cpu_failed cpu st)) s3
  (c.id, cell_resume cpu_id s4)

/-- The part of `cell_create` that hands the memory over: the regions of the
new cell are unmapped from the root cell and `arch_cell_create` builds the
page table of the cell; a failure of either leaves through
`err_restore_root`. -/
def cell_create_assign (env : Env) (cpu_id : Nat) (c : cell) (cell_pages : Nat) (s : State) :
    Int × State :=
  let r := unmap_from_root env c.config.mem_regions s
  if r.1 ≠ 0 then err_restore_root env cpu_id c cell_pages r.1 r.2
  else
  let a := arch_cell_create env c
  if a.1 ≠ 0 then err_restore_root env cpu_id a.2 cell_pages a.1 r.2
  else cell_create_publish cpu_id a.2 r.2

/-- The part of `cell_create` behind `cell_init`: the admission of the CPU
set (the caller's CPU must not be assigned, the shrinking set must be a
superset) and the shrinking of the root cell's CPU set. -/
def cell_create_commit (env : Env) (cpu_id : Nat) (c : cell) (cell_pages : Nat) (s : State) :
    Int × State :=
  if cpu_id ≤ c.cpu_set.max_cpu_id ∧ test_bit cpu_id c.cpu_set.bitmap = true then
    err_free_cpu_set cpu_id c cell_pages (-EBUSY) s
  else
  let shrinking_set := (deref s (s.per_cpu cpu_id).cell).cpu_set
  if shrinking_set.max_cpu_id < c.cpu_set.max_cpu_id then
    err_free_cpu_set cpu_id c cell_pages (-EBUSY) s
  else if (for_each_cpu c.cpu_set).any (fun cpu => test_bit cpu shrinking_set.bitmap = false) then
    err_free_cpu_set cpu_id c cell_pages (-EBUSY) s
  else
    cell_create_assign env cpu_id c cell_pages
      (with_root_bitmap (clear_bits (for_each_cpu c.cpu_set) shrinking_set.bitmap) s)

/-- The number of frames `cell_create` allocates for the cell record:
`PAGE_ALIGN(sizeof(*cell) + cfg_total_size) / PAGE_SIZE`. -/
def create_pages (env : Env) (cfg : jailhouse_cell_desc) : Nat :=
  (env.sizeof_cell + cfg.config_size + (PAGE_SIZE - 1)) / PAGE_SIZE

/-- The part of `cell_create` that allocates the cell record, copies the
configuration into it and calls `cell_init`. -/
def cell_create_alloc (env : Env) (cpu_id : Nat) (cfg : jailhouse_cell_desc) (s : State) :
    Int × State :=
  match page_alloc env (create_pages env cfg) s with
  | none => err_resume cpu_id (-ENOMEM) s
  | some s1 =>
    let i := cell_init env (new_cell cfg (create_pages env cfg)) true s1
    if i.1 ≠ 0 then err_free_cell cpu_id (create_pages env cfg) i.1 i.2.2
    else cell_create_commit env cpu_id i.2.1 (create_pages env cfg) i.2.2

/-- `cell_create(cpu_data, config_address)`; `cpu_id` is the CPU of the
caller.  Returns the value of the hypercall and the state it leaves. -/
def cell_create (env : Env) (cpu_id : Nat) (config_address : Nat) (s : State) : Int × State :=
  if (s.per_cpu cpu_id).cell ≠ s.root_cell.id then (-EPERM, s)
  else
  let s0 := cell_suspend s.root_cell cpu_id s
  let cfg_page_offs := config_address &&& (PAGE_SIZE - 1)
  let cfg_header_size := cfg_page_offs + env.sizeof_cell_desc
  if env.page_map_create_ok (config_address - cfg_page_offs) cfg_header_size = false then
    err_resume cpu_id (-ENOMEM) s0
  else
  let cfg := env.config_at config_address
  let cfg_total_size := cfg.config_size
  if cfg_total_size + cfg_page_offs > NUM_TEMPORARY_PAGES * PAGE_SIZE then
    err_resume cpu_id (-E2BIG) s0
  else if (for_each_cell s0).any (fun c => c.config.name == cfg.name) then
    err_resume cpu_id (-EEXIST) s0
  else if env.page_map_create_ok (config_address - cfg_page_offs)
      (cfg_total_size + cfg_page_offs) = false then
    err_resume cpu_id (-ENOMEM) s0
  else if check_mem_regions cfg ≠ 0 then err_resume cpu_id (check_mem_regions cfg) s0
  else cell_create_alloc env cpu_id cfg s0

/-- `jailhouse_send_msg_to_cell(comm_region, msg)`: the reply is cleared
before the message is stored. -/
def jailhouse_send_msg_to_cell (comm : jailhouse_comm_region) (msg : Nat) :
    jailhouse_comm_region :=
  { comm with reply_from_cell := JAILHOUSE_MSG_NONE, msg_to_cell := msg }

/-- `jailhouse_send_reply_from_cell(comm_region, reply)`, the guest's side of
the protocol: the message is cleared before the reply is stored. -/
def jailhouse_send_reply_from_cell (comm : jailhouse_comm_region) (reply : Nat) :
    jailhouse_comm_region :=
  { comm with msg_to_cell := JAILHOUSE_MSG_NONE, reply_from_cell := reply }

/-- The comm region at the time of load `n` of the hypervisor: the guest has
acted on the region `n + 1` times since the request was stored. -/
def comm_at (comm : jailhouse_comm_region)
    (guest : Nat → jailhouse_comm_region → jailhouse_comm_region) : Nat → jailhouse_comm_region
  | 0 => guest 0 comm
  | n + 1 => guest (n + 1) (comm_at comm guest n)

/-- The volatile loads from a comm region that the guest writes to: load `n`
returns what `reply_from_cell` and `cell_state` hold then. -/
def comm_loads (comm : jailhouse_comm_region)
    (guest : Nat → jailhouse_comm_region → jailhouse_comm_region) (n : Nat) : Nat × Nat :=
  ((comm_at comm guest n).reply_from_cell, (comm_at comm guest n).cell_state)

/-- The spin loop of `cell_shutdown_ok`.  `obs n` is what the `n`-th volatile
load returns, as `(reply_from_cell, cell_state)`; a round that does not leave
the loop has loaded four times: the reply for the loop condition, the reply
again and the cell state twice for the three tests of the body.  The first
argument bounds the number of rounds; `none` stands for a loop that is still
spinning.  The result is the answer together with the number of the last
load. -/
def shutdown_spin (obs : Nat → Nat × Nat) : Nat → Nat → Option (Bool × Nat)
  | 0, _ => none
  | fuel + 1, t =>
    if (obs t).1 = JAILHOUSE_MSG_SHUTDOWN_DENIED then some (false, t)
    else if (obs (t + 1)).1 = JAILHOUSE_MSG_SHUTDOWN_OK then some (true, t + 1)
    else if (obs (t + 2)).2 = JAILHOUSE_CELL_SHUT_DOWN then some (true, t + 2)
    else if (obs (t + 3)).2 = JAILHOUSE_CELL_FAILED then some (true, t + 3)
    else shutdown_spin obs fuel (t + 4)

/-- `cell_shutdown_ok(cell)`: the answer and the cell with its comm region as
it is when the function returns.  The request is stored first
(`jailhouse_send_msg_to_cell`); every load of the loop reads the comm region,
which holds the stores of the hypervisor and those the guest has made since;
the region returned is the one the last load has read from. -/
def cell_shutdown_ok (env : Env) (fuel : Nat) (c : cell) : Option (Bool × cell) :=
  if c.config.flags &&& JAILHOUSE_CELL_UNMANAGED_EXIT ≠ 0 then some (true, c)
  else
    let comm := jailhouse_send_msg_to_cell c.comm_region JAILHOUSE_MSG_SHUTDOWN_REQUESTED
    (shutdown_spin (comm_loads comm (env.guest c.id)) fuel 0).map (fun r =>
      (r.1, { c with comm_region := comm_at comm (env.guest c.id) r.2 }))

/-- The body of the first loop of `cell_destroy` for one CPU of the target:
park it, give it back to the root cell, clear its failure flag.  `set_bit`
has no bound check: for a CPU above the root's `max_cpu_id` the store would
land behind the root's bitmap, which the number records as a bit above the
cap.  `cell_create` admits a cell only if the cap of its CPU set is at most
the root's, so that the CPUs of a chained cell are within the root's cap. -/
def park_and_reassign (cpu : Nat) (s : State) : State :=
  let s1 := arch_park_cpu cpu s
  let s2 := with_root_bitmap (set_bit cpu s1.root_cell.cpu_set.bitmap) s1
  clear_per_cpu_failed cpu (set_per_cpu_cell cpu s2.root_cell.id s2)

/-- The second loop of `cell_destroy` as far as it concerns the root cell:
every region that is not flagged COMM_REGION is remapped to the root cell.
(The page table of the target, from which `arch_unmap_memory_region` removes
every region and which `arch_cell_destroy` drops, leaves the state together
with the cell.) -/
def release_regions (env : Env) (regions : List jailhouse_memory) (s : State) : State :=
  regions.foldl
    (fun st mem =>
      if mem.flags &&& JAILHOUSE_MEM_COMM_REGION = 0 then remap_to_root_cell env mem st else st)
    s

/-- `cell_destroy(cpu_data, id)`.  `fuel` bounds the rounds of the spin loop
of `cell_shutdown_ok`; the result is `none` while the guest has not answered
within these rounds. -/
def cell_destroy (env : Env) (fuel : Nat) (cpu_id : Nat) (id : Nat) (s : State) :
    Option (Int × State) :=
  if (s.per_cpu cpu_id).cell ≠ s.root_cell.id then some (-EPERM, s)
  else
  let s0 := cell_suspend s.root_cell cpu_id s
  match find_cell s0 id with
  | none => some (-ENOENT, cell_resume cpu_id s0)
  | some cell_ref.root => some (-EINVAL, cell_resume cpu_id s0)
  | some (cell_ref.chained k c) =>
    match cell_shutdown_ok env fuel c with
    | none => none
    | some (false, c1) =>
      some (-EPERM, cell_resume cpu_id { s0 with cells := s0.cells.set k c1 })
    | some (true, c1) =>
      let s1 := cell_suspend c1 cpu_id { s0 with cells := s0.cells.set k c1 }
      let s2 := (for_each_cpu c1.cpu_set).foldl (fun st cpu => park_and_reassign cpu st) s1
      let s3 := release_regions env c1.config.mem_regions s2
      let s4 := { s3 with cells := s3.cells.eraseIdx k, num_cells := s3.num_cells - 1 }
      let s5 := page_free c1.data_pages s4
      some (0, cell_resume cpu_id s5)

/-! ## Properties of states -/

/-- The cell maps the host-physical address `p` at some guest-physical
address. -/
def cell.maps_host (c : cell) (p : Nat) : Prop :=
  ∃ a fl, c.mappings a = some { target := backing.host p, flags := fl }

/-- A guest that answers a shutdown request: all it does to the comm region
after the request is `jailhouse_send_reply_from_cell` with the reply `v`,
between load `n - 1` and load `n` of the hypervisor. -/
def guest_answers (guest : Nat → jailhouse_comm_region → jailhouse_comm_region) (n v : Nat) :
    Prop :=
  (∀ comm, guest n comm = jailhouse_send_reply_from_cell comm v) ∧
  ∀ j comm, j ≠ n → guest j comm = comm

/-- The ids that `next_cpu` accepts: not the excepted one, bit set. -/
def cpu_accepted (set : cpu_set) (exception : Int) (c : Nat) : Prop :=
  c ≠ (exception % 2 ^ 32).toNat ∧ test_bit c set.bitmap = true

/-- The two states differ in the `suspended` flags only. -/
def same_but_suspended (s s' : State) : Prop := s' = { s with suspended := s'.suspended }

/-- The page table of the root cell behind the unmapping loop of
`cell_create` (`unmap_from_root`), with the error code of the loop. -/
def unmap_pt (env : Env) (root_id : Nat) :
    List jailhouse_memory → (Nat → Option pte) → Int × (Nat → Option pte)
  | [], m => (0, m)
  | mem :: rest, m =>
    if mem.flags &&& JAILHOUSE_MEM_COMM_REGION = 0 then
      if env.arch_unmap_ok root_id { mem with virt_start := mem.phys_start } then
        unmap_pt env root_id rest (unmap_region { mem with virt_start := mem.phys_start } m)
      else (-ENOMEM, m)
    else unmap_pt env root_id rest m

/-- The page table of the root cell behind `remap_to_root_cell(mem)`. -/
def remap_pt (env : Env) (root_id : Nat) (root_regions : List jailhouse_memory)
    (mem : jailhouse_memory) (m : Nat → Option pte) : Nat → Option pte :=
  root_regions.foldl
    (fun pt root_mem =>
      match remap_overlap mem root_mem with
      | none => pt
      | some overlap => if env.arch_map_ok root_id overlap then map_region overlap pt else pt)
    m

/-- The page table of the root cell behind the remapping loop of the exit
`err_restore_root`. -/
def rollback_pt (env : Env) (root_id : Nat) (root_regions regions : List jailhouse_memory)
    (m : Nat → Option pte) : Nat → Option pte :=
  regions.foldl (fun pt mem => remap_pt env root_id root_regions mem pt) m

/-- The page table of the root cell behind the remapping loop of
`cell_destroy` (`release_regions`). -/
def release_pt (env : Env) (root_id : Nat) (root_regions regions : List jailhouse_memory)
    (m : Nat → Option pte) : Nat → Option pte :=
  regions.foldl
    (fun pt mem =>
      if mem.flags &&& JAILHOUSE_MEM_COMM_REGION = 0 then remap_pt env root_id root_regions mem pt
      else pt)
    m

/-- The CPU set that `cell_init` builds for a new cell from its
configuration: the storage chosen by the size, the bitmap copied into zeroed
storage. -/
def create_cpu_set (cfg : jailhouse_cell_desc) : cpu_set :=
  { allocated := decide (cfg.cpu_set_size > SMALL_BITMAP_BYTES),
    bitmap := cfg.cpu_set % 2 ^ (8 * cfg.cpu_set_size) }

/-- The copy of the CPU bitmap in `cell_init` stays within the bitmap of the
new CPU set: whenever `cell_init` gets as far as the copy
(`cpu_set_size <= PAGE_SIZE`), the `cpu_set_size` bytes are at most the
`max_cpu_id + 1` bits of the storage chosen. -/
def cpu_set_fits (cfg : jailhouse_cell_desc) : Prop :=
  cfg.cpu_set_size ≤ PAGE_SIZE → cfg.cpu_set_size * 8 ≤ (create_cpu_set cfg).max_cpu_id + 1

/-- The cell that a successful `cell_create` appends to the list. -/
def create_cell (env : Env) (cfg : jailhouse_cell_desc) (s : State) : cell :=
  { id := get_free_cell_id s, data_pages := create_pages env cfg, config := cfg,
    cpu_set := create_cpu_set cfg,
    comm_region := { msg_to_cell := 0, reply_from_cell := 0, cell_state := 0 },
    mappings := cfg.mem_regions.foldl (fun m mem => map_region mem m) (fun _ => none) }

/-- The three reasons for which `cell_create` answers busy: the caller's CPU
is in the new set, the root's set has the smaller cap, some CPU of the new
set has no bit in the root's bitmap. -/
def create_busy (cpu_id : Nat) (set root : cpu_set) : Prop :=
  set.contains cpu_id = true ∨ root.max_cpu_id < set.max_cpu_id ∨
  ∃ x, set.contains x = true ∧ test_bit x root.bitmap = false

/-- The configuration passes the stages of `cell_create` that precede the
admission of the CPU set: both temporary mappings, the size check, the name
check, the region validation, the allocation of the cell record and
`cell_init`. -/
def create_stages_pass (env : Env) (config_address : Nat) (s : State) : Prop :=
  let cfg := env.config_at config_address
  let offs := config_address &&& (PAGE_SIZE - 1)
  env.page_map_create_ok (config_address - offs) (offs + env.sizeof_cell_desc) = true ∧
  cfg.config_size + offs ≤ NUM_TEMPORARY_PAGES * PAGE_SIZE ∧
  (∀ c ∈ for_each_cell s, c.config.name ≠ cfg.name) ∧
  env.page_map_create_ok (config_address - offs) (cfg.config_size + offs) = true ∧
  check_mem_regions cfg = 0 ∧
  env.page_alloc_ok s.mem_pool_used (create_pages env cfg) = true ∧
  cfg.cpu_set_size ≤ PAGE_SIZE ∧
  (cfg.cpu_set_size > SMALL_BITMAP_BYTES →
    env.page_alloc_ok (s.mem_pool_used + create_pages env cfg) 1 = true)

/-- The cell record behind `cell_init`, before `arch_cell_create` has built
its page table. -/
def init_cell (env : Env) (cfg : jailhouse_cell_desc) (s : State) : cell :=
  { create_cell env cfg s with mappings := fun _ => none }

/-! ## Scenarios -/


/-- The root configuration of the scenarios: CPUs 0..3, one region. -/
def scenario_root_config : jailhouse_cell_desc :=
  { name := "root", flags := 0, cpu_set_size := 1, cpu_set := 15,
    mem_regions := [{ phys_start := 0, virt_start := 0, size := 0x10000000, flags := 3 }],
    config_size := 100 }

/-- The configuration of scenario 1: "guestA" on CPUs 2 and 3 with one
region of 16 MiB at 0x8000000. -/
def scenario_guest_config : jailhouse_cell_desc :=
  { name := "guestA", flags := 0, cpu_set_size := 1, cpu_set := 12,
    mem_regions := [{ phys_start := 0x8000000, virt_start := 0x8000000, size := 0x1000000,
                      flags := 3 }],
    config_size := 100 }

/-- The state of the scenarios: only the root cell, which owns CPUs 0..3 and
maps its memory 1:1. -/
def scenario_state : State :=
  { root_cell := { id := 0, data_pages := 0, config := scenario_root_config,
                   cpu_set := { allocated := false, bitmap := 15 },
                   comm_region := { msg_to_cell := 0, reply_from_cell := 0, cell_state := 0 },
                   mappings := map_region
                     { phys_start := 0, virt_start := 0, size := 0x10000000, flags := 3 }
                     (fun _ => none) },
    cells := [], num_cells := 1,
    per_cpu := fun _ => { cell := 0, failed := false, cpu_stopped := false, shutdown_state := 0 },
    mem_pool_used := 10, suspended := fun _ => false, parked := fun _ => false }

/-- An environment in which every call into the absent layers succeeds, the
given configuration is found at every address and every guest answers a
shutdown request with the given reply before the first load. -/
def scenario_env (cfg : jailhouse_cell_desc) (reply : Nat) : Env :=
  { sizeof_cell := 4096, sizeof_cell_desc := 64, config_at := fun _ => cfg,
    page_map_create_ok := fun _ _ => true, page_alloc_ok := fun _ _ => true,
    arch_map_ok := fun _ _ => true, arch_unmap_ok := fun _ _ => true,
    arch_cell_create_ok := fun _ => true,
    guest := fun _ n comm => if n = 0 then jailhouse_send_reply_from_cell comm reply else comm }


/-- The state of scenario 4 and 5: scenario 1 has created "guestA". -/
def scenario_state_with_guest : State :=
  (cell_create (scenario_env scenario_guest_config 2) 0 0x5000 scenario_state).2

/-- The cell "guestA" of the scenarios. -/
def scenario_guest_cell : cell :=
  create_cell (scenario_env scenario_guest_config 2) scenario_guest_config scenario_state

/-- The address lies in the host-physical range of the region. -/
def jailhouse_memory.contains_phys (R : jailhouse_memory) (a : Nat) : Prop :=
  R.phys_start ≤ a ∧ a < R.phys_start + R.size

/-- The address lies in the guest-physical range of the region. -/
def jailhouse_memory.contains_virt (R : jailhouse_memory) (a : Nat) : Prop :=
  R.virt_start ≤ a ∧ a < R.virt_start + R.size

/-- The page table holds at `a` what some remapping of a region of `regs`
against a region of `root_regions` installs there. -/
def remapped_at (root_regions regs : List jailhouse_memory) (m : Nat → Option pte) (a : Nat) :
    Prop :=
  ∃ R ∈ regs, ∃ S ∈ root_regions, ∃ o, remap_overlap R S = some o ∧ o.contains_virt a ∧
    m a = some (region_pte o a)

/-- One step of `remap_pt`. -/
def remap_step (env : Env) (root_id : Nat) (mem : jailhouse_memory) (pt : Nat → Option pte)
    (root_mem : jailhouse_memory) : Nat → Option pte :=
  match remap_overlap mem root_mem with
  | none => pt
  | some overlap => if env.arch_map_ok root_id overlap then map_region overlap pt else pt

/-- The regions are identity-mapped host memory: guest-physical and
host-physical start agree, the range does not wrap, and the region is not
flagged COMM_REGION. -/
def identity_mapped (regions : List jailhouse_memory) : Prop :=
  ∀ S ∈ regions, S.virt_start = S.phys_start ∧ S.phys_start + S.size < 2 ^ 64 ∧
    S.flags &&& JAILHOUSE_MEM_COMM_REGION = 0

/-- The configuration of a second guest that names the region of "guestA"
again, on CPU 1. -/
def scenario_second_config : jailhouse_cell_desc :=
  { scenario_guest_config with name := "guestB", cpu_set := 2 }

/-- As `scenario_env`, but every `arch_map_memory_region` fails. -/
def failing_map_env (cfg : jailhouse_cell_desc) : Env :=
  { scenario_env cfg 2 with arch_map_ok := fun _ _ => false }

/-! ## The memory partition -/

/-- The page table maps the host-physical address `p` at some guest-physical
address. -/
def pt_maps_host (m : Nat → Option pte) (p : Nat) : Prop :=
  ∃ a fl, m a = some { target := backing.host p, flags := fl }

/-- The configured regions and the page table of each chained cell. -/
def cell_views (s : State) : List (List jailhouse_memory × (Nat → Option pte)) :=
  s.cells.map (fun c => (c.config.mem_regions, c.mappings))

/-- No host address lies in a region of the one list and a region of the
other, regions flagged COMM_REGION apart. -/
def regions_disjoint (l1 l2 : List jailhouse_memory) : Prop :=
  ∀ R ∈ l1, ∀ R' ∈ l2, R.flags &&& JAILHOUSE_MEM_COMM_REGION = 0 →
    R'.flags &&& JAILHOUSE_MEM_COMM_REGION = 0 →
    ∀ p, ¬ (R.contains_phys p ∧ R'.contains_phys p)

/-- The admission that `cell_create` does not check: the regions of the
configuration do not wrap around 2^64 and share no host address with a region
of a chained cell that is not flagged COMM_REGION. -/
def admissible (cfg : jailhouse_cell_desc) (s : State) : Prop :=
  (∀ R ∈ cfg.mem_regions, R.phys_start + R.size < 2 ^ 64) ∧
  ∀ c ∈ s.cells, ∀ R ∈ cfg.mem_regions, ∀ R' ∈ c.config.mem_regions,
    R'.flags &&& JAILHOUSE_MEM_COMM_REGION = 0 →
    ∀ p, ¬ (R.contains_phys p ∧ R'.contains_phys p)

/-- The states that calls of `cell_create` with admissible configurations
whose CPU bitmap fits, and returning calls of `cell_destroy`, reach from
`s0`, whatever the calls return. -/
inductive reachable (s0 : State) : State → Prop
  | init : reachable s0 s0
  | create (env : Env) (cpu addr : Nat) (s : State) :
      reachable s0 s → admissible (env.config_at addr) s → cpu_set_fits (env.config_at addr) →
      reachable s0 (cell_create env cpu addr s).2
  | destroy (env : Env) (fuel cpu id : Nat) (s : State) (r : Int) (s' : State) :
      reachable s0 s → cell_destroy env fuel cpu id s = some (r, s') → reachable s0 s'

/-- No host-physical address is mapped by two live cells. -/
def frames_partitioned (s : State) : Prop :=
  (for_each_cell s).Pairwise (fun c c' => ∀ p, ¬ (c.maps_host p ∧ c'.maps_host p))

/-- The invariant behind the memory partition: the root configuration is
identity-mapped and the root page table maps 1:1; the regions of the chained
cells do not wrap, a chained cell maps host memory only inside its regions,
the root maps nothing inside them, and the regions of two chained cells are
disjoint. -/
def mem_inv (s : State) : Prop :=
  identity_mapped s.root_cell.config.mem_regions ∧
  (∀ a p fl, s.root_cell.mappings a = some { target := backing.host p, flags := fl } → a = p) ∧
  (∀ v ∈ cell_views s, ∀ R ∈ v.1, R.phys_start + R.size < 2 ^ 64) ∧
  (∀ v ∈ cell_views s, ∀ p, pt_maps_host v.2 p →
    ∃ R ∈ v.1, R.flags &&& JAILHOUSE_MEM_COMM_REGION = 0 ∧ R.contains_phys p) ∧
  (∀ v ∈ cell_views s, ∀ R ∈ v.1, R.flags &&& JAILHOUSE_MEM_COMM_REGION = 0 →
    ∀ p, R.contains_phys p → ¬ pt_maps_host s.root_cell.mappings p) ∧
  (cell_views s).Pairwise (fun v v' => regions_disjoint v.1 v'.1)

/-! ## State queries, panic and shutdown -/

/-- Modelled from the spec: the values of `per_cpu.shutdown_state` that are
not error codes (`control.h` is not among the sources). -/
def SHUTDOWN_NONE : Int := 0
/-- Shutdown state STARTED. -/
def SHUTDOWN_STARTED : Int := 1

/-- Modelled from the spec: the results of `cpu_get_state` (the generic
hypercall header is not among the sources). -/
def JAILHOUSE_CPU_RUNNING : Int := 0
/-- CPU state FAILED. -/
def JAILHOUSE_CPU_FAILED : Int := 2

/-- `cell_get_state(cpu_data, id)`: the value of the hypercall and the state,
which the function only reads. -/
def cell_get_state (cpu_id : Nat) (id : Nat) (s : State) : Int × State :=
  if (s.per_cpu cpu_id).cell ≠ s.root_cell.id then (-EPERM, s)
  else
    match (for_each_cell s).find? (fun c => c.id == id) with
    | some c =>
      let state := c.comm_region.cell_state
      if state = JAILHOUSE_CELL_RUNNING ∨ state = JAILHOUSE_CELL_SHUT_DOWN ∨
          state = JAILHOUSE_CELL_FAILED then ((state : Int), s)
      else (-EINVAL, s)
    | none => (-ENOENT, s)

/-- `cpu_id_valid(cpu_id)`; `system` is the descriptor
`system_config->system`, the product is an `unsigned int`. -/
def cpu_id_valid (system : jailhouse_cell_desc) (cpu_id : Nat) : Bool :=
  decide (cpu_id < (system.cpu_set_size * 8) % 2 ^ 32) && test_bit cpu_id system.cpu_set

/-- `cpu_get_state(cpu_data, cpu_id)`; `caller` is the CPU of the caller. -/
def cpu_get_state (system : jailhouse_cell_desc) (caller : Nat) (cpu_id : Nat) (s : State) :
    Int × State :=
  if cpu_id_valid system cpu_id = false then (-EINVAL, s)
  else if (s.per_cpu caller).cell ≠ s.root_cell.id ∧
      (cpu_id > (deref s (s.per_cpu caller).cell).cpu_set.max_cpu_id ∨
        test_bit cpu_id (deref s (s.per_cpu caller).cell).cpu_set.bitmap = false) then (-EPERM, s)
  else ((if (s.per_cpu cpu_id).failed then JAILHOUSE_CPU_FAILED else JAILHOUSE_CPU_RUNNING), s)

/-- A store through a cell pointer: the first cell of the list with that id
is replaced (the root cell for a pointer that matches no cell, as in
`deref`). -/
def update_cell (s : State) (ptr : Nat) (f : cell → cell) : State :=
  if s.root_cell.id = ptr then { s with root_cell := f s.root_cell }
  else
    match find_chained s.cells ptr with
    | some (k, c) => { s with cells := s.cells.set k (f c) }
    | none => { s with root_cell := f s.root_cell }

/-- Modelled from the spec: `arch_panic_halt`, the arch-specific halt; the
CPU stays parked. -/
def arch_panic_halt (cpu : Nat) (s : State) : State :=
  { s with parked := fun c => if c = cpu then true else s.parked c }

/-- `panic_halt(cpu_data)`: the CPU is marked failed; when the scan of the
CPU set of its cell finds no CPU that has not failed, the cell state becomes
FAILED.  (The panic token `panic_in_progress` is not part of the state.) -/
def panic_halt (cpu_id : Nat) (s : State) : State :=
  let ptr := (s.per_cpu cpu_id).cell
  let s1 := { s with per_cpu := fun c =>
    if c = cpu_id then { s.per_cpu c with failed := true } else s.per_cpu c }
  let cell_failed := (for_each_cpu (deref s1 ptr).cpu_set).all (fun cpu => (s1.per_cpu cpu).failed)
  let s2 := if cell_failed then
      update_cell s1 ptr (fun c =>
        { c with comm_region := { c.comm_region with cell_state := JAILHOUSE_CELL_FAILED } })
    else s1
  arch_panic_halt cpu_id s2

/-- What a call of `shutdown` did besides changing the state: whether it took
`shutdown_lock` (it releases it before it returns), the CPUs handed to
`arch_shutdown_cpu`, in order, and whether `arch_shutdown` was called. -/
structure shutdown_trace where
  lock_taken : Bool
  cpus_shut_down : List Nat
  hypervisor_shut_down : Bool
deriving DecidableEq

/-- The first loop of `shutdown`: every cell behind the root is asked; a
refusal turns the chosen state into `-EPERM`, and the loop goes on. -/
def shutdown_ask (env : Env) (fuel : Nat) : Int → List cell → Option (Int × List cell)
  | state, [] => some (state, [])
  | state, c :: rest =>
    match cell_shutdown_ok env fuel c with
    | none => none
    | some (ok, c1) =>
      (shutdown_ask env fuel (if ok then state else -EPERM) rest).map
        (fun r => (r.1, c1 :: r.2))

/-- The second loop of `shutdown`: every cell behind the root is suspended
and its CPUs are handed to `arch_shutdown_cpu`. -/
def shutdown_cells (cpu_id : Nat) (cells : List cell) (s : State) : State × List Nat :=
  cells.foldl
    (fun (r : State × List Nat) c => (cell_suspend c cpu_id r.1, r.2 ++ for_each_cpu c.cpu_set))
    (s, [])

/-- The state with `per_cpu(cpu)->shutdown_state = state`. -/
def set_shutdown_state (cpu : Nat) (state : Int) (s : State) : State :=
  { s with per_cpu := fun c =>
    if c = cpu then { s.per_cpu c with shutdown_state := state } else s.per_cpu c }

/-- The part of `shutdown` that only the first arriver runs. -/
def shutdown_first (env : Env) (fuel : Nat) (cpu_id : Nat) (s : State) :
    Option (State × shutdown_trace) :=
  match shutdown_ask env fuel SHUTDOWN_STARTED s.cells with
  | none => none
  | some (state, cells1) =>
    let s1 := { s with cells := cells1 }
    let r := if state = SHUTDOWN_STARTED then
        let d := shutdown_cells cpu_id s1.cells s1
        (d.1, ({ lock_taken := true, cpus_shut_down := d.2,
                 hypervisor_shut_down := true } : shutdown_trace))
      else (s1, { lock_taken := true, cpus_shut_down := [], hypervisor_shut_down := false })
    some ((for_each_cpu r.1.root_cell.cpu_set).foldl
      (fun st cpu => set_shutdown_state cpu state st) r.1, r.2)

/-- `shutdown(cpu_data)`.  `fuel` bounds the rounds of each spin loop of
`cell_shutdown_ok`; the result is `none` while some guest has not answered
within these rounds. -/
def shutdown (env : Env) (fuel : Nat) (cpu_id : Nat) (s : State) :
    Option (Int × State × shutdown_trace) :=
  if (s.per_cpu cpu_id).cell ≠ s.root_cell.id then
    some (-EPERM, s, { lock_taken := false, cpus_shut_down := [], hypervisor_shut_down := false })
  else
    let first :=
      if (s.per_cpu cpu_id).shutdown_state = SHUTDOWN_NONE then shutdown_first env fuel cpu_id s
      else some (s, { lock_taken := true, cpus_shut_down := [], hypervisor_shut_down := false })
    first.map (fun r =>
      let ret := if (r.1.per_cpu cpu_id).shutdown_state = SHUTDOWN_STARTED then 0
                 else (r.1.per_cpu cpu_id).shutdown_state
      (ret, set_shutdown_state cpu_id SHUTDOWN_NONE r.1, r.2))

/-- The loads of a hypervisor that sees one pair `(reply_from_cell,
cell_state)` in each round of the spin loop: the four loads of round `r`
return the components of `pairs r`. -/
def round_loads (pairs : Nat → Nat × Nat) : Nat → Nat × Nat := fun n => pairs (n / 4)

/-- The pair decides the spin loop: the reply is DENIED or OK, or the cell
state is SHUT_DOWN or FAILED. -/
def decisive (p : Nat × Nat) : Prop :=
  p.1 = JAILHOUSE_MSG_SHUTDOWN_DENIED ∨ p.1 = JAILHOUSE_MSG_SHUTDOWN_OK ∨
  p.2 = JAILHOUSE_CELL_SHUT_DOWN ∨ p.2 = JAILHOUSE_CELL_FAILED

/-- The states that calls of `cell_create` and returning calls of
`cell_destroy` reach from `s0`, whatever the arguments and whatever the calls
return, as long as the CPU bitmap of every configuration fits. -/
inductive lifecycle (s0 : State) : State → Prop
  | init : lifecycle s0 s0
  | create (env : Env) (cpu addr : Nat) (s : State) :
      lifecycle s0 s → cpu_set_fits (env.config_at addr) →
      lifecycle s0 (cell_create env cpu addr s).2
  | destroy (env : Env) (fuel cpu id : Nat) (s : State) (r : Int) (s' : State) :
      lifecycle s0 s → cell_destroy env fuel cpu id s = some (r, s') → lifecycle s0 s'

/-- Every CPU of the root's CPU set refers to the root cell. -/
def root_refs (s : State) : Prop :=
  ∀ x, s.root_cell.cpu_set.contains x = true → (s.per_cpu x).cell = s.root_cell.id

/-- The configuration of a second guest with memory of its own: "guestB" on
CPU 1 with one region of 16 MiB at 0x9000000. -/
def scenario_guest_b_config : jailhouse_cell_desc :=
  { name := "guestB", flags := 0, cpu_set_size := 1, cpu_set := 2,
    mem_regions := [{ phys_start := 0x9000000, virt_start := 0x9000000, size := 0x1000000,
                      flags := 3 }],
    config_size := 100 }

/-- Scenario 1 followed by the creation of "guestB": "guestA" (id 1) and
"guestB" (id 2) are chained behind the root cell. -/
def scenario_state_two_guests : State :=
  (cell_create (scenario_env scenario_guest_b_config 2) 0 0x6000 scenario_state_with_guest).2

/-- The cell "guestB" of `scenario_state_two_guests`. -/
def scenario_guest_b_cell : cell :=
  create_cell (scenario_env scenario_guest_b_config 2) scenario_guest_b_config
    scenario_state_with_guest

/-- An environment in which the guest of cell 1 denies a shutdown request
before the first load and every other guest leaves its comm region alone. -/
def deny_and_silent_env : Env :=
  { scenario_env scenario_guest_config 1 with
    guest := fun id n comm =>
      if id = 1 ∧ n = 0 then jailhouse_send_reply_from_cell comm JAILHOUSE_MSG_SHUTDOWN_DENIED
      else comm }

/-- The state of scenario 6: "guestA" runs on CPUs 2 and 3, the system
configuration is the root configuration. -/
def scenario_panic_first : State := panic_halt 2 scenario_state_with_guest

/-- Scenario 6 after the second panic. -/
def scenario_panic_second : State := panic_halt 3 scenario_panic_first

/-- The CPUs of the listed cells, cell by cell in ascending order. -/
def cpus_of : List cell → List Nat
  | [] => []
  | c :: cs => for_each_cpu c.cpu_set ++ cpus_of cs

/-- The scan for the least significant set bit from position `i` on, over at
most the given number of positions: one plus the position, 0 when no bit is
found. -/
def ffs_loop (x : Nat) : Nat → Nat → Nat
  | 0, _ => 0
  | fuel + 1, i => if x.testBit i then i + 1 else ffs_loop x fuel (i + 1)

/-- The compiler builtin `__builtin_ffs(int)`, which is not code of the
repository: one plus the index of the least significant set bit of the
argument, 0 for 0.  The `u32` argument is converted to `int`, which keeps its
32 bits. -/
def builtin_ffs (x : Nat) : Nat := ffs_loop (x % 2 ^ 32) 32 0

/-- The compiler builtin `__builtin_ffsl(long)`, the same for `long`.  The
`u64` argument is converted to `long`, which keeps the low
`8 * sizeof(long)` bits. -/
def builtin_ffsl (x : Nat) : Nat :=
  ffs_loop (x % 2 ^ (8 * SIZEOF_LONG)) (8 * SIZEOF_LONG) 0

/-- `mmio_read32(address)`: the register space is a map from addresses to
contents; a register keeps what was written to it. -/
def mmio_read32 (regs : Nat → Nat) (address : Nat) : Nat := regs address % 2 ^ 32

/-- `mmio_read64(address)`. -/
def mmio_read64 (regs : Nat → Nat) (address : Nat) : Nat := regs address % 2 ^ 64

/-- `mmio_write32(address, value)`. -/
def mmio_write32 (regs : Nat → Nat) (address value : Nat) : Nat → Nat :=
  fun a => if a = address then value % 2 ^ 32 else regs a

/-- `mmio_write64(address, value)`. -/
def mmio_write64 (regs : Nat → Nat) (address value : Nat) : Nat → Nat :=
  fun a => if a = address then value % 2 ^ 64 else regs a

/-- `mmio_read32_field(addr, mask)` for a `u32` mask; `none` stands for the
undefined shift by `-1` that a mask of 0 asks for. -/
def mmio_read32_field (regs : Nat → Nat) (addr mask : Nat) : Option Nat :=
  if builtin_ffs mask = 0 then none
  else some ((mmio_read32 regs addr &&& mask) >>> (builtin_ffs mask - 1))

/-- `mmio_write32_field(addr, mask, value)` for `u32` mask and value: the
complement and the shift are taken in 32 bits. -/
def mmio_write32_field (regs : Nat → Nat) (addr mask value : Nat) : Option (Nat → Nat) :=
  if builtin_ffs mask = 0 then none
  else some (mmio_write32 regs addr
    ((mmio_read32 regs addr &&& (2 ^ 32 - 1 - mask)) |||
      (((value <<< (builtin_ffs mask - 1)) % 2 ^ 32) &&& mask)))

/-- `mmio_read64_field(addr, mask)` for a `u64` mask. -/
def mmio_read64_field (regs : Nat → Nat) (addr mask : Nat) : Option Nat :=
  if builtin_ffsl mask = 0 then none
  else some ((mmio_read64 regs addr &&& mask) >>> (builtin_ffsl mask - 1))

/-- `mmio_write64_field(addr, mask, value)` for `u64` mask and value. -/
def mmio_write64_field (regs : Nat → Nat) (addr mask value : Nat) : Option (Nat → Nat) :=
  if builtin_ffsl mask = 0 then none
  else some (mmio_write64 regs addr
    ((mmio_read64 regs addr &&& (2 ^ 64 - 1 - mask)) |||
      (((value <<< (builtin_ffsl mask - 1)) % 2 ^ 64) &&& mask)))

/-! ## The management tool (`tools/jailhouse.c`) -/

namespace Tool

/-- How a piece of the tool ends: it returns a value, the process leaves
through `exit(1)`, or the bound that the embedding puts on the iterations of
a `while` loop is used up. -/
inductive outcome (α : Type) where
  | returns (a : α)
  | exits
  | out_of_fuel
deriving DecidableEq

/-- An entry of the image table (`struct jailhouse_preload_image`); `padding`
is never written by the tool and is left out. -/
structure jailhouse_preload_image where
  source_address : Nat
  size : Nat
  target_address : Nat
deriving DecidableEq

/-- The block that `cell_create` allocates and hands to the driver
(`struct jailhouse_cell_init` with its flexible array `image[]`).
`allocated_images` is the number of table entries that the `malloc` call asks
for; `stores` lists the stores into `image[]` in program order, each with the
index of the entry that the `image` pointer addresses. -/
structure jailhouse_cell_init where
  config_address : Nat
  config_size : Nat
  num_preload_images : Nat
  allocated_images : Nat
  stores : List (Nat × jailhouse_preload_image)
deriving DecidableEq

/-- What the tool gets from the C library and the kernel.  `read_file name`
is the buffer address and the size of the file, `none` when `read_file`
leaves through `exit(1)`; `strtoll text` is the number, `none` when `errno`
is set or characters are left over; `malloc_ok bytes` tells whether `malloc`
returns a block; `open_dev_ok` whether `/dev/jailhouse` can be opened;
`ioctl` is the result of the JAILHOUSE_CELL_CREATE call. -/
structure Host where
  read_file : String → Option (Nat × Nat)
  strtoll : String → Option Int
  malloc_ok : Nat → Bool
  open_dev_ok : Bool
  ioctl : jailhouse_cell_init → Int

/-- `sizeof(struct jailhouse_cell_init)` without the flexible array. -/
def SIZEOF_CELL_INIT : Nat := 24

/-- `sizeof(struct jailhouse_preload_image)`. -/
def SIZEOF_PRELOAD_IMAGE : Nat := 32

/-- The `while (arg_num < argc)` loop of `cell_create` that counts the images;
`argc` is the length of `argv`. -/
def count_images (argv : List String) : Nat → Nat → Nat → outcome Nat
  | 0, _, _ => outcome.out_of_fuel
  | fuel + 1, arg_num, images =>
    if arg_num < argv.length then
      let images := images + 1
      let arg_num := arg_num + 1
      if arg_num < argv.length ∧ argv.get? arg_num = some "-l" then
        if arg_num + 1 ≥ argv.length then outcome.exits
        else count_images argv fuel (arg_num + 2) images
      else count_images argv fuel arg_num images
    else outcome.returns images

/-- The `for (n = 0, image = cell_init->image; n < images; n++, image++)` loop
of `cell_create` that fills the table.  The first argument is `images - n`,
`index` is the position of `image` in `cell_init->image`; the body ends with
an `image++` of its own, so that `index` advances by two per iteration.
`none` is `exit(1)`.  The argument strings that the loop reads exist whenever
the counting loop has returned; a missing one (a null pointer in C) is
treated as a file that cannot be opened. -/
def fill_images (host : Host) (argv : List String) :
    Nat → Nat → Nat → List (Nat × jailhouse_preload_image) →
      Option (List (Nat × jailhouse_preload_image))
  | 0, _, _, stores => some stores
  | remaining + 1, arg_num, index, stores =>
    match (argv.get? arg_num).bind host.read_file with
    | none => none
    | some (buffer, size) =>
      let arg_num := arg_num + 1
      if arg_num < argv.length ∧ argv.get? arg_num = some "-l" then
        match (argv.get? (arg_num + 1)).bind host.strtoll with
        | none => none
        | some address =>
          fill_images host argv remaining (arg_num + 2) (index + 1 + 1)
            (stores ++ [(index, { source_address := buffer, size := size,
                                  target_address := (address % 2 ^ 64).toNat })])
      else
        fill_images host argv remaining arg_num (index + 1 + 1)
          (stores ++ [(index, { source_address := buffer, size := size,
                                target_address := 0 })])

/-- The tool's `cell_create(argc, argv)`: the error code of the ioctl and the
block handed to the driver. -/
def cell_create (host : Host) (argv : List String) : outcome (Int × jailhouse_cell_init) :=
  if argv.length < 5 then outcome.exits
  else
    match count_images argv (argv.length + 1) 4 0 with
    | outcome.exits => outcome.exits
    | outcome.out_of_fuel => outcome.out_of_fuel
    | outcome.returns images =>
      if host.malloc_ok (SIZEOF_CELL_INIT + SIZEOF_PRELOAD_IMAGE * images) = false then
        outcome.exits
      else
        match (argv.get? 3).bind host.read_file with
        | none => outcome.exits
        | some (buffer, size) =>
          match fill_images host argv images 4 0 [] with
          | none => outcome.exits
          | some stores =>
            if host.open_dev_ok = false then outcome.exits
            else
              let block : jailhouse_cell_init :=
                { config_address := buffer, config_size := size % 2 ^ 32,
                  num_preload_images := images, allocated_images := images,
                  stores := stores }
              outcome.returns (host.ioctl block, block)

/-- A host on which every file can be read (the buffer of the file sits at
0x1000 times the length of its name, the file has 512 bytes), every number
reads as 0x200000, memory is available, the device opens and the driver
accepts the call. -/
def scenario_host : Host :=
  { read_file := fun name => some (0x1000 * name.length, 512),
    strtoll := fun _ => some 0x200000,
    malloc_ok := fun _ => true, open_dev_ok := true, ioctl := fun _ => 0 }

/-- The command line `jailhouse cell create cell.cfg linux.bin initrd.img`:
two images, neither with a load address. -/
def two_images : List String :=
  ["jailhouse", "cell", "create", "cell.cfg", "linux.bin", "initrd.img"]

/-- The command line `jailhouse cell create cell.cfg linux.bin -l 0x200000`:
one image with a load address. -/
def one_image : List String :=
  ["jailhouse", "cell", "create", "cell.cfg", "linux.bin", "-l", "0x200000"]

end Tool

/-! ## A CPU set of a whole page -/

/-- The configuration of scenario 1 with a CPU set of a whole page, in which
only the last bit (CPU 32767) is set. -/
def page_sized_cpu_set_config : jailhouse_cell_desc :=
  { scenario_guest_config with cpu_set_size := 4096, cpu_set := 2 ^ 32767 }

/-! ## Lemmas on the CPU iteration -/


theorem max_cpu_id_lt (set : cpu_set) : set.max_cpu_id < 32704 := by
  unfold cpu_set.max_cpu_id PAGE_SIZE SIZEOF_LONG SMALL_BITMAP_BYTES
  split <;> decide

theorem next_cpu_loop_spec (set : cpu_set) (exception : Int) :
    ∀ (fuel cpu a : Nat), a = (cpu + 1) % 2 ^ 32 → a ≤ set.max_cpu_id + 1 →
      set.max_cpu_id + 2 ≤ fuel + a →
      a ≤ next_cpu_loop set exception fuel cpu ∧
      next_cpu_loop set exception fuel cpu ≤ set.max_cpu_id + 1 ∧
      (next_cpu_loop set exception fuel cpu ≤ set.max_cpu_id →
        cpu_accepted set exception (next_cpu_loop set exception fuel cpu)) ∧
      ∀ j, a ≤ j → j < next_cpu_loop set exception fuel cpu → ¬ cpu_accepted set exception j := by
  intro fuel
  induction fuel with
  | zero => intro cpu a _ h1 h2; omega
  | succ n ih =>
    intro cpu a ha h1 h2
    have hmax := max_cpu_id_lt set
    simp only [next_cpu_loop]
    rw [← ha]
    by_cases hc : a ≤ set.max_cpu_id ∧
        (a = (exception % 2 ^ 32).toNat ∨ test_bit a set.bitmap = false)
    · rw [if_pos hc]
      have ha1 : a + 1 = (a + 1) % 2 ^ 32 := by
        rw [Nat.mod_eq_of_lt]; omega
      obtain ⟨r1, r2, r3, r4⟩ := ih a (a + 1) ha1 (by omega) (by omega)
      refine ⟨by omega, r2, r3, ?_⟩
      intro j hj1 hj2
      by_cases hja : j = a
      · subst hja
        intro hacc
        rcases hc.2 with h | h
        · exact hacc.1 h
        · rw [hacc.2] at h; exact Bool.noConfusion h
      · exact r4 j (by omega) hj2
    · rw [if_neg hc]
      refine ⟨le_refl _, h1, ?_, ?_⟩
      · intro hle
        constructor
        · intro h; exact hc ⟨hle, Or.inl h⟩
        · by_contra h
          exact hc ⟨hle, Or.inr (by simpa using h)⟩
      · intro j hj1 hj2; omega

theorem mem_for_each_cpu_loop (set : cpu_set) (exception : Int) :
    ∀ (fuel cpu a : Nat), a = (cpu + 1) % 2 ^ 32 → a ≤ set.max_cpu_id + 1 →
      set.max_cpu_id + 2 ≤ fuel + a →
      ∀ c, c ∈ for_each_cpu_loop set exception fuel cpu ↔
        (a ≤ c ∧ c ≤ set.max_cpu_id ∧ cpu_accepted set exception c) := by
  intro fuel
  induction fuel with
  | zero => intro cpu a _ h1 h2; omega
  | succ n ih =>
    intro cpu a ha h1 h2 c
    have hmax := max_cpu_id_lt set
    obtain ⟨r1, r2, r3, r4⟩ :=
      next_cpu_loop_spec set exception (set.max_cpu_id + 2) cpu a ha h1 (by omega)
    simp only [for_each_cpu_loop, next_cpu]
    by_cases hr : next_cpu_loop set exception (set.max_cpu_id + 2) cpu ≤ set.max_cpu_id
    · rw [if_pos hr, List.mem_cons]
      have hr1 : next_cpu_loop set exception (set.max_cpu_id + 2) cpu + 1 =
          (next_cpu_loop set exception (set.max_cpu_id + 2) cpu + 1) % 2 ^ 32 := by
        rw [Nat.mod_eq_of_lt]; omega
      rw [ih _ _ hr1 (by omega) (by omega) c]
      constructor
      · rintro (h | ⟨h1, h2, h3⟩)
        · subst h; exact ⟨r1, hr, r3 hr⟩
        · exact ⟨by omega, h2, h3⟩
      · rintro ⟨h1, h2, h3⟩
        by_cases hlt : c < next_cpu_loop set exception (set.max_cpu_id + 2) cpu
        · exact absurd h3 (r4 c h1 hlt)
        · by_cases heq : c = next_cpu_loop set exception (set.max_cpu_id + 2) cpu
          · exact Or.inl heq
          · exact Or.inr ⟨by omega, h2, h3⟩
    · rw [if_neg hr]
      constructor
      · intro h; exact absurd h (List.not_mem_nil _)
      · rintro ⟨h1, h2, h3⟩
        exact absurd h3 (r4 c h1 (by omega))

theorem mem_for_each_cpu_except (set : cpu_set) (exception : Int) (c : Nat) :
    c ∈ for_each_cpu_except set exception ↔
      (c ≤ set.max_cpu_id ∧ c ≠ (exception % 2 ^ 32).toNat ∧ test_bit c set.bitmap = true) := by
  unfold for_each_cpu_except
  rw [mem_for_each_cpu_loop set exception _ _ 0 (by norm_num) (by omega) (by omega) c]
  unfold cpu_accepted
  constructor
  · rintro ⟨_, h2, h3⟩; exact ⟨h2, h3⟩
  · rintro ⟨h2, h3⟩; exact ⟨Nat.zero_le _, h2, h3⟩

theorem mem_for_each_cpu (set : cpu_set) (c : Nat) :
    c ∈ for_each_cpu set ↔ set.contains c = true := by
  unfold for_each_cpu
  rw [mem_for_each_cpu_except]
  have hmax := max_cpu_id_lt set
  have h : ((-1 : Int) % 2 ^ 32).toNat = 4294967295 := by decide
  rw [h]
  unfold cpu_set.contains
  simp only [Bool.and_eq_true, decide_eq_true_eq]
  constructor
  · rintro ⟨h1, _, h3⟩; exact ⟨h1, h3⟩
  · rintro ⟨h1, h3⟩; exact ⟨h1, by omega, h3⟩


/-! ## Lemmas on bitmaps and the cell registry -/


theorem test_bit_set_bit (i c b : Nat) :
    test_bit i (set_bit c b) = (test_bit i b || decide (c = i)) := by
  unfold test_bit set_bit
  rw [Nat.testBit_or, Nat.testBit_two_pow]

theorem test_bit_clear_bit (i c b : Nat) :
    test_bit i (clear_bit c b) = (test_bit i b && !decide (c = i)) := by
  unfold test_bit clear_bit
  rw [Nat.testBit_xor, Nat.testBit_and, Nat.testBit_two_pow]
  cases Nat.testBit b i <;> cases decide (c = i) <;> rfl

theorem test_bit_set_bits (i : Nat) (l : List Nat) :
    ∀ b, test_bit i (set_bits l b) = (test_bit i b || decide (i ∈ l)) := by
  induction l with
  | nil => intro b; simp [set_bits]
  | cons c l ih =>
    intro b
    have h := ih (set_bit c b)
    unfold set_bits at h ⊢
    rw [List.foldl_cons, h, test_bit_set_bit]
    by_cases hc : c = i
    · simp [hc]
    · have : ¬ i = c := fun h => hc h.symm
      simp [hc, this]

theorem test_bit_clear_bits (i : Nat) (l : List Nat) :
    ∀ b, test_bit i (clear_bits l b) = (test_bit i b && !decide (i ∈ l)) := by
  induction l with
  | nil => intro b; simp [clear_bits]
  | cons c l ih =>
    intro b
    have h := ih (clear_bit c b)
    unfold clear_bits at h ⊢
    rw [List.foldl_cons, h, test_bit_clear_bit]
    by_cases hc : c = i
    · simp [hc]
    · have : ¬ i = c := fun h => hc h.symm
      simp [hc, this]

theorem ids_below_le_length (cells : List cell) (n : Nat)
    (h : ∀ j, j < n → ∃ c ∈ cells, c.id = j) : n ≤ cells.length := by
  have hsub : Finset.range n ⊆ (cells.map (fun c => c.id)).toFinset := by
    intro j hj
    rw [Finset.mem_range] at hj
    obtain ⟨c, hc, hid⟩ := h j hj
    rw [List.mem_toFinset, List.mem_map]
    exact ⟨c, hc, hid⟩
  have h1 := Finset.card_le_card hsub
  rw [Finset.card_range] at h1
  have h2 := List.toFinset_card_le (cells.map (fun c => c.id))
  rw [List.length_map] at h2
  omega

theorem get_free_cell_id_loop_spec (cells : List cell) :
    ∀ (fuel id : Nat), cells.length + 1 ≤ fuel + id →
      (∀ j, j < id → ∃ c ∈ cells, c.id = j) →
      (∀ c ∈ cells, c.id ≠ get_free_cell_id_loop cells fuel id) ∧
      (∀ j, j < get_free_cell_id_loop cells fuel id → ∃ c ∈ cells, c.id = j) := by
  intro fuel
  induction fuel with
  | zero =>
    intro id h1 h2
    have := ids_below_le_length cells id h2
    omega
  | succ n ih =>
    intro id h1 h2
    simp only [get_free_cell_id_loop]
    by_cases hany : cells.any (fun c => c.id == id) = true
    · rw [if_pos hany]
      apply ih (id + 1) (by omega)
      intro j hj
      by_cases hji : j = id
      · subst hji
        rw [List.any_eq_true] at hany
        obtain ⟨c, hc, hid⟩ := hany
        exact ⟨c, hc, by simpa using hid⟩
      · exact h2 j (by omega)
    · rw [if_neg hany]
      refine ⟨?_, h2⟩
      intro c hc hid
      apply hany
      rw [List.any_eq_true]
      exact ⟨c, hc, by simpa using hid⟩

/-- C9: `get_free_cell_id` returns the smallest non-negative integer that is
not the id of a cell of the list: it differs from every id, every smaller
number is the id of some cell, and the bound on the restarts is never
reached (any larger bound gives the same result).  The result is at most the
number of cells, so the `unsigned int` counter of the source stays far from
its wrap-around. -/
theorem C9_get_free_cell_id_smallest_unused (s : State) :
    (∀ c ∈ for_each_cell s, c.id ≠ get_free_cell_id s) ∧
    (∀ j, j < get_free_cell_id s → ∃ c ∈ for_each_cell s, c.id = j) ∧
    get_free_cell_id s ≤ (for_each_cell s).length ∧
    (∀ fuel, (for_each_cell s).length + 1 ≤ fuel →
      get_free_cell_id_loop (for_each_cell s) fuel 0 = get_free_cell_id s) := by
  have h := get_free_cell_id_loop_spec (for_each_cell s) ((for_each_cell s).length + 1) 0
    (by omega) (by intro j hj; omega)
  refine ⟨h.1, h.2, ids_below_le_length _ _ h.2, ?_⟩
  intro fuel hf
  have h' := get_free_cell_id_loop_spec (for_each_cell s) fuel 0 (by omega)
    (by intro j hj; omega)
  unfold get_free_cell_id at h ⊢
  by_contra hne
  rcases Nat.lt_or_gt_of_ne hne with hlt | hgt
  · obtain ⟨c, hc, hid⟩ := h.2 _ hlt
    exact h'.1 c hc hid
  · obtain ⟨c, hc, hid⟩ := h'.2 _ hgt
    exact h.1 c hc hid


/-! ## Lemmas on the memory-region mapper -/


theorem sub64_eq (a b : Nat) (hb : b ≤ a) (ha : a < 2 ^ 64) : sub64 a b = a - b := by
  unfold sub64
  have h1 : b % 2 ^ 64 = b := Nat.mod_eq_of_lt (by omega)
  rw [h1]
  have h2 : a + (2 ^ 64 - b) = (a - b) + 2 ^ 64 := by omega
  rw [h2, Nat.add_mod_right, Nat.mod_eq_of_lt (by omega)]

theorem address_in_region_iff (a : Nat) (S : jailhouse_memory)
    (hS : S.phys_start + S.size < 2 ^ 64) :
    address_in_region a S = true ↔ (S.phys_start ≤ a ∧ a < S.phys_start + S.size) := by
  unfold address_in_region
  rw [Nat.mod_eq_of_lt hS]
  simp

/-- The value of `remap_overlap` without wrap-around. -/
theorem remap_overlap_eq (R S : jailhouse_memory)
    (hR : R.phys_start + R.size < 2 ^ 64) (hS : S.phys_start + S.size < 2 ^ 64) :
    remap_overlap R S =
      if S.phys_start ≤ R.phys_start ∧ R.phys_start < S.phys_start + S.size then
        some { phys_start := R.phys_start,
               size := min R.size (S.size - (R.phys_start - S.phys_start)),
               virt_start := sub64 ((S.virt_start + R.phys_start) % 2 ^ 64) S.phys_start,
               flags := S.flags }
      else if R.phys_start ≤ S.phys_start ∧ S.phys_start < R.phys_start + R.size then
        some { phys_start := S.phys_start,
               size := min S.size (R.size - (S.phys_start - R.phys_start)),
               virt_start := sub64 ((S.virt_start + S.phys_start) % 2 ^ 64) S.phys_start,
               flags := S.flags }
      else none := by
  unfold remap_overlap
  by_cases h1 : S.phys_start ≤ R.phys_start ∧ R.phys_start < S.phys_start + S.size
  · rw [if_pos ((address_in_region_iff _ _ hS).2 h1), if_pos h1]
    have e1 : sub64 R.phys_start S.phys_start = R.phys_start - S.phys_start :=
      sub64_eq _ _ h1.1 (by omega)
    have e2 : sub64 S.size (R.phys_start - S.phys_start) = S.size - (R.phys_start - S.phys_start) :=
      sub64_eq _ _ (by omega) (by omega)
    simp only [e1, e2]
    congr 2
    by_cases h : S.size - (R.phys_start - S.phys_start) > R.size
    · rw [if_pos h]; omega
    · rw [if_neg h]; omega
  · rw [if_neg (fun h => h1 ((address_in_region_iff _ _ hS).1 h)), if_neg h1]
    by_cases h2 : R.phys_start ≤ S.phys_start ∧ S.phys_start < R.phys_start + R.size
    · rw [if_pos ((address_in_region_iff _ _ hR).2 h2), if_pos h2]
      have e1 : sub64 S.phys_start R.phys_start = S.phys_start - R.phys_start :=
        sub64_eq _ _ h2.1 (by omega)
      have e2 : sub64 R.size (S.phys_start - R.phys_start) =
          R.size - (S.phys_start - R.phys_start) :=
        sub64_eq _ _ (by omega) (by omega)
      simp only [e1, e2]
      congr 2
      by_cases h : R.size - (S.phys_start - R.phys_start) > S.size
      · rw [if_pos h]; omega
      · rw [if_neg h]; omega
    · rw [if_neg (fun h => h2 ((address_in_region_iff _ _ hR).1 h)), if_neg h2]

/-- C10 (amended): for a released region `R` and a root region `S` that do
not wrap, the addresses of the overlap that `remap_to_root_cell` maps for `S`
are exactly those of both ranges; the overlap starts at the larger start and
ends at the smaller end; the mapper is called if and only if the start of one
region lies in the other, which for regions of non-zero size is exactly when
the ranges intersect. -/
theorem C10_remap_overlap_amended (R S : jailhouse_memory)
    (hR : R.phys_start + R.size < 2 ^ 64) (hS : S.phys_start + S.size < 2 ^ 64) :
    (∀ a, (∃ o, remap_overlap R S = some o ∧ o.phys_start ≤ a ∧ a < o.phys_start + o.size) ↔
      (R.phys_start ≤ a ∧ a < R.phys_start + R.size ∧
        S.phys_start ≤ a ∧ a < S.phys_start + S.size)) ∧
    (∀ o, remap_overlap R S = some o →
      o.phys_start = max R.phys_start S.phys_start ∧
      o.phys_start + o.size = min (R.phys_start + R.size) (S.phys_start + S.size)) ∧
    ((remap_overlap R S).isSome = true ↔
      ((S.phys_start ≤ R.phys_start ∧ R.phys_start < S.phys_start + S.size) ∨
        (R.phys_start ≤ S.phys_start ∧ S.phys_start < R.phys_start + R.size))) ∧
    (0 < R.size → 0 < S.size →
      ((remap_overlap R S).isSome = true ↔
        ∃ a, R.phys_start ≤ a ∧ a < R.phys_start + R.size ∧
          S.phys_start ≤ a ∧ a < S.phys_start + S.size)) := by
  rw [remap_overlap_eq R S hR hS]
  refine ⟨?_, ?_, ?_, ?_⟩
  · intro a
    constructor
    · rintro ⟨o, ho, h1, h2⟩
      split at ho
      · cases ho; simp only at h1 h2; omega
      · split at ho
        · cases ho; simp only at h1 h2; omega
        · cases ho
    · rintro ⟨h1, h2, h3, h4⟩
      by_cases c1 : S.phys_start ≤ R.phys_start ∧ R.phys_start < S.phys_start + S.size
      · rw [if_pos c1]
        exact ⟨_, rfl, by simp only; omega, by simp only; omega⟩
      · rw [if_neg c1]
        have c2 : R.phys_start ≤ S.phys_start ∧ S.phys_start < R.phys_start + R.size := by omega
        rw [if_pos c2]
        exact ⟨_, rfl, by simp only; omega, by simp only; omega⟩
  · intro o ho
    split at ho
    · cases ho; simp only; omega
    · split at ho
      · cases ho; simp only; omega
      · cases ho
  · by_cases c1 : S.phys_start ≤ R.phys_start ∧ R.phys_start < S.phys_start + S.size
    · rw [if_pos c1]; simp [c1]
    · rw [if_neg c1]
      by_cases c2 : R.phys_start ≤ S.phys_start ∧ S.phys_start < R.phys_start + R.size
      · rw [if_pos c2]; simp [c2]
      · rw [if_neg c2]; simp [c1, c2]
  · intro hr hs
    by_cases c1 : S.phys_start ≤ R.phys_start ∧ R.phys_start < S.phys_start + S.size
    · rw [if_pos c1]
      simp only [Option.isSome_some, true_iff]
      exact ⟨R.phys_start, by omega, by omega, c1.1, c1.2⟩
    · rw [if_neg c1]
      by_cases c2 : R.phys_start ≤ S.phys_start ∧ S.phys_start < R.phys_start + R.size
      · rw [if_pos c2]
        simp only [Option.isSome_some, true_iff]
        exact ⟨S.phys_start, c2.1, c2.2, by omega, by omega⟩
      · rw [if_neg c2]
        simp only [Option.isSome_none, Bool.false_eq_true, false_iff]
        rintro ⟨a, h1, h2, h3, h4⟩
        omega

/-- Witness for C10: the region of scenario 1 against the root region. -/
theorem C10_witness :
    (0x8000000 + 0x1000000 < 2 ^ 64) ∧ (0 + 0x10000000 < 2 ^ 64) ∧
    (remap_overlap
      { phys_start := 0x8000000, virt_start := 0x8000000, size := 0x1000000, flags := 3 }
      { phys_start := 0, virt_start := 0, size := 0x10000000, flags := 3 }).isSome = true :=
  ⟨by decide, by decide,
   (C10_remap_overlap_amended
      { phys_start := 0x8000000, virt_start := 0x8000000, size := 0x1000000, flags := 3 }
      { phys_start := 0, virt_start := 0, size := 0x10000000, flags := 3 }
      (by decide) (by decide)).2.2.1.2 (Or.inl (by decide))⟩

/-- C10 (counterexample): for a released region of size zero whose start lies
in a root region the code reaches the mapper (with an overlap of size zero)
although the two ranges have no address in common. -/
theorem C10_counterexample :
    (remap_overlap
      { phys_start := 0x1000, virt_start := 0x1000, size := 0, flags := 3 }
      { phys_start := 0, virt_start := 0, size := 0x2000, flags := 3 }).isSome = true ∧
    ¬ ∃ a, 0x1000 ≤ a ∧ a < 0x1000 + 0 ∧ 0 ≤ a ∧ a < 0 + 0x2000 :=
  ⟨by decide, by rintro ⟨a, h1, h2, _⟩; omega⟩

/-! ## Frame lemmas -/


theorem foldl_rel {α : Type} (R : State → State → Prop) (f : State → α → State)
    (hstep : ∀ s s' a, R s s' → R s (f s' a)) :
    ∀ (l : List α) (s s' : State), R s s' → R s (l.foldl f s') := by
  intro l
  induction l with
  | nil => intro s s' h; exact h
  | cons a l ih => intro s s' h; exact ih s (f s' a) (hstep s s' a h)

theorem cell_suspend_eq (t : cell) (cpu : Nat) (s : State) :
    same_but_suspended s (cell_suspend t cpu s) := by
  unfold cell_suspend
  apply foldl_rel same_but_suspended
  · intro s s' a h
    unfold same_but_suspended at h ⊢
    rw [h]; rfl
  · rfl

theorem cell_resume_eq (cpu : Nat) (s : State) :
    same_but_suspended s (cell_resume cpu s) := by
  unfold cell_resume
  apply foldl_rel same_but_suspended
  · intro s s' a h
    unfold same_but_suspended at h ⊢
    rw [h]; rfl
  · rfl

/-! ## The loops over CPU lists in closed form -/


theorem foldl_set_per_cpu_cell (ptr : Nat) :
    ∀ (l : List Nat) (s : State),
      l.foldl (fun st cpu => set_per_cpu_cell cpu ptr st) s =
        { s with per_cpu := fun x => if x ∈ l then { s.per_cpu x with cell := ptr }
                                     else s.per_cpu x } := by
  intro l
  induction l with
  | nil => intro s; simp
  | cons a l ih =>
    intro s
    rw [List.foldl_cons, ih]
    simp only [set_per_cpu_cell, List.mem_cons]
    congr 1
    funext x
    by_cases h1 : x ∈ l <;> by_cases h2 : x = a <;> simp [h1, h2]

theorem foldl_reset_cpu :
    ∀ (l : List Nat) (s : State),
      l.foldl (fun st cpu => arch_reset_cpu cpu (clear_per_cpu_failed cpu st)) s =
        { s with per_cpu := fun x => if x ∈ l then { s.per_cpu x with failed := false }
                                     else s.per_cpu x,
                 suspended := fun x => if x ∈ l then false else s.suspended x,
                 parked := fun x => if x ∈ l then false else s.parked x } := by
  intro l
  induction l with
  | nil => intro s; simp
  | cons a l ih =>
    intro s
    rw [List.foldl_cons, ih]
    simp only [arch_reset_cpu, clear_per_cpu_failed, List.mem_cons]
    congr 1
    · funext x
      by_cases h1 : x ∈ l <;> by_cases h2 : x = a <;> simp [h1, h2]
    · funext x
      by_cases h1 : x ∈ l <;> by_cases h2 : x = a <;> simp [h1, h2]
    · funext x
      by_cases h1 : x ∈ l <;> by_cases h2 : x = a <;> simp [h1, h2]

theorem foldl_suspend_cpu :
    ∀ (l : List Nat) (s : State),
      l.foldl (fun st c => arch_suspend_cpu c st) s =
        { s with suspended := fun x => if x ∈ l then true else s.suspended x } := by
  intro l
  induction l with
  | nil => intro s; simp
  | cons a l ih =>
    intro s
    rw [List.foldl_cons, ih]
    simp only [arch_suspend_cpu, List.mem_cons]
    congr 1
    funext x
    by_cases h1 : x ∈ l <;> by_cases h2 : x = a <;> simp [h1, h2]

theorem foldl_resume_cpu :
    ∀ (l : List Nat) (s : State),
      l.foldl (fun st c => arch_resume_cpu c st) s =
        { s with suspended := fun x => if x ∈ l then false else s.suspended x } := by
  intro l
  induction l with
  | nil => intro s; simp
  | cons a l ih =>
    intro s
    rw [List.foldl_cons, ih]
    simp only [arch_resume_cpu, List.mem_cons]
    congr 1
    funext x
    by_cases h1 : x ∈ l <;> by_cases h2 : x = a <;> simp [h1, h2]

theorem foldl_park_and_reassign :
    ∀ (l : List Nat) (s : State),
      l.foldl (fun st cpu => park_and_reassign cpu st) s =
        { s with
          parked := fun x => if x ∈ l then true else s.parked x,
          root_cell := { s.root_cell with
            cpu_set := { s.root_cell.cpu_set with
              bitmap := set_bits l s.root_cell.cpu_set.bitmap } },
          per_cpu := fun x => if x ∈ l then
              { s.per_cpu x with cell := s.root_cell.id, failed := false }
            else s.per_cpu x } := by
  intro l
  induction l with
  | nil => intro s; simp [set_bits]
  | cons a l ih =>
    intro s
    rw [List.foldl_cons, ih]
    simp only [park_and_reassign, arch_park_cpu, with_root_bitmap, clear_per_cpu_failed,
      set_per_cpu_cell, List.mem_cons, set_bits, List.foldl_cons]
    congr 1
    · funext x
      by_cases h1 : x ∈ l <;> by_cases h2 : x = a <;> simp [h1, h2]
    · funext x
      by_cases h1 : x ∈ l <;> by_cases h2 : x = a <;> simp [h1, h2]

theorem deref_root (s : State) (ptr : Nat) (h : ptr = s.root_cell.id) :
    deref s ptr = s.root_cell := by
  unfold deref for_each_cell
  rw [List.find?_cons_of_pos]
  · rfl
  · simp [h]

theorem cell_suspend_def (t : cell) (cpu : Nat) (s : State) :
    cell_suspend t cpu s =
      { s with suspended := fun x =>
          if x ∈ for_each_cpu_except t.cpu_set cpu then true else s.suspended x } := by
  unfold cell_suspend
  rw [foldl_suspend_cpu]

theorem cell_resume_def (cpu : Nat) (s : State) (h : (s.per_cpu cpu).cell = s.root_cell.id) :
    cell_resume cpu s =
      { s with suspended := fun x =>
          if x ∈ for_each_cpu_except s.root_cell.cpu_set cpu then false else s.suspended x } := by
  unfold cell_resume
  rw [foldl_resume_cpu, deref_root s _ h]


/-! ## The page table of the root cell in closed form -/


theorem unmap_from_root_pt (env : Env) :
    ∀ (l : List jailhouse_memory) (s : State),
      unmap_from_root env l s =
        ((unmap_pt env s.root_cell.id l s.root_cell.mappings).1,
          { s with root_cell := { s.root_cell with
              mappings := (unmap_pt env s.root_cell.id l s.root_cell.mappings).2 } }) := by
  intro l
  induction l with
  | nil => intro s; rfl
  | cons mem l ih =>
    intro s
    simp only [unmap_from_root, unmap_pt, arch_unmap_memory_region]
    by_cases hc : mem.flags &&& JAILHOUSE_MEM_COMM_REGION = 0
    · simp only [hc, if_true]
      by_cases hok : env.arch_unmap_ok s.root_cell.id
          { mem with virt_start := mem.phys_start } = true
      · simp only [hok, if_true]
        rw [ih]
        simp
      · simp only [hok]
        simp [ENOMEM]
    · simp only [hc, if_false]
      exact ih s

theorem remap_to_root_cell_pt (env : Env) (mem : jailhouse_memory) (s : State) :
    remap_to_root_cell env mem s =
      { s with root_cell := { s.root_cell with
          mappings := remap_pt env s.root_cell.id s.root_cell.config.mem_regions mem
            s.root_cell.mappings } } := by
  unfold remap_to_root_cell remap_pt
  generalize s.root_cell.config.mem_regions = l
  induction l generalizing s with
  | nil => rfl
  | cons S l ih =>
    rw [List.foldl_cons, List.foldl_cons, ih]
    cases hov : remap_overlap mem S with
    | none => rfl
    | some o =>
      simp only [arch_map_memory_region]
      by_cases hok : env.arch_map_ok s.root_cell.id o = true
      · simp [hok]
      · simp [hok]

theorem remap_fold_pt (env : Env) :
    ∀ (l : List jailhouse_memory) (s : State),
      l.foldl (fun st mem => remap_to_root_cell env mem st) s =
        { s with root_cell := { s.root_cell with
            mappings := rollback_pt env s.root_cell.id s.root_cell.config.mem_regions l
              s.root_cell.mappings } } := by
  intro l
  induction l with
  | nil => intro s; rfl
  | cons mem l ih =>
    intro s
    rw [List.foldl_cons, ih, remap_to_root_cell_pt]
    rfl

theorem release_regions_pt (env : Env) :
    ∀ (l : List jailhouse_memory) (s : State),
      release_regions env l s =
        { s with root_cell := { s.root_cell with
            mappings := release_pt env s.root_cell.id s.root_cell.config.mem_regions l
              s.root_cell.mappings } } := by
  intro l
  unfold release_regions release_pt
  induction l with
  | nil => intro s; rfl
  | cons mem l ih =>
    intro s
    rw [List.foldl_cons, List.foldl_cons, ih]
    by_cases hc : mem.flags &&& JAILHOUSE_MEM_COMM_REGION = 0
    · simp only [hc, if_true]
      rw [remap_to_root_cell_pt]
    · simp only [hc, if_false]


/-! ## Restoration -/

theorem set_bits_clear_bits (l : List Nat) (b : Nat)
    (h : ∀ x ∈ l, test_bit x b = true) : set_bits l (clear_bits l b) = b := by
  apply Nat.eq_of_testBit_eq
  intro i
  have h1 := test_bit_set_bits i l (clear_bits l b)
  have h2 := test_bit_clear_bits i l b
  unfold test_bit at h1 h2
  rw [h1, h2]
  by_cases hi : i ∈ l
  · have := h i hi
    unfold test_bit at this
    simp [hi, this]
  · simp [hi]

/-! ## The stages of `cell_create` -/


theorem copy_bitmap_zero (src n : Nat) : copy_bitmap 0 src n = src % 2 ^ (8 * n) := by
  unfold copy_bitmap
  simp

theorem get_free_cell_id_congr (s s' : State) (h : for_each_cell s' = for_each_cell s) :
    get_free_cell_id s' = get_free_cell_id s := by
  unfold get_free_cell_id
  rw [h]

theorem cell_init_new_cell (env : Env) (cfg : jailhouse_cell_desc) (s1 : State) :
    cell_init env (new_cell cfg (create_pages env cfg)) true s1 =
      if cfg.cpu_set_size > PAGE_SIZE then
        (-EINVAL, { new_cell cfg (create_pages env cfg) with id := get_free_cell_id s1 }, s1)
      else if cfg.cpu_set_size > SMALL_BITMAP_BYTES then
        if env.page_alloc_ok s1.mem_pool_used 1 = true then
          (0, init_cell env cfg s1, { s1 with mem_pool_used := s1.mem_pool_used + 1 })
        else (-ENOMEM, { new_cell cfg (create_pages env cfg) with id := get_free_cell_id s1 }, s1)
      else (0, init_cell env cfg s1, s1) := by
  unfold cell_init
  simp only [new_cell]
  by_cases h1 : cfg.cpu_set_size > PAGE_SIZE
  · simp only [h1, if_true]
  · simp only [h1, if_false]
    by_cases h2 : cfg.cpu_set_size > SMALL_BITMAP_BYTES
    · simp only [h2, if_true, page_alloc]
      by_cases h3 : env.page_alloc_ok s1.mem_pool_used 1 = true
      · simp only [h3, if_true, copy_bitmap_zero]
        simp [init_cell, create_cell, create_cpu_set, h2]
      · simp only [h3, if_false]
        simp
    · simp only [h2, if_false, if_true, copy_bitmap_zero]
      simp [init_cell, create_cell, create_cpu_set, h2]


theorem check_mem_regions_loop_cases (l : List jailhouse_memory) :
    check_mem_regions_loop l = 0 ∨ check_mem_regions_loop l = -EINVAL := by
  induction l with
  | nil => left; rfl
  | cons mem l ih =>
    simp only [check_mem_regions_loop]
    split
    · right; rfl
    · exact ih

theorem cell_create_eperm (env : Env) (cpu addr : Nat) (s : State)
    (h : (s.per_cpu cpu).cell ≠ s.root_cell.id) :
    cell_create env cpu addr s = (-EPERM, s) := by
  unfold cell_create
  rw [if_pos h]




theorem unmap_pt_err (env : Env) (root_id : Nat) :
    ∀ (l : List jailhouse_memory) (m : Nat → Option pte),
      (unmap_pt env root_id l m).1 = 0 ∨ (unmap_pt env root_id l m).1 = -ENOMEM := by
  intro l
  induction l with
  | nil => intro m; left; rfl
  | cons mem l ih =>
    intro m
    simp only [unmap_pt]
    split
    · split
      · exact ih _
      · right; rfl
    · exact ih _

@[simp]
theorem cell_resume_root_cell (cpu : Nat) (s : State) :
    (cell_resume cpu s).root_cell = s.root_cell := by
  have h := cell_resume_eq cpu s
  unfold same_but_suspended at h
  rw [h]
@[simp]
theorem cell_resume_cells (cpu : Nat) (s : State) :
    (cell_resume cpu s).cells = s.cells := by
  have h := cell_resume_eq cpu s
  unfold same_but_suspended at h
  rw [h]
@[simp]
theorem cell_resume_num_cells (cpu : Nat) (s : State) :
    (cell_resume cpu s).num_cells = s.num_cells := by
  have h := cell_resume_eq cpu s
  unfold same_but_suspended at h
  rw [h]
@[simp]
theorem cell_resume_per_cpu (cpu : Nat) (s : State) :
    (cell_resume cpu s).per_cpu = s.per_cpu := by
  have h := cell_resume_eq cpu s
  unfold same_but_suspended at h
  rw [h]
@[simp]
theorem cell_resume_mem_pool_used (cpu : Nat) (s : State) :
    (cell_resume cpu s).mem_pool_used = s.mem_pool_used := by
  have h := cell_resume_eq cpu s
  unfold same_but_suspended at h
  rw [h]
@[simp]
theorem cell_resume_parked (cpu : Nat) (s : State) :
    (cell_resume cpu s).parked = s.parked := by
  have h := cell_resume_eq cpu s
  unfold same_but_suspended at h
  rw [h]
@[simp]
theorem cell_suspend_root_cell (t : cell) (cpu : Nat) (s : State) :
    (cell_suspend t cpu s).root_cell = s.root_cell := by
  have h := cell_suspend_eq t cpu s
  unfold same_but_suspended at h
  rw [h]
@[simp]
theorem cell_suspend_cells (t : cell) (cpu : Nat) (s : State) :
    (cell_suspend t cpu s).cells = s.cells := by
  have h := cell_suspend_eq t cpu s
  unfold same_but_suspended at h
  rw [h]
@[simp]
theorem cell_suspend_num_cells (t : cell) (cpu : Nat) (s : State) :
    (cell_suspend t cpu s).num_cells = s.num_cells := by
  have h := cell_suspend_eq t cpu s
  unfold same_but_suspended at h
  rw [h]
@[simp]
theorem cell_suspend_per_cpu (t : cell) (cpu : Nat) (s : State) :
    (cell_suspend t cpu s).per_cpu = s.per_cpu := by
  have h := cell_suspend_eq t cpu s
  unfold same_but_suspended at h
  rw [h]
@[simp]
theorem cell_suspend_mem_pool_used (t : cell) (cpu : Nat) (s : State) :
    (cell_suspend t cpu s).mem_pool_used = s.mem_pool_used := by
  have h := cell_suspend_eq t cpu s
  unfold same_but_suspended at h
  rw [h]
@[simp]
theorem cell_suspend_parked (t : cell) (cpu : Nat) (s : State) :
    (cell_suspend t cpu s).parked = s.parked := by
  have h := cell_suspend_eq t cpu s
  unfold same_but_suspended at h
  rw [h]

theorem err_restore_root_eq (env : Env) (cpu : Nat) (c : cell) (pages : Nat) (err : Int)
    (s : State) :
    err_restore_root env cpu c pages err s =
      (err, { s with
        suspended := (err_restore_root env cpu c pages err s).2.suspended,
        mem_pool_used := s.mem_pool_used - (if c.cpu_set.allocated then 1 else 0) - pages,
        root_cell := { s.root_cell with
          cpu_set := { s.root_cell.cpu_set with
            bitmap := set_bits (for_each_cpu c.cpu_set) s.root_cell.cpu_set.bitmap },
          mappings := rollback_pt env s.root_cell.id s.root_cell.config.mem_regions
            c.config.mem_regions s.root_cell.mappings } }) := by
  apply Prod.ext
  · simp [err_restore_root, err_free_cpu_set, err_free_cell, err_resume]
  · apply State.ext
    · simp [err_restore_root, err_free_cpu_set, err_free_cell, err_resume, remap_fold_pt,
        with_root_bitmap, destroy_cpu_set, page_free]
      split <;> rfl
    · simp [err_restore_root, err_free_cpu_set, err_free_cell, err_resume, remap_fold_pt,
        with_root_bitmap, destroy_cpu_set, page_free]
      split <;> rfl
    · simp [err_restore_root, err_free_cpu_set, err_free_cell, err_resume, remap_fold_pt,
        with_root_bitmap, destroy_cpu_set, page_free]
      split <;> rfl
    · simp [err_restore_root, err_free_cpu_set, err_free_cell, err_resume, remap_fold_pt,
        with_root_bitmap, destroy_cpu_set, page_free]
      split <;> rfl
    · simp [err_restore_root, err_free_cpu_set, err_free_cell, err_resume, remap_fold_pt,
        with_root_bitmap, destroy_cpu_set, page_free]
      split <;> rfl
    · rfl
    · simp [err_restore_root, err_free_cpu_set, err_free_cell, err_resume, remap_fold_pt,
        with_root_bitmap, destroy_cpu_set, page_free]
      split <;> rfl



theorem cell_create_publish_eq (cpu : Nat) (c : cell) (s : State) :
    cell_create_publish cpu c s =
      ((c.id : Int), { s with
        suspended := (cell_create_publish cpu c s).2.suspended,
        cells := s.cells ++ [c],
        num_cells := s.num_cells + 1,
        per_cpu := fun x => if x ∈ for_each_cpu c.cpu_set then
            { s.per_cpu x with cell := c.id, failed := false } else s.per_cpu x,
        parked := fun x => if x ∈ for_each_cpu c.cpu_set then false else s.parked x }) := by
  apply Prod.ext
  · simp [cell_create_publish]
  · apply State.ext
    · simp [cell_create_publish, foldl_set_per_cpu_cell, foldl_reset_cpu]
    · simp [cell_create_publish, foldl_set_per_cpu_cell, foldl_reset_cpu]
    · simp [cell_create_publish, foldl_set_per_cpu_cell, foldl_reset_cpu]
    · simp only [cell_create_publish, foldl_set_per_cpu_cell, foldl_reset_cpu,
        cell_resume_per_cpu]
      funext x
      by_cases hx : x ∈ for_each_cpu c.cpu_set <;> simp [hx]
    · simp [cell_create_publish, foldl_set_per_cpu_cell, foldl_reset_cpu]
    · rfl
    · simp [cell_create_publish, foldl_set_per_cpu_cell, foldl_reset_cpu]

theorem cell_create_assign_failure (env : Env) (cpu : Nat) (c : cell) (pages : Nat) (s : State)
    (h : (unmap_pt env s.root_cell.id c.config.mem_regions s.root_cell.mappings).1 ≠ 0 ∨
      env.arch_cell_create_ok c.config = false) :
    cell_create_assign env cpu c pages s =
      (-ENOMEM, { s with
        suspended := (cell_create_assign env cpu c pages s).2.suspended,
        mem_pool_used := s.mem_pool_used - (if c.cpu_set.allocated then 1 else 0) - pages,
        root_cell := { s.root_cell with
          cpu_set := { s.root_cell.cpu_set with
            bitmap := set_bits (for_each_cpu c.cpu_set) s.root_cell.cpu_set.bitmap },
          mappings := rollback_pt env s.root_cell.id s.root_cell.config.mem_regions
            c.config.mem_regions
            (unmap_pt env s.root_cell.id c.config.mem_regions s.root_cell.mappings).2 } }) := by
  have hu := unmap_pt_err env s.root_cell.id c.config.mem_regions s.root_cell.mappings
  by_cases h1 : (unmap_pt env s.root_cell.id c.config.mem_regions s.root_cell.mappings).1 = 0
  · have hok : env.arch_cell_create_ok c.config = false := by
      rcases h with h | h
      · exact absurd h1 h
      · exact h
    have e : cell_create_assign env cpu c pages s =
        err_restore_root env cpu c pages (-ENOMEM)
          { s with root_cell := { s.root_cell with
              mappings := (unmap_pt env s.root_cell.id c.config.mem_regions
                s.root_cell.mappings).2 } } := by
      unfold cell_create_assign
      simp [unmap_from_root_pt, h1, arch_cell_create, hok, ENOMEM]
    rw [err_restore_root_eq] at e
    apply Prod.ext
    · rw [e]
    · apply State.ext <;> simp [e]
  · have h2 : (unmap_pt env s.root_cell.id c.config.mem_regions s.root_cell.mappings).1 =
        -ENOMEM := by
      rcases hu with hu | hu
      · exact absurd hu h1
      · exact hu
    have e : cell_create_assign env cpu c pages s =
        err_restore_root env cpu c pages (-ENOMEM)
          { s with root_cell := { s.root_cell with
              mappings := (unmap_pt env s.root_cell.id c.config.mem_regions
                s.root_cell.mappings).2 } } := by
      unfold cell_create_assign
      simp [unmap_from_root_pt, h2, ENOMEM]
    rw [err_restore_root_eq] at e
    apply Prod.ext
    · rw [e]
    · apply State.ext <;> simp [e]

theorem cell_create_assign_success (env : Env) (cpu : Nat) (c : cell) (pages : Nat) (s : State)
    (h1 : (unmap_pt env s.root_cell.id c.config.mem_regions s.root_cell.mappings).1 = 0)
    (h2 : env.arch_cell_create_ok c.config = true) :
    cell_create_assign env cpu c pages s =
      cell_create_publish cpu
        { c with mappings := c.config.mem_regions.foldl (fun m mem => map_region mem m) c.mappings }
        { s with root_cell := { s.root_cell with
            mappings := (unmap_pt env s.root_cell.id c.config.mem_regions
              s.root_cell.mappings).2 } } := by
  unfold cell_create_assign
  simp [unmap_from_root_pt, h1, arch_cell_create, h2]



theorem create_busy_iff (cpu : Nat) (set root : cpu_set) :
    ((cpu ≤ set.max_cpu_id ∧ test_bit cpu set.bitmap = true) ∨
      root.max_cpu_id < set.max_cpu_id ∨
      (for_each_cpu set).any (fun x => test_bit x root.bitmap = false) = true) ↔
    create_busy cpu set root := by
  unfold create_busy
  have e1 : (cpu ≤ set.max_cpu_id ∧ test_bit cpu set.bitmap = true) ↔
      set.contains cpu = true := by
    unfold cpu_set.contains
    simp
  have e3 : (for_each_cpu set).any (fun x => test_bit x root.bitmap = false) = true ↔
      ∃ x, set.contains x = true ∧ test_bit x root.bitmap = false := by
    rw [List.any_eq_true]
    constructor
    · rintro ⟨x, hx, h⟩
      exact ⟨x, (mem_for_each_cpu set x).1 hx, by simpa using h⟩
    · rintro ⟨x, hx, h⟩
      exact ⟨x, (mem_for_each_cpu set x).2 hx, by simpa using h⟩
  rw [e1, e3]

theorem cell_create_commit_busy (env : Env) (cpu : Nat) (c : cell) (pages : Nat) (s : State)
    (hroot : (s.per_cpu cpu).cell = s.root_cell.id)
    (h : create_busy cpu c.cpu_set s.root_cell.cpu_set) :
    cell_create_commit env cpu c pages s =
      (-EBUSY, { s with
        suspended := (cell_create_commit env cpu c pages s).2.suspended,
        mem_pool_used := s.mem_pool_used - (if c.cpu_set.allocated then 1 else 0) - pages }) := by
  have hb := (create_busy_iff cpu c.cpu_set s.root_cell.cpu_set).2 h
  have e : cell_create_commit env cpu c pages s = err_free_cpu_set cpu c pages (-EBUSY) s := by
    unfold cell_create_commit
    rw [deref_root s _ hroot]
    by_cases h1 : cpu ≤ c.cpu_set.max_cpu_id ∧ test_bit cpu c.cpu_set.bitmap = true
    · rw [if_pos h1]
    · rw [if_neg h1]
      simp only
      by_cases h2 : s.root_cell.cpu_set.max_cpu_id < c.cpu_set.max_cpu_id
      · rw [if_pos h2]
      · rw [if_neg h2]
        have h3 : (for_each_cpu c.cpu_set).any
            (fun x => decide (test_bit x s.root_cell.cpu_set.bitmap = false)) = true := by
          rcases hb with hb | hb | hb
          · exact absurd hb h1
          · exact absurd hb h2
          · exact hb
        rw [if_pos h3]
  apply Prod.ext
  · rw [e]; simp [err_free_cpu_set, err_free_cell, err_resume]
  · apply State.ext
    · rw [e]; simp [err_free_cpu_set, err_free_cell, err_resume, destroy_cpu_set, page_free]
      split <;> rfl
    · rw [e]; simp [err_free_cpu_set, err_free_cell, err_resume, destroy_cpu_set, page_free]
      split <;> rfl
    · rw [e]; simp [err_free_cpu_set, err_free_cell, err_resume, destroy_cpu_set, page_free]
      split <;> rfl
    · rw [e]; simp [err_free_cpu_set, err_free_cell, err_resume, destroy_cpu_set, page_free]
      split <;> rfl
    · rw [e]; simp [err_free_cpu_set, err_free_cell, err_resume, destroy_cpu_set, page_free]
      split <;> rfl
    · rfl
    · rw [e]; simp [err_free_cpu_set, err_free_cell, err_resume, destroy_cpu_set, page_free]
      split <;> rfl

theorem cell_create_commit_admitted (env : Env) (cpu : Nat) (c : cell) (pages : Nat) (s : State)
    (hroot : (s.per_cpu cpu).cell = s.root_cell.id)
    (h : ¬ create_busy cpu c.cpu_set s.root_cell.cpu_set) :
    cell_create_commit env cpu c pages s =
      cell_create_assign env cpu c pages
        (with_root_bitmap
          (clear_bits (for_each_cpu c.cpu_set) s.root_cell.cpu_set.bitmap) s) := by
  have hb := fun hh => h ((create_busy_iff cpu c.cpu_set s.root_cell.cpu_set).1 hh)
  unfold cell_create_commit
  rw [deref_root s _ hroot]
  have h1 : ¬ (cpu ≤ c.cpu_set.max_cpu_id ∧ test_bit cpu c.cpu_set.bitmap = true) :=
    fun hh => hb (Or.inl hh)
  have h2 : ¬ s.root_cell.cpu_set.max_cpu_id < c.cpu_set.max_cpu_id :=
    fun hh => hb (Or.inr (Or.inl hh))
  have h3 : ¬ (for_each_cpu c.cpu_set).any
      (fun x => decide (test_bit x s.root_cell.cpu_set.bitmap = false)) = true :=
    fun hh => hb (Or.inr (Or.inr hh))
  rw [if_neg h1]
  simp only
  rw [if_neg h2, if_neg h3]



theorem init_cell_congr (env : Env) (cfg : jailhouse_cell_desc) (s s' : State)
    (h : for_each_cell s' = for_each_cell s) : init_cell env cfg s' = init_cell env cfg s := by
  unfold init_cell create_cell
  rw [get_free_cell_id_congr s s' h]

theorem cell_create_alloc_pass (env : Env) (cpu : Nat) (cfg : jailhouse_cell_desc) (s : State)
    (hA : env.page_alloc_ok s.mem_pool_used (create_pages env cfg) = true)
    (hsz : cfg.cpu_set_size ≤ PAGE_SIZE)
    (hB : cfg.cpu_set_size > SMALL_BITMAP_BYTES →
      env.page_alloc_ok (s.mem_pool_used + create_pages env cfg) 1 = true) :
    cell_create_alloc env cpu cfg s =
      cell_create_commit env cpu (init_cell env cfg s) (create_pages env cfg)
        { s with mem_pool_used := s.mem_pool_used + create_pages env cfg +
            (if cfg.cpu_set_size > SMALL_BITMAP_BYTES then 1 else 0) } := by
  unfold cell_create_alloc
  simp only [page_alloc, hA, if_true, cell_init_new_cell]
  have h1 : ¬ cfg.cpu_set_size > PAGE_SIZE := by omega
  rw [if_neg h1]
  by_cases h2 : cfg.cpu_set_size > SMALL_BITMAP_BYTES
  · rw [if_pos h2, if_pos (hB h2)]
    simp only [ne_eq, not_true_eq_false, if_false, if_pos h2]
    rw [init_cell_congr env cfg s
      { s with mem_pool_used := s.mem_pool_used + create_pages env cfg } rfl]
  · rw [if_neg h2]
    simp only [ne_eq, not_true_eq_false, if_false, if_neg h2, Nat.add_zero]
    rw [init_cell_congr env cfg s
      { s with mem_pool_used := s.mem_pool_used + create_pages env cfg } rfl]

theorem cell_create_alloc_fail (env : Env) (cpu : Nat) (cfg : jailhouse_cell_desc) (s : State)
    (h : ¬ (env.page_alloc_ok s.mem_pool_used (create_pages env cfg) = true ∧
      cfg.cpu_set_size ≤ PAGE_SIZE ∧
      (cfg.cpu_set_size > SMALL_BITMAP_BYTES →
        env.page_alloc_ok (s.mem_pool_used + create_pages env cfg) 1 = true))) :
    ((cell_create_alloc env cpu cfg s).1 = -ENOMEM ∨
      (cell_create_alloc env cpu cfg s).1 = -EINVAL) ∧
    (cell_create_alloc env cpu cfg s).2 =
      { s with suspended := (cell_create_alloc env cpu cfg s).2.suspended } := by
  unfold cell_create_alloc
  by_cases hA : env.page_alloc_ok s.mem_pool_used (create_pages env cfg) = true
  · simp only [page_alloc, hA, if_true, cell_init_new_cell]
    by_cases h1 : cfg.cpu_set_size > PAGE_SIZE
    · rw [if_pos h1]
      simp only [ne_eq]
      rw [if_pos (by simp [EINVAL])]
      refine ⟨Or.inr rfl, ?_⟩
      apply State.ext <;> simp [err_free_cell, err_resume, page_free]
    · rw [if_neg h1]
      have h2 : cfg.cpu_set_size > SMALL_BITMAP_BYTES := by
        by_contra h2
        exact h ⟨hA, by omega, fun hh => absurd hh h2⟩
      have h3 : ¬ env.page_alloc_ok (s.mem_pool_used + create_pages env cfg) 1 = true := by
        intro h3
        exact h ⟨hA, by omega, fun _ => h3⟩
      rw [if_pos h2, if_neg h3]
      simp only [ne_eq]
      rw [if_pos (by simp [ENOMEM])]
      refine ⟨Or.inl rfl, ?_⟩
      apply State.ext <;> simp [err_free_cell, err_resume, page_free]
  · simp only [page_alloc, hA]
    refine ⟨Or.inl rfl, ?_⟩
    apply State.ext <;> simp [err_resume]



theorem cell_create_validate (env : Env) (cpu addr : Nat) (s : State)
    (hroot : (s.per_cpu cpu).cell = s.root_cell.id) :
    (create_stages_pass env addr s ∧
      cell_create env cpu addr s =
        cell_create_commit env cpu (init_cell env (env.config_at addr) s)
          (create_pages env (env.config_at addr))
          { cell_suspend s.root_cell cpu s with
            mem_pool_used := s.mem_pool_used + create_pages env (env.config_at addr) +
              (if (env.config_at addr).cpu_set_size > SMALL_BITMAP_BYTES then 1 else 0) }) ∨
    (¬ create_stages_pass env addr s ∧
      ((cell_create env cpu addr s).1 = -ENOMEM ∨ (cell_create env cpu addr s).1 = -E2BIG ∨
        (cell_create env cpu addr s).1 = -EEXIST ∨ (cell_create env cpu addr s).1 = -EINVAL) ∧
      (cell_create env cpu addr s).2 =
        { s with suspended := (cell_create env cpu addr s).2.suspended }) := by
  unfold create_stages_pass cell_create
  simp only [ne_eq, hroot, not_true_eq_false, if_false]
  by_cases h1 : env.page_map_create_ok (addr - (addr &&& (PAGE_SIZE - 1)))
      ((addr &&& (PAGE_SIZE - 1)) + env.sizeof_cell_desc) = true
  swap
  · right
    simp only [Bool.not_eq_true] at h1
    rw [if_pos h1]
    refine ⟨by simp [h1], Or.inl rfl, ?_⟩
    apply State.ext <;> simp [err_resume]
  rw [if_neg (by simp [h1])]
  by_cases h2 : (env.config_at addr).config_size + (addr &&& (PAGE_SIZE - 1)) >
      NUM_TEMPORARY_PAGES * PAGE_SIZE
  · right
    rw [if_pos h2]
    refine ⟨fun hh => absurd hh.2.1 (by omega), Or.inr (Or.inl rfl), ?_⟩
    apply State.ext <;> simp [err_resume]
  rw [if_neg h2]
  by_cases h3 : (for_each_cell (cell_suspend s.root_cell cpu s)).any
      (fun c => c.config.name == (env.config_at addr).name) = true
  · right
    rw [if_pos h3]
    refine ⟨?_, Or.inr (Or.inr (Or.inl rfl)), ?_⟩
    · intro hh
      rw [List.any_eq_true] at h3
      obtain ⟨c, hc, hn⟩ := h3
      have hc' : c ∈ for_each_cell s := by
        simpa [for_each_cell] using hc
      exact hh.2.2.1 c hc' (by simpa using hn)
    · apply State.ext <;> simp [err_resume]
  rw [if_neg h3]
  have h3' : ∀ c ∈ for_each_cell s, c.config.name ≠ (env.config_at addr).name := by
    intro c hc hname
    apply h3
    rw [List.any_eq_true]
    exact ⟨c, by simpa [for_each_cell] using hc, by simpa using hname⟩
  by_cases h4 : env.page_map_create_ok (addr - (addr &&& (PAGE_SIZE - 1)))
      ((env.config_at addr).config_size + (addr &&& (PAGE_SIZE - 1))) = true
  swap
  · right
    simp only [Bool.not_eq_true] at h4
    rw [if_pos h4]
    refine ⟨by simp [h4], Or.inl rfl, ?_⟩
    apply State.ext <;> simp [err_resume]
  rw [if_neg (by simp [h4])]
  by_cases h5 : check_mem_regions (env.config_at addr) = 0
  swap
  · right
    rw [if_pos h5]
    refine ⟨fun hh => h5 hh.2.2.2.2.1, Or.inr (Or.inr (Or.inr ?_)), ?_⟩
    · rcases check_mem_regions_loop_cases (env.config_at addr).mem_regions with h | h
      · exact absurd h h5
      · exact h
    · apply State.ext <;> simp [err_resume]
  rw [if_neg (by simp [h5])]
  by_cases h6 : env.page_alloc_ok s.mem_pool_used (create_pages env (env.config_at addr)) = true ∧
      (env.config_at addr).cpu_set_size ≤ PAGE_SIZE ∧
      ((env.config_at addr).cpu_set_size > SMALL_BITMAP_BYTES →
        env.page_alloc_ok (s.mem_pool_used + create_pages env (env.config_at addr)) 1 = true)
  · left
    refine ⟨⟨h1, by omega, h3', h4, h5, h6.1, h6.2.1, h6.2.2⟩, ?_⟩
    rw [cell_create_alloc_pass env cpu _ _ (by simpa using h6.1) h6.2.1 (by simpa using h6.2.2)]
    rw [init_cell_congr env _ s (cell_suspend s.root_cell cpu s) (by simp [for_each_cell])]
    simp
  · right
    have hf := cell_create_alloc_fail env cpu (env.config_at addr)
      (cell_suspend s.root_cell cpu s) (by simpa using h6)
    refine ⟨fun hh => h6 ⟨hh.2.2.2.2.2.1, hh.2.2.2.2.2.2.1, hh.2.2.2.2.2.2.2⟩, ?_, ?_⟩
    · rcases hf.1 with h | h
      · exact Or.inl h
      · exact Or.inr (Or.inr (Or.inr h))
    · rw [hf.2]
      apply State.ext <;> simp



theorem not_busy_bits (cpu : Nat) (set root : cpu_set) (h : ¬ create_busy cpu set root) :
    ∀ x ∈ for_each_cpu set, test_bit x root.bitmap = true := by
  intro x hx
  by_contra hb
  apply h
  right; right
  exact ⟨x, (mem_for_each_cpu set x).1 hx, by simpa using hb⟩

theorem cell_create_outcome (env : Env) (cpu addr : Nat) (s : State)
    (hroot : (s.per_cpu cpu).cell = s.root_cell.id) :
    (¬ create_stages_pass env addr s ∧
      ((cell_create env cpu addr s).1 = -ENOMEM ∨ (cell_create env cpu addr s).1 = -E2BIG ∨
        (cell_create env cpu addr s).1 = -EEXIST ∨ (cell_create env cpu addr s).1 = -EINVAL) ∧
      (cell_create env cpu addr s).2 =
        { s with suspended := (cell_create env cpu addr s).2.suspended }) ∨
    (create_stages_pass env addr s ∧
      create_busy cpu (create_cpu_set (env.config_at addr)) s.root_cell.cpu_set ∧
      (cell_create env cpu addr s).1 = -EBUSY ∧
      (cell_create env cpu addr s).2 =
        { s with suspended := (cell_create env cpu addr s).2.suspended }) ∨
    (create_stages_pass env addr s ∧
      ¬ create_busy cpu (create_cpu_set (env.config_at addr)) s.root_cell.cpu_set ∧
      ((unmap_pt env s.root_cell.id (env.config_at addr).mem_regions s.root_cell.mappings).1 ≠ 0 ∨
        env.arch_cell_create_ok (env.config_at addr) = false) ∧
      (cell_create env cpu addr s).1 = -ENOMEM ∧
      (cell_create env cpu addr s).2 =
        { s with
          suspended := (cell_create env cpu addr s).2.suspended,
          root_cell := { s.root_cell with
            mappings := rollback_pt env s.root_cell.id s.root_cell.config.mem_regions
              (env.config_at addr).mem_regions
              (unmap_pt env s.root_cell.id (env.config_at addr).mem_regions
                s.root_cell.mappings).2 } }) ∨
    (create_stages_pass env addr s ∧
      ¬ create_busy cpu (create_cpu_set (env.config_at addr)) s.root_cell.cpu_set ∧
      (unmap_pt env s.root_cell.id (env.config_at addr).mem_regions s.root_cell.mappings).1 = 0 ∧
      env.arch_cell_create_ok (env.config_at addr) = true ∧
      (cell_create env cpu addr s).1 = (get_free_cell_id s : Int) ∧
      (cell_create env cpu addr s).2 =
        { s with
          suspended := (cell_create env cpu addr s).2.suspended,
          root_cell := { s.root_cell with
            cpu_set := { s.root_cell.cpu_set with
              bitmap := clear_bits (for_each_cpu (create_cpu_set (env.config_at addr)))
                s.root_cell.cpu_set.bitmap },
            mappings := (unmap_pt env s.root_cell.id (env.config_at addr).mem_regions
              s.root_cell.mappings).2 },
          cells := s.cells ++ [create_cell env (env.config_at addr) s],
          num_cells := s.num_cells + 1,
          per_cpu := fun x => if x ∈ for_each_cpu (create_cpu_set (env.config_at addr)) then
              { s.per_cpu x with cell := get_free_cell_id s, failed := false } else s.per_cpu x,
          mem_pool_used := s.mem_pool_used + create_pages env (env.config_at addr) +
            (if (env.config_at addr).cpu_set_size > SMALL_BITMAP_BYTES then 1 else 0),
          parked := fun x => if x ∈ for_each_cpu (create_cpu_set (env.config_at addr)) then false
            else s.parked x }) := by
  rcases cell_create_validate env cpu addr s hroot with ⟨hpass, e⟩ | ⟨hfail, hcodes, hst⟩
  swap
  · exact Or.inl ⟨hfail, hcodes, hst⟩
  right
  have key : ∃ S2 : State, S2.root_cell = s.root_cell ∧ S2.cells = s.cells ∧
      S2.num_cells = s.num_cells ∧ S2.per_cpu = s.per_cpu ∧
      S2.mem_pool_used = s.mem_pool_used + create_pages env (env.config_at addr) +
        (if (env.config_at addr).cpu_set_size > SMALL_BITMAP_BYTES then 1 else 0) ∧
      S2.parked = s.parked ∧
      cell_create env cpu addr s =
        cell_create_commit env cpu (init_cell env (env.config_at addr) s)
          (create_pages env (env.config_at addr)) S2 :=
    ⟨_, by simp, by simp, by simp, by simp, by simp, by simp, e⟩
  obtain ⟨S2, k1, k2, k3, k4, k5, k6, e⟩ := key
  have hroot2 : (S2.per_cpu cpu).cell = S2.root_cell.id := by rw [k4, k1]; exact hroot
  have hset : (init_cell env (env.config_at addr) s).cpu_set = create_cpu_set (env.config_at addr) :=
    rfl
  have hcfg : (init_cell env (env.config_at addr) s).config = env.config_at addr := rfl
  have hmem : S2.mem_pool_used -
      (if (init_cell env (env.config_at addr) s).cpu_set.allocated = true then 1 else 0) -
      create_pages env (env.config_at addr) = s.mem_pool_used := by
    rw [k5]
    simp only [init_cell, create_cell, create_cpu_set, decide_eq_true_eq]
    split <;> omega
  by_cases hbusy : create_busy cpu (create_cpu_set (env.config_at addr)) s.root_cell.cpu_set
  · left
    have hb := cell_create_commit_busy env cpu (init_cell env (env.config_at addr) s)
      (create_pages env (env.config_at addr)) S2 hroot2 (by rw [hset, k1]; exact hbusy)
    rw [← e] at hb
    refine ⟨hpass, hbusy, by rw [hb], ?_⟩
    apply State.ext
    · rw [hb]; exact k1
    · rw [hb]; exact k2
    · rw [hb]; exact k3
    · rw [hb]; exact k4
    · rw [hb]; exact hmem
    · rfl
    · rw [hb]; exact k6
  right
  have hadm := cell_create_commit_admitted env cpu (init_cell env (env.config_at addr) s)
    (create_pages env (env.config_at addr)) S2 hroot2 (by rw [hset, k1]; exact hbusy)
  rw [← e, hset, k1] at hadm
  have hbits := set_bits_clear_bits (for_each_cpu (create_cpu_set (env.config_at addr)))
    s.root_cell.cpu_set.bitmap (not_busy_bits cpu _ _ hbusy)
  have key3 : ∃ S3 : State,
      S3.root_cell = { s.root_cell with cpu_set := { s.root_cell.cpu_set with
        bitmap := clear_bits (for_each_cpu (create_cpu_set (env.config_at addr)))
          s.root_cell.cpu_set.bitmap } } ∧
      S3.cells = s.cells ∧ S3.num_cells = s.num_cells ∧ S3.per_cpu = s.per_cpu ∧
      S3.mem_pool_used = S2.mem_pool_used ∧ S3.parked = s.parked ∧
      cell_create env cpu addr s =
        cell_create_assign env cpu (init_cell env (env.config_at addr) s)
          (create_pages env (env.config_at addr)) S3 :=
    ⟨_, by simp [with_root_bitmap, k1], by simp [with_root_bitmap, k2],
      by simp [with_root_bitmap, k3], by simp [with_root_bitmap, k4],
      by simp [with_root_bitmap], by simp [with_root_bitmap, k6], hadm⟩
  obtain ⟨S3, j1, j2, j3, j4, j5, j6, e3⟩ := key3
  have hid : S3.root_cell.id = s.root_cell.id := by rw [j1]
  have hmp : S3.root_cell.mappings = s.root_cell.mappings := by rw [j1]
  have hrc : S3.root_cell.config = s.root_cell.config := by rw [j1]
  by_cases hf : (unmap_pt env s.root_cell.id (env.config_at addr).mem_regions
      s.root_cell.mappings).1 ≠ 0 ∨ env.arch_cell_create_ok (env.config_at addr) = false
  · left
    have ha := cell_create_assign_failure env cpu (init_cell env (env.config_at addr) s)
      (create_pages env (env.config_at addr)) S3 (by rw [hid, hmp, hcfg]; exact hf)
    rw [← e3] at ha
    refine ⟨hpass, hbusy, hf, by rw [ha], ?_⟩
    apply State.ext
    · rw [ha]
      simp only [hid, hmp, hrc, hcfg, hset]
      rw [j1]
      simp only [hbits]
    · rw [ha]; exact j2
    · rw [ha]; exact j3
    · rw [ha]; exact j4
    · rw [ha]; simp only; rw [j5]; exact hmem
    · rfl
    · rw [ha]; exact j6
  · right
    have hu : (unmap_pt env s.root_cell.id (env.config_at addr).mem_regions
        s.root_cell.mappings).1 = 0 := by
      by_contra hh; exact hf (Or.inl hh)
    have hok : env.arch_cell_create_ok (env.config_at addr) = true := by
      by_contra hh; exact hf (Or.inr (by simpa using hh))
    have ha := cell_create_assign_success env cpu (init_cell env (env.config_at addr) s)
      (create_pages env (env.config_at addr)) S3 (by rw [hid, hmp, hcfg]; exact hu)
      (by rw [hcfg]; exact hok)
    rw [← e3, cell_create_publish_eq] at ha
    refine ⟨hpass, hbusy, hu, hok, by rw [ha]; rfl, ?_⟩
    apply State.ext
    · rw [ha]
      simp only [hid, hmp, hcfg]
      rw [j1]
    · rw [ha]
      simp only [j2]
      rfl
    · rw [ha]; simp only [j3]
    · rw [ha]; simp only [j4]; rfl
    · rw [ha]; simp only [j5, k5]
    · rfl
    · rw [ha]; simp only [j6]; rfl


/-! ## The outcomes of `cell_destroy` -/


theorem find_chained_some (l : List cell) (id : Nat) :
    ∀ (k : Nat) (c : cell), find_chained l id = some (k, c) →
      l[k]? = some c ∧ c.id = id ∧ ∀ j c', j < k → l[j]? = some c' → c'.id ≠ id := by
  induction l with
  | nil => intro k c h; simp [find_chained] at h
  | cons a l ih =>
    intro k c h
    simp only [find_chained] at h
    by_cases ha : a.id = id
    · rw [if_pos ha] at h
      simp only [Option.some.injEq, Prod.mk.injEq] at h
      obtain ⟨h1, h2⟩ := h
      subst h1; subst h2
      exact ⟨by simp, ha, fun j c' hj _ => absurd hj (Nat.not_lt_zero j)⟩
    · rw [if_neg ha] at h
      cases hf : find_chained l id with
      | none => rw [hf] at h; simp at h
      | some p =>
        rw [hf] at h
        simp only [Option.map_some', Option.some.injEq, Prod.mk.injEq] at h
        obtain ⟨h1, h2⟩ := h
        obtain ⟨i1, i2, i3⟩ := ih p.1 p.2 (by rw [hf])
        subst h1; subst h2
        refine ⟨by simpa using i1, i2, ?_⟩
        intro j c' hj hc'
        cases j with
        | zero =>
          simp only [List.getElem?_cons_zero, Option.some.injEq] at hc'
          subst hc'; exact ha
        | succ j =>
          simp only [List.getElem?_cons_succ] at hc'
          exact i3 j c' (by omega) hc'

theorem find_chained_none (l : List cell) (id : Nat) :
    find_chained l id = none ↔ ∀ c ∈ l, c.id ≠ id := by
  induction l with
  | nil => simp [find_chained]
  | cons a l ih =>
    simp only [find_chained]
    by_cases ha : a.id = id
    · rw [if_pos ha]
      simp [ha]
    · rw [if_neg ha]
      simp only [Option.map_eq_none', ih, List.mem_cons, forall_eq_or_imp, ha, ne_eq,
        not_false_eq_true, true_and]

theorem find_cell_none (s : State) (id : Nat) :
    find_cell s id = none ↔ ∀ c ∈ for_each_cell s, c.id ≠ id := by
  unfold find_cell for_each_cell
  by_cases hr : s.root_cell.id = id
  · rw [if_pos hr]
    simp [hr]
  · rw [if_neg hr]
    simp only [Option.map_eq_none', find_chained_none, List.mem_cons, forall_eq_or_imp, hr, ne_eq,
      not_false_eq_true, true_and]

theorem find_cell_root (s : State) (id : Nat) :
    find_cell s id = some cell_ref.root ↔ s.root_cell.id = id := by
  unfold find_cell
  by_cases hr : s.root_cell.id = id
  · rw [if_pos hr]; simp [hr]
  · rw [if_neg hr]
    simp only [hr, iff_false]
    cases find_chained s.cells id <;> simp

theorem find_cell_chained (s : State) (id k : Nat) (c : cell) :
    find_cell s id = some (cell_ref.chained k c) ↔
      s.root_cell.id ≠ id ∧ find_chained s.cells id = some (k, c) := by
  unfold find_cell
  by_cases hr : s.root_cell.id = id
  · rw [if_pos hr]; simp [hr]
  · rw [if_neg hr]
    simp only [ne_eq, hr, not_false_eq_true, true_and]
    cases hf : find_chained s.cells id with
    | none => simp
    | some p =>
      obtain ⟨a, b⟩ := p
      simp

theorem eraseIdx_set (l : List cell) (k : Nat) (c : cell) :
    (l.set k c).eraseIdx k = l.eraseIdx k := by
  induction l generalizing k with
  | nil => simp
  | cons a l ih =>
    cases k with
    | zero => simp
    | succ k => simp [ih]

theorem cell_shutdown_ok_frame (env : Env) (fuel : Nat) (c c1 : cell) (b : Bool)
    (h : cell_shutdown_ok env fuel c = some (b, c1)) :
    c1.id = c.id ∧ c1.data_pages = c.data_pages ∧ c1.config = c.config ∧
    c1.cpu_set = c.cpu_set ∧ c1.mappings = c.mappings := by
  unfold cell_shutdown_ok at h
  split at h
  · simp only [Option.some.injEq, Prod.mk.injEq] at h
    rw [← h.2]
    exact ⟨rfl, rfl, rfl, rfl, rfl⟩
  · simp only at h
    cases hs : shutdown_spin (comm_loads (jailhouse_send_msg_to_cell c.comm_region
        JAILHOUSE_MSG_SHUTDOWN_REQUESTED) (env.guest c.id)) fuel 0 with
    | none => rw [hs] at h; simp at h
    | some b' =>
      rw [hs] at h
      simp only [Option.map_some', Option.some.injEq, Prod.mk.injEq] at h
      rw [← h.2]
      exact ⟨rfl, rfl, rfl, rfl, rfl⟩



theorem find_cell_congr (s s' : State) (id : Nat) (h1 : s'.root_cell = s.root_cell)
    (h2 : s'.cells = s.cells) : find_cell s' id = find_cell s id := by
  unfold find_cell
  rw [h1, h2]

theorem suspend_resume_flags (cpu : Nat) (s st : State)
    (hroot : (s.per_cpu cpu).cell = s.root_cell.id)
    (h1 : st.root_cell = s.root_cell) (h2 : st.per_cpu = s.per_cpu)
    (h3 : st.suspended = (cell_suspend s.root_cell cpu s).suspended) :
    (cell_resume cpu st).suspended =
      fun x => if x ∈ for_each_cpu_except s.root_cell.cpu_set cpu then false
               else s.suspended x := by
  rw [cell_resume_def cpu st (by rw [h2, h1]; exact hroot), h1]
  simp only [h3, cell_suspend_def]
  funext x
  by_cases hx : x ∈ for_each_cpu_except s.root_cell.cpu_set ↑cpu <;> simp [hx]

theorem cell_destroy_eperm (env : Env) (fuel cpu id : Nat) (s : State)
    (h : (s.per_cpu cpu).cell ≠ s.root_cell.id) :
    cell_destroy env fuel cpu id s = some (-EPERM, s) := by
  unfold cell_destroy
  rw [if_pos h]

theorem cell_destroy_outcome (env : Env) (fuel cpu id : Nat) (s : State)
    (hroot : (s.per_cpu cpu).cell = s.root_cell.id) :
    (find_cell s id = none ∧
      cell_destroy env fuel cpu id s = some (-ENOENT,
        { s with suspended := fun x =>
            if x ∈ for_each_cpu_except s.root_cell.cpu_set cpu then false
            else s.suspended x })) ∨
    (find_cell s id = some cell_ref.root ∧
      cell_destroy env fuel cpu id s = some (-EINVAL,
        { s with suspended := fun x =>
            if x ∈ for_each_cpu_except s.root_cell.cpu_set cpu then false
            else s.suspended x })) ∨
    (∃ k c, find_cell s id = some (cell_ref.chained k c) ∧
      ((cell_shutdown_ok env fuel c = none ∧ cell_destroy env fuel cpu id s = none) ∨
       (∃ c1, cell_shutdown_ok env fuel c = some (false, c1) ∧
          cell_destroy env fuel cpu id s = some (-EPERM,
            { s with
              suspended := fun x =>
                if x ∈ for_each_cpu_except s.root_cell.cpu_set cpu then false
                else s.suspended x,
              cells := s.cells.set k c1 })) ∨
       (∃ c1 st, cell_shutdown_ok env fuel c = some (true, c1) ∧
          cell_destroy env fuel cpu id s = some (0, st) ∧
          st = { s with
            suspended := st.suspended,
            parked := fun x => if x ∈ for_each_cpu c.cpu_set then true else s.parked x,
            root_cell := { s.root_cell with
              cpu_set := { s.root_cell.cpu_set with
                bitmap := set_bits (for_each_cpu c.cpu_set) s.root_cell.cpu_set.bitmap },
              mappings := release_pt env s.root_cell.id s.root_cell.config.mem_regions
                c.config.mem_regions s.root_cell.mappings },
            per_cpu := fun x => if x ∈ for_each_cpu c.cpu_set then
                { s.per_cpu x with cell := s.root_cell.id, failed := false }
              else s.per_cpu x,
            cells := s.cells.eraseIdx k,
            num_cells := s.num_cells - 1,
            mem_pool_used := s.mem_pool_used - c.data_pages }))) := by
  unfold cell_destroy
  simp only [ne_eq, hroot, not_true_eq_false, if_false]
  rw [find_cell_congr s (cell_suspend s.root_cell cpu s) id (by simp) (by simp)]
  cases hf : find_cell s id with
  | none =>
    left
    refine ⟨rfl, ?_⟩
    simp only [Option.some.injEq, Prod.mk.injEq, true_and]
    apply State.ext
    · simp
    · simp
    · simp
    · simp
    · simp
    · exact suspend_resume_flags cpu s _ hroot (by simp) (by simp) rfl
    · simp
  | some r =>
    cases r with
    | root =>
      right; left
      refine ⟨rfl, ?_⟩
      simp only [Option.some.injEq, Prod.mk.injEq, true_and]
      apply State.ext
      · simp
      · simp
      · simp
      · simp
      · simp
      · exact suspend_resume_flags cpu s _ hroot (by simp) (by simp) rfl
      · simp
    | chained k c =>
      right; right
      refine ⟨k, c, rfl, ?_⟩
      simp only
      cases hs : cell_shutdown_ok env fuel c with
      | none => left; exact ⟨rfl, rfl⟩
      | some p =>
        obtain ⟨b, c1⟩ := p
        obtain ⟨f1, f2, f3, f4, f5⟩ := cell_shutdown_ok_frame env fuel c c1 b hs
        cases b with
        | false =>
          right; left
          refine ⟨c1, rfl, ?_⟩
          simp only [Option.some.injEq, Prod.mk.injEq, true_and]
          apply State.ext
          · simp
          · simp
          · simp
          · simp
          · simp
          · exact suspend_resume_flags cpu s _ hroot (by simp) (by simp) rfl
          · simp
        | true =>
          right; right
          refine ⟨c1, _, rfl, rfl, ?_⟩
          apply State.ext
          · simp [page_free, release_regions_pt, foldl_park_and_reassign, f3, f4]
          · simp [page_free, release_regions_pt, foldl_park_and_reassign, eraseIdx_set]
          · simp [page_free, release_regions_pt, foldl_park_and_reassign]
          · simp [page_free, release_regions_pt, foldl_park_and_reassign, f4]
          · simp [page_free, release_regions_pt, foldl_park_and_reassign, f2]
          · rfl
          · simp [page_free, release_regions_pt, foldl_park_and_reassign, f4]



/-- The comm region under a guest that answers before load `n`. -/
theorem comm_at_answer (comm : jailhouse_comm_region)
    (guest : Nat → jailhouse_comm_region → jailhouse_comm_region) (n v : Nat)
    (h : guest_answers guest n v) :
    ∀ j, comm_at comm guest j =
      if j < n then comm else jailhouse_send_reply_from_cell comm v := by
  intro j
  induction j with
  | zero =>
    simp only [comm_at]
    by_cases hn : 0 = n
    · subst hn
      rw [h.1, if_neg (Nat.lt_irrefl 0)]
    · rw [h.2 0 comm hn, if_pos (by omega)]
  | succ j ih =>
    simp only [comm_at, ih]
    by_cases hn : j + 1 = n
    · rw [if_pos (by omega), hn, h.1, if_neg (Nat.lt_irrefl n)]
    · rw [h.2 (j + 1) _ hn]
      by_cases hj : j < n
      · rw [if_pos hj, if_pos (by omega)]
      · rw [if_neg hj, if_neg (by omega)]

/-- The spin loop under loads that show a cleared reply up to load `n` and OK
from then on. -/
theorem shutdown_spin_ok (obs : Nat → Nat × Nat) (n : Nat)
    (h1 : ∀ j, j < n → (obs j).1 = JAILHOUSE_MSG_NONE)
    (h2 : ∀ j, n ≤ j → (obs j).1 = JAILHOUSE_MSG_SHUTDOWN_OK) :
    ∀ (fuel t : Nat), 1 ≤ fuel → n ≤ t + 1 + 4 * (fuel - 1) →
      ∃ k, shutdown_spin obs fuel t = some (true, k) := by
  intro fuel
  induction fuel with
  | zero => intro t h1 _; omega
  | succ f ih =>
    intro t _ hb
    simp only [shutdown_spin]
    have r0 : (obs t).1 ≠ JAILHOUSE_MSG_SHUTDOWN_DENIED := by
      by_cases hh : n ≤ t
      · rw [h2 _ hh]; decide
      · rw [h1 _ (by omega)]; decide
    rw [if_neg r0]
    by_cases c1 : (obs (t + 1)).1 = JAILHOUSE_MSG_SHUTDOWN_OK
    · rw [if_pos c1]; exact ⟨_, rfl⟩
    rw [if_neg c1]
    by_cases c2 : (obs (t + 2)).2 = JAILHOUSE_CELL_SHUT_DOWN
    · rw [if_pos c2]; exact ⟨_, rfl⟩
    rw [if_neg c2]
    by_cases c3 : (obs (t + 3)).2 = JAILHOUSE_CELL_FAILED
    · rw [if_pos c3]; exact ⟨_, rfl⟩
    rw [if_neg c3]
    have hn : ¬ n ≤ t + 1 := fun hh => c1 (h2 _ hh)
    exact ih (t + 4) (by omega) (by omega)

/-- A guest that consents: `cell_shutdown_ok` returns true. -/
theorem cell_shutdown_ok_consent (env : Env) (fuel n : Nat) (c : cell)
    (h : guest_answers (env.guest c.id) n JAILHOUSE_MSG_SHUTDOWN_OK) (hf : n < fuel) :
    ∃ c1, cell_shutdown_ok env fuel c = some (true, c1) := by
  have hat := comm_at_answer (jailhouse_send_msg_to_cell c.comm_region
    JAILHOUSE_MSG_SHUTDOWN_REQUESTED) (env.guest c.id) n _ h
  obtain ⟨k, hs⟩ := shutdown_spin_ok
    (comm_loads (jailhouse_send_msg_to_cell c.comm_region JAILHOUSE_MSG_SHUTDOWN_REQUESTED)
      (env.guest c.id)) n
    (fun j hj => by simp only [comm_loads, hat, if_pos hj]; rfl)
    (fun j hj => by
      simp only [comm_loads, hat, if_neg (Nat.not_lt.2 hj)]; rfl)
    fuel 0 (by omega) (by omega)
  unfold cell_shutdown_ok
  split
  · exact ⟨_, rfl⟩
  · simp only [hs, Option.map_some']
    exact ⟨_, rfl⟩

/-- A comm region that the guest leaves alone stays as it is. -/
theorem comm_at_silent (comm : jailhouse_comm_region)
    (guest : Nat → jailhouse_comm_region → jailhouse_comm_region)
    (h : ∀ n x, guest n x = x) : ∀ n, comm_at comm guest n = comm := by
  intro n
  induction n with
  | zero => simp only [comm_at, h]
  | succ n ih => simp only [comm_at, h, ih]

/-- The spin loop over a cleared reply and a cell state that is neither
SHUT_DOWN nor FAILED, the guest staying silent, does not leave. -/
theorem shutdown_spin_silent (comm : jailhouse_comm_region)
    (guest : Nat → jailhouse_comm_region → jailhouse_comm_region)
    (h : ∀ n x, guest n x = x)
    (h1 : comm.reply_from_cell = JAILHOUSE_MSG_NONE)
    (h2 : comm.cell_state ≠ JAILHOUSE_CELL_SHUT_DOWN)
    (h3 : comm.cell_state ≠ JAILHOUSE_CELL_FAILED) :
    ∀ (fuel t : Nat), shutdown_spin (comm_loads comm guest) fuel t = none := by
  intro fuel
  induction fuel with
  | zero => intro t; rfl
  | succ n ih =>
    intro t
    have e : ∀ j, comm_loads comm guest j = (JAILHOUSE_MSG_NONE, comm.cell_state) := by
      intro j
      unfold comm_loads
      rw [comm_at_silent comm guest h, h1]
    simp only [shutdown_spin, e, ih]
    rw [if_neg (by decide), if_neg (by decide), if_neg h2, if_neg h3]

/-- `cell_shutdown_ok` on a cell without UNMANAGED_EXIT that is neither shut
down nor failed and whose guest leaves the comm region alone: the loop does
not leave, whatever the bound on its rounds. -/
theorem cell_shutdown_ok_silent (env : Env) (fuel : Nat) (c : cell)
    (hflag : c.config.flags &&& JAILHOUSE_CELL_UNMANAGED_EXIT = 0)
    (hsilent : ∀ n x, env.guest c.id n x = x)
    (h2 : c.comm_region.cell_state ≠ JAILHOUSE_CELL_SHUT_DOWN)
    (h3 : c.comm_region.cell_state ≠ JAILHOUSE_CELL_FAILED) :
    cell_shutdown_ok env fuel c = none := by
  unfold cell_shutdown_ok
  rw [if_neg (by simp [hflag])]
  simp only [shutdown_spin_silent
    (jailhouse_send_msg_to_cell c.comm_region JAILHOUSE_MSG_SHUTDOWN_REQUESTED)
    (env.guest c.id) hsilent rfl h2 h3, Option.map_none']

/-! ## Lemmas for the CPU partition -/

theorem pairwise_eraseIdx_rel {α : Type} (R : α → α → Prop) (hsymm : ∀ a b, R a b → R b a) :
    ∀ (l : List α) (k : Nat) (c : α), l.Pairwise R → l[k]? = some c →
      ∀ b ∈ l.eraseIdx k, R c b := by
  intro l
  induction l with
  | nil => intro k c _ h; simp at h
  | cons a l ih =>
    intro k c hp hk b hb
    rw [List.pairwise_cons] at hp
    cases k with
    | zero =>
      simp only [List.getElem?_cons_zero, Option.some.injEq] at hk
      subst hk
      simp only [List.eraseIdx_cons_zero] at hb
      exact hp.1 b hb
    | succ k =>
      simp only [List.getElem?_cons_succ] at hk
      simp only [List.eraseIdx_cons_succ, List.mem_cons] at hb
      rcases hb with hb | hb
      · subst hb
        exact hsymm _ _ (hp.1 c (List.getElem?_mem hk))
      · exact ih k c hp.2 hk b hb

theorem decide_mem_for_each_cpu (set : cpu_set) (x : Nat) :
    decide (x ∈ for_each_cpu set) = set.contains x := by
  by_cases hx : x ∈ for_each_cpu set
  · rw [(mem_for_each_cpu set x).1 hx]; simp [hx]
  · have : set.contains x = false := by
      by_contra hh
      exact hx ((mem_for_each_cpu set x).2 (by simpa using hh))
    rw [this]; simp [hx]

theorem contains_clear_bits (set root : cpu_set) (x : Nat) :
    ({ root with bitmap := clear_bits (for_each_cpu set) root.bitmap } : cpu_set).contains x =
      (root.contains x && !set.contains x) := by
  have e : ({ root with bitmap := clear_bits (for_each_cpu set) root.bitmap } :
      cpu_set).contains x =
      (decide (x ≤ root.max_cpu_id) &&
        test_bit x (clear_bits (for_each_cpu set) root.bitmap)) := rfl
  rw [e, test_bit_clear_bits, decide_mem_for_each_cpu]
  unfold cpu_set.contains
  cases decide (x ≤ root.max_cpu_id) <;> cases test_bit x root.bitmap <;> rfl

theorem contains_set_bits (set root : cpu_set) (x : Nat) :
    ({ root with bitmap := set_bits (for_each_cpu set) root.bitmap } : cpu_set).contains x =
      (root.contains x || (decide (x ≤ root.max_cpu_id) && set.contains x)) := by
  have e : ({ root with bitmap := set_bits (for_each_cpu set) root.bitmap } :
      cpu_set).contains x =
      (decide (x ≤ root.max_cpu_id) &&
        test_bit x (set_bits (for_each_cpu set) root.bitmap)) := rfl
  rw [e, test_bit_set_bits, decide_mem_for_each_cpu]
  unfold cpu_set.contains
  cases decide (x ≤ root.max_cpu_id) <;> cases test_bit x root.bitmap <;> simp

theorem not_busy_subset (cpu : Nat) (set root : cpu_set) (h : ¬ create_busy cpu set root)
    (x : Nat) (hx : set.contains x = true) : root.contains x = true := by
  have hb := not_busy_bits cpu set root h x ((mem_for_each_cpu set x).2 hx)
  have hmax : ¬ root.max_cpu_id < set.max_cpu_id := fun hh => h (Or.inr (Or.inl hh))
  unfold cpu_set.contains at hx ⊢
  simp only [Bool.and_eq_true, decide_eq_true_eq] at hx ⊢
  exact ⟨by omega, hb⟩



theorem foldl_invariant {α β : Type} (P : β → Prop) (f : β → α → β) :
    ∀ (l : List α) (b : β), (∀ x ∈ l, ∀ st, P st → P (f st x)) → P b → P (l.foldl f b) := by
  intro l
  induction l with
  | nil => intro b _ h; exact h
  | cons a l ih =>
    intro b hstep hb
    rw [List.foldl_cons]
    exact ih _ (fun x hx => hstep x (List.mem_cons_of_mem _ hx))
      (hstep a (List.mem_cons_self _ _) b hb)

theorem foldl_establish {α β : Type} (P : β → Prop) (f : β → α → β) (x0 : α) :
    ∀ (l : List α) (b : β), x0 ∈ l → (∀ x ∈ l, ∀ st, P st → P (f st x)) →
      (∀ st, P (f st x0)) → P (l.foldl f b) := by
  intro l
  induction l with
  | nil => intro b h; exact absurd h (List.not_mem_nil _)
  | cons a l ih =>
    intro b hmem hstep hest
    rw [List.foldl_cons]
    rcases List.mem_cons.1 hmem with h | h
    · subst h
      exact foldl_invariant P f l _ (fun x hx => hstep x (List.mem_cons_of_mem _ hx)) (hest b)
    · exact ih _ h (fun x hx => hstep x (List.mem_cons_of_mem _ hx)) hest

theorem unmap_pt_pointwise (env : Env) (root_id : Nat) :
    ∀ (regs : List jailhouse_memory) (m : Nat → Option pte) (a : Nat),
      (unmap_pt env root_id regs m).2 a = m a ∨
      ((unmap_pt env root_id regs m).2 a = none ∧
        ∃ R ∈ regs, R.flags &&& JAILHOUSE_MEM_COMM_REGION = 0 ∧ R.contains_phys a) := by
  intro regs
  induction regs with
  | nil => intro m a; left; rfl
  | cons R regs ih =>
    intro m a
    simp only [unmap_pt]
    by_cases hc : R.flags &&& JAILHOUSE_MEM_COMM_REGION = 0
    · rw [if_pos hc]
      by_cases hok : env.arch_unmap_ok root_id { R with virt_start := R.phys_start } = true
      · rw [if_pos hok]
        rcases ih (unmap_region { R with virt_start := R.phys_start } m) a with h | ⟨h, R', hR', hx⟩
        · rw [h]
          unfold unmap_region
          by_cases hin : R.phys_start ≤ a ∧ a < R.phys_start + R.size
          · right
            simp only [hin, and_self, if_true, true_and]
            exact ⟨R, List.mem_cons_self _ _, hc, hin⟩
          · left
            simp only [hin, if_false]
        · right
          exact ⟨h, R', List.mem_cons_of_mem _ hR', hx⟩
      · rw [if_neg hok]
        left; rfl
    · rw [if_neg hc]
      rcases ih m a with h | ⟨h, R', hR', hx⟩
      · left; exact h
      · right; exact ⟨h, R', List.mem_cons_of_mem _ hR', hx⟩

theorem remap_pt_eq_foldl (env : Env) (root_id : Nat) (root_regions : List jailhouse_memory)
    (mem : jailhouse_memory) (m : Nat → Option pte) :
    remap_pt env root_id root_regions mem m =
      root_regions.foldl (remap_step env root_id mem) m := rfl

theorem remap_step_pointwise (env : Env) (root_id : Nat) (R S : jailhouse_memory)
    (m : Nat → Option pte) (a : Nat) :
    remap_step env root_id R m S a = m a ∨
    ∃ o, remap_overlap R S = some o ∧ o.contains_virt a ∧
      remap_step env root_id R m S a = some (region_pte o a) := by
  unfold remap_step
  cases ho : remap_overlap R S with
  | none => left; rfl
  | some o =>
    simp only
    by_cases hok : env.arch_map_ok root_id o = true
    · rw [if_pos hok]
      unfold map_region
      by_cases hin : o.virt_start ≤ a ∧ a < o.virt_start + o.size
      · right
        exact ⟨o, rfl, hin, by simp only [hin, and_self, if_true]⟩
      · left
        simp only [hin, if_false]
    · rw [if_neg hok]
      left; rfl

theorem remap_step_written (env : Env) (root_id : Nat) (R S o : jailhouse_memory)
    (m : Nat → Option pte) (a : Nat) (hok : env.arch_map_ok root_id o = true)
    (ho : remap_overlap R S = some o) (ha : o.contains_virt a) :
    remap_step env root_id R m S a = some (region_pte o a) := by
  unfold remap_step
  rw [ho]
  simp only [hok, if_true]
  unfold map_region
  exact if_pos ha

/-- Every step of the remapping loops keeps a remapped address remapped. -/
theorem remap_step_keeps (env : Env) (root_id : Nat) (root_regions regs : List jailhouse_memory)
    (R S : jailhouse_memory) (hR : R ∈ regs) (hS : S ∈ root_regions)
    (m : Nat → Option pte) (a : Nat) (h : remapped_at root_regions regs m a) :
    remapped_at root_regions regs (remap_step env root_id R m S) a := by
  rcases remap_step_pointwise env root_id R S m a with e | ⟨o, ho, ha, e⟩
  · obtain ⟨R', hR', S', hS', o', ho', ha', hm⟩ := h
    exact ⟨R', hR', S', hS', o', ho', ha', by rw [e, hm]⟩
  · exact ⟨R, hR, S, hS, o, ho, ha, e⟩

theorem remap_pt_keeps (env : Env) (root_id : Nat) (root_regions regs : List jailhouse_memory)
    (R : jailhouse_memory) (hR : R ∈ regs) (m : Nat → Option pte) (a : Nat)
    (h : remapped_at root_regions regs m a) :
    remapped_at root_regions regs (remap_pt env root_id root_regions R m) a := by
  rw [remap_pt_eq_foldl]
  exact foldl_invariant (fun pt => remapped_at root_regions regs pt a) _ root_regions m
    (fun S hS st hst => remap_step_keeps env root_id root_regions regs R S hR hS st a hst) h

theorem remap_pt_establishes (env : Env) (root_id : Nat)
    (root_regions regs : List jailhouse_memory) (R S o : jailhouse_memory)
    (hR : R ∈ regs) (hS : S ∈ root_regions) (m : Nat → Option pte) (a : Nat)
    (hok : env.arch_map_ok root_id o = true)
    (ho : remap_overlap R S = some o) (ha : o.contains_virt a) :
    remapped_at root_regions regs (remap_pt env root_id root_regions R m) a := by
  rw [remap_pt_eq_foldl]
  exact foldl_establish (fun pt => remapped_at root_regions regs pt a) _ S root_regions m hS
    (fun S' hS' st hst => remap_step_keeps env root_id root_regions regs R S' hR hS' st a hst)
    (fun st => ⟨R, hR, S, hS, o, ho, ha, remap_step_written env root_id R S o st a hok ho ha⟩)

/-- The remapping loop over the regions `l`, a part of `regs`. -/
theorem rollback_pt_keeps (env : Env) (root_id : Nat) (root_regions regs : List jailhouse_memory)
    (l : List jailhouse_memory) (hl : ∀ R ∈ l, R ∈ regs) (m : Nat → Option pte) (a : Nat)
    (h : remapped_at root_regions regs m a) :
    remapped_at root_regions regs (rollback_pt env root_id root_regions l m) a := by
  unfold rollback_pt
  exact foldl_invariant (fun pt => remapped_at root_regions regs pt a) _ l m
    (fun R hR st hst => remap_pt_keeps env root_id root_regions regs R (hl R hR) st a hst) h

theorem rollback_pt_establishes (env : Env) (root_id : Nat)
    (root_regions regs : List jailhouse_memory) (l : List jailhouse_memory)
    (hl : ∀ R ∈ l, R ∈ regs) (R S o : jailhouse_memory)
    (hR : R ∈ l) (hS : S ∈ root_regions) (m : Nat → Option pte) (a : Nat)
    (hok : env.arch_map_ok root_id o = true)
    (ho : remap_overlap R S = some o) (ha : o.contains_virt a) :
    remapped_at root_regions regs (rollback_pt env root_id root_regions l m) a := by
  unfold rollback_pt
  exact foldl_establish (fun pt => remapped_at root_regions regs pt a) _ R l m hR
    (fun R' hR' st hst => remap_pt_keeps env root_id root_regions regs R' (hl R' hR') st a hst)
    (fun st => remap_pt_establishes env root_id root_regions regs R S o (hl R hR) hS st a hok ho ha)

theorem remap_pt_pointwise (env : Env) (root_id : Nat) (root_regions regs : List jailhouse_memory)
    (R : jailhouse_memory) (hR : R ∈ regs) (m : Nat → Option pte) (a : Nat) :
    remap_pt env root_id root_regions R m a = m a ∨
    remapped_at root_regions regs (remap_pt env root_id root_regions R m) a := by
  rw [remap_pt_eq_foldl]
  exact foldl_invariant
    (fun pt => pt a = m a ∨ remapped_at root_regions regs pt a) (remap_step env root_id R)
    root_regions m
    (fun S hS st hst => by
      rcases hst with e | e
      · rcases remap_step_pointwise env root_id R S st a with e' | ⟨o, ho, ha, e'⟩
        · left; exact e'.trans e
        · right; exact ⟨R, hR, S, hS, o, ho, ha, e'⟩
      · right; exact remap_step_keeps env root_id root_regions regs R S hR hS st a e)
    (Or.inl rfl)

theorem rollback_pt_pointwise (env : Env) (root_id : Nat)
    (root_regions regs : List jailhouse_memory) (l : List jailhouse_memory)
    (hl : ∀ R ∈ l, R ∈ regs) (m : Nat → Option pte) (a : Nat) :
    rollback_pt env root_id root_regions l m a = m a ∨
    remapped_at root_regions regs (rollback_pt env root_id root_regions l m) a := by
  unfold rollback_pt
  exact foldl_invariant
    (fun pt => pt a = m a ∨ remapped_at root_regions regs pt a)
    (fun pt mem => remap_pt env root_id root_regions mem pt) l m
    (fun R hR st hst => by
      rcases hst with e | e
      · rcases remap_pt_pointwise env root_id root_regions regs R (hl R hR) st a with e' | e'
        · left; exact e'.trans e
        · right; exact e'
      · right; exact remap_pt_keeps env root_id root_regions regs R (hl R hR) st a e)
    (Or.inl rfl)

theorem sub64_add_cancel (a p : Nat) (ha : a < 2 ^ 64) (hp : p < 2 ^ 64) :
    sub64 ((a + p) % 2 ^ 64) a = p := by
  unfold sub64
  have : a % 2 ^ 64 = a := Nat.mod_eq_of_lt ha
  rw [this]
  omega

/-- The overlap with an identity-mapped root region is identity-mapped, has
the flags of the root region and covers the addresses common to both
regions. -/
theorem identity_overlap (R S o : jailhouse_memory)
    (hR : R.phys_start + R.size < 2 ^ 64) (hS : S.phys_start + S.size < 2 ^ 64)
    (hid : S.virt_start = S.phys_start) (ho : remap_overlap R S = some o) :
    o.virt_start = o.phys_start ∧ o.flags = S.flags ∧
    ∀ a, o.contains_virt a ↔ (R.contains_phys a ∧ S.contains_phys a) := by
  rw [remap_overlap_eq R S hR hS] at ho
  unfold jailhouse_memory.contains_virt jailhouse_memory.contains_phys
  split at ho
  · next h1 =>
    cases ho
    simp only
    rw [hid, sub64_add_cancel _ _ (by omega) (by omega)]
    refine ⟨rfl, trivial, fun a => ?_⟩
    omega
  · split at ho
    · next h1 h2 =>
      cases ho
      simp only
      rw [hid, sub64_add_cancel _ _ (by omega) (by omega)]
      refine ⟨rfl, trivial, fun a => ?_⟩
      omega
    · cases ho

theorem identity_overlap_exists (R S : jailhouse_memory)
    (hR : R.phys_start + R.size < 2 ^ 64) (hS : S.phys_start + S.size < 2 ^ 64)
    (a : Nat) (h1 : R.contains_phys a) (h2 : S.contains_phys a) :
    ∃ o, remap_overlap R S = some o := by
  rw [remap_overlap_eq R S hR hS]
  unfold jailhouse_memory.contains_phys at h1 h2
  by_cases c1 : S.phys_start ≤ R.phys_start ∧ R.phys_start < S.phys_start + S.size
  · rw [if_pos c1]; exact ⟨_, rfl⟩
  · rw [if_neg c1]
    have c2 : R.phys_start ≤ S.phys_start ∧ S.phys_start < R.phys_start + R.size := by omega
    rw [if_pos c2]; exact ⟨_, rfl⟩

theorem identity_region_pte (o : jailhouse_memory) (a : Nat)
    (h1 : o.virt_start = o.phys_start) (h2 : o.flags &&& JAILHOUSE_MEM_COMM_REGION = 0)
    (ha : o.contains_virt a) :
    region_pte o a = { target := backing.host a, flags := o.flags } := by
  unfold region_pte
  unfold jailhouse_memory.contains_virt at ha
  rw [if_neg (by simp [h2])]
  congr 2
  omega

/-- A CPU bitmap of at most `PAGE_SIZE - sizeof(unsigned long)` bytes fits. -/
theorem cpu_set_fits_of_le (cfg : jailhouse_cell_desc)
    (h : cfg.cpu_set_size ≤ PAGE_SIZE - SIZEOF_LONG) : cpu_set_fits cfg := by
  intro _
  unfold create_cpu_set cpu_set.max_cpu_id
  unfold PAGE_SIZE SIZEOF_LONG at h ⊢
  unfold SMALL_BITMAP_BYTES
  simp only [decide_eq_true_eq]
  split <;> omega

/-- The sizes that fit: up to `PAGE_SIZE - sizeof(unsigned long)`, or above
`PAGE_SIZE`, where `cell_init` returns before the copy. -/
theorem cpu_set_fits_iff (cfg : jailhouse_cell_desc) :
    cpu_set_fits cfg ↔
      (cfg.cpu_set_size ≤ PAGE_SIZE - SIZEOF_LONG ∨ PAGE_SIZE < cfg.cpu_set_size) := by
  constructor
  · intro h
    by_cases hsz : cfg.cpu_set_size ≤ PAGE_SIZE
    · left
      have := h hsz
      unfold create_cpu_set cpu_set.max_cpu_id at this
      unfold PAGE_SIZE SIZEOF_LONG at this ⊢
      unfold SMALL_BITMAP_BYTES at this
      simp only [decide_eq_true_eq] at this
      split at this <;> omega
    · right; omega
  · rintro (h | h)
    · exact cpu_set_fits_of_le cfg h
    · intro hsz
      omega

/-- The bitmap that `cell_init` builds from a configuration that fits has no
bit above the cap. -/
theorem create_cpu_set_bounded (cfg : jailhouse_cell_desc)
    (hsz : cfg.cpu_set_size ≤ PAGE_SIZE) (h : cpu_set_fits cfg) :
    (create_cpu_set cfg).bitmap < 2 ^ ((create_cpu_set cfg).max_cpu_id + 1) := by
  have h1 : (create_cpu_set cfg).bitmap < 2 ^ (8 * cfg.cpu_set_size) :=
    Nat.mod_lt _ (Nat.two_pow_pos _)
  exact Nat.lt_of_lt_of_le h1 (Nat.pow_le_pow_right (by decide) (by have := h hsz; omega))

theorem cell_create_nonneg_root (env : Env) (cpu addr : Nat) (s : State)
    (h : 0 ≤ (cell_create env cpu addr s).1) : (s.per_cpu cpu).cell = s.root_cell.id := by
  by_contra hne
  rw [cell_create_eperm env cpu addr s hne] at h
  have : (-EPERM : Int) < 0 := by decide
  exact absurd h (by simp only; omega)

theorem find_chained_append_fresh (c : cell) :
    ∀ (l : List cell), (∀ c' ∈ l, c'.id ≠ c.id) →
      find_chained (l ++ [c]) c.id = some (l.length, c) := by
  intro l
  induction l with
  | nil => intro _; simp [find_chained]
  | cons a l ih =>
    intro h
    have ha : a.id ≠ c.id := h a (List.mem_cons_self _ _)
    have e := ih (fun c' hc' => h c' (List.mem_cons_of_mem _ hc'))
    show find_chained (a :: (l ++ [c])) c.id = _
    simp only [find_chained, if_neg ha, e, List.length_cons]
    rfl

theorem eraseIdx_append_length (c : cell) :
    ∀ (l : List cell), (l ++ [c]).eraseIdx l.length = l := by
  intro l
  induction l with
  | nil => rfl
  | cons a l ih => simp [ih]

theorem release_pt_eq_rollback (env : Env) (root_id : Nat)
    (root_regions : List jailhouse_memory) :
    ∀ (regs : List jailhouse_memory) (m : Nat → Option pte),
      release_pt env root_id root_regions regs m =
        rollback_pt env root_id root_regions
          (regs.filter (fun R => decide (R.flags &&& JAILHOUSE_MEM_COMM_REGION = 0))) m := by
  intro regs
  unfold release_pt rollback_pt
  induction regs with
  | nil => intro m; rfl
  | cons R regs ih =>
    intro m
    rw [List.foldl_cons, ih]
    by_cases hc : R.flags &&& JAILHOUSE_MEM_COMM_REGION = 0
    · rw [if_pos hc, List.filter_cons_of_pos (by simpa using hc), List.foldl_cons]
    · rw [if_neg hc, List.filter_cons_of_neg (by simpa using hc)]

/-- After the remapping loop of `cell_destroy` the root cell maps every
address of a released region that lies in an identity-mapped root region. -/
theorem release_pt_maps (env : Env) (root_id : Nat) (root_regions regs : List jailhouse_memory)
    (m : Nat → Option pte)
    (hmap : ∀ o, env.arch_map_ok root_id o = true)
    (hid : identity_mapped root_regions)
    (hnw : ∀ R ∈ regs, R.phys_start + R.size < 2 ^ 64)
    (R : jailhouse_memory) (hR : R ∈ regs) (hc : R.flags &&& JAILHOUSE_MEM_COMM_REGION = 0)
    (a : Nat) (ha : R.contains_phys a) (S : jailhouse_memory) (hS : S ∈ root_regions)
    (hin : S.contains_phys a) :
    ∃ fl, release_pt env root_id root_regions regs m a =
      some { target := backing.host a, flags := fl } := by
  rw [release_pt_eq_rollback]
  have hRf : R ∈ regs.filter (fun R => decide (R.flags &&& JAILHOUSE_MEM_COMM_REGION = 0)) :=
    List.mem_filter.2 ⟨hR, by simpa using hc⟩
  obtain ⟨i1, i2, _⟩ := hid S hS
  obtain ⟨o, ho⟩ := identity_overlap_exists R S (hnw R hR) i2 a ha hin
  have hov := ((identity_overlap R S o (hnw R hR) i2 i1 ho).2.2 a).2 ⟨ha, hin⟩
  obtain ⟨R', hR', S', hS', o', ho', ha', e⟩ :=
    rollback_pt_establishes env root_id root_regions regs _
      (fun R hR => (List.mem_filter.1 hR).1) R S o hRf hS m a (hmap o) ho hov
  obtain ⟨j1, j2, j3⟩ := hid S' hS'
  obtain ⟨o1, o2, _⟩ := identity_overlap R' S' o' (hnw R' hR') j2 j1 ho'
  rw [e, identity_region_pte o' a o1 (by rw [o2]; exact j3) ha']
  exact ⟨_, rfl⟩


theorem remap_pt_failing (env : Env) (root_id : Nat) (root_regions : List jailhouse_memory)
    (mem : jailhouse_memory) (m : Nat → Option pte)
    (h : ∀ o, env.arch_map_ok root_id o = false) :
    remap_pt env root_id root_regions mem m = m := by
  rw [remap_pt_eq_foldl]
  refine foldl_invariant (fun pt => pt = m) (remap_step env root_id mem) root_regions m ?_ rfl
  intro S _ st hst
  subst hst
  unfold remap_step
  cases remap_overlap mem S <;> simp [h]

theorem release_pt_failing (env : Env) (root_id : Nat) (root_regions regs : List jailhouse_memory)
    (m : Nat → Option pte) (h : ∀ o, env.arch_map_ok root_id o = false) :
    release_pt env root_id root_regions regs m = m := by
  unfold release_pt
  refine foldl_invariant (fun pt => pt = m) _ regs m ?_ rfl
  intro R _ st hst
  subst hst
  simp only [remap_pt_failing env root_id root_regions R st h, ite_self]

/-- The state behind a successful `cell_create` followed by a
`cell_destroy` of the new cell to which the guest consents. -/
theorem create_destroy_outcome (env env' : Env) (cpu addr fuel n i : Nat) (s : State)
    (hsucc : (cell_create env cpu addr s).1 = (i : Int))
    (hguest : guest_answers (env'.guest i) n JAILHOUSE_MSG_SHUTDOWN_OK)
    (hfuel : n < fuel) :
    ¬ create_busy cpu (create_cpu_set (env.config_at addr)) s.root_cell.cpu_set ∧
    ∃ st, cell_destroy env' fuel cpu i (cell_create env cpu addr s).2 = some (0, st) ∧
      st.root_cell.cpu_set = s.root_cell.cpu_set ∧
      st.root_cell.mappings =
        release_pt env' s.root_cell.id s.root_cell.config.mem_regions
          (env.config_at addr).mem_regions
          (unmap_pt env s.root_cell.id (env.config_at addr).mem_regions
            s.root_cell.mappings).2 ∧
      st.cells = s.cells ∧
      st.num_cells = s.num_cells ∧
      st.per_cpu = fun x =>
        if x ∈ for_each_cpu (create_cpu_set (env.config_at addr)) then
          { s.per_cpu x with cell := s.root_cell.id, failed := false }
        else s.per_cpu x := by
  have hnn : 0 ≤ (cell_create env cpu addr s).1 := by rw [hsucc]; exact Int.ofNat_nonneg _
  have hroot := cell_create_nonneg_root env cpu addr s hnn
  have hid := get_free_cell_id_loop_spec (for_each_cell s) ((for_each_cell s).length + 1) 0
    (by omega) (by intro j hj; omega)
  rcases cell_create_outcome env cpu addr s hroot with
    ⟨_, hc, _⟩ | ⟨_, _, hc, _⟩ | ⟨_, _, _, hc, _⟩ | ⟨_, hnb, _, _, hr, hs⟩
  · rcases hc with hc | hc | hc | hc <;> rw [hc] at hnn <;> exact absurd hnn (by decide)
  · rw [hc] at hnn; exact absurd hnn (by decide)
  · rw [hc] at hnn; exact absurd hnn (by decide)
  refine ⟨hnb, ?_⟩
  have hi : i = get_free_cell_id s := by
    rw [hr] at hsucc
    exact (Int.ofNat.inj hsucc).symm
  subst hi
  have k1 : (cell_create env cpu addr s).2.root_cell =
      { s.root_cell with
        cpu_set := { s.root_cell.cpu_set with
          bitmap := clear_bits (for_each_cpu (create_cpu_set (env.config_at addr)))
            s.root_cell.cpu_set.bitmap },
        mappings := (unmap_pt env s.root_cell.id (env.config_at addr).mem_regions
          s.root_cell.mappings).2 } := by rw [hs]
  have k2 : (cell_create env cpu addr s).2.cells =
      s.cells ++ [create_cell env (env.config_at addr) s] := by rw [hs]
  have k3 : (cell_create env cpu addr s).2.num_cells = s.num_cells + 1 := by rw [hs]
  have k4 : (cell_create env cpu addr s).2.per_cpu =
      fun x => if x ∈ for_each_cpu (create_cpu_set (env.config_at addr)) then
        { s.per_cpu x with cell := get_free_cell_id s, failed := false } else s.per_cpu x := by
    rw [hs]
  clear hs
  generalize (cell_create env cpu addr s).2 = s1 at *
  have hcpu : cpu ∉ for_each_cpu (create_cpu_set (env.config_at addr)) := by
    intro hmem
    exact hnb (Or.inl ((mem_for_each_cpu _ _).1 hmem))
  have hroot1 : (s1.per_cpu cpu).cell = s1.root_cell.id := by
    rw [k4, k1]
    simp only [if_neg hcpu]
    exact hroot
  have hfind : find_cell s1 (get_free_cell_id s) =
      some (cell_ref.chained s.cells.length (create_cell env (env.config_at addr) s)) := by
    rw [find_cell_chained]
    constructor
    · rw [k1]
      exact hid.1 s.root_cell (by simp [for_each_cell])
    · rw [k2]
      exact find_chained_append_fresh (create_cell env (env.config_at addr) s) s.cells
        (fun c' hc' => hid.1 c' (by simp [for_each_cell, hc']))
  obtain ⟨c1, hcons⟩ := cell_shutdown_ok_consent env' fuel n
    (create_cell env (env.config_at addr) s) hguest hfuel
  rcases cell_destroy_outcome env' fuel cpu (get_free_cell_id s) s1 hroot1 with
    ⟨h, _⟩ | ⟨h, _⟩ | ⟨k, c, h, hc⟩
  · rw [hfind] at h; cases h
  · rw [hfind] at h; cases h
  rw [hfind] at h
  simp only [Option.some.injEq, cell_ref.chained.injEq] at h
  obtain ⟨h1, h2⟩ := h
  subst h1; subst h2
  rcases hc with ⟨hn, _⟩ | ⟨c1', hc1, _⟩ | ⟨c1', st, _, hd, hst⟩
  · rw [hcons] at hn; cases hn
  · rw [hcons] at hc1; cases hc1
  have hbits := set_bits_clear_bits (for_each_cpu (create_cpu_set (env.config_at addr)))
    s.root_cell.cpu_set.bitmap (not_busy_bits cpu _ _ hnb)
  have hset : (create_cell env (env.config_at addr) s).cpu_set =
      create_cpu_set (env.config_at addr) := rfl
  have hcfg : (create_cell env (env.config_at addr) s).config = env.config_at addr := rfl
  refine ⟨st, hd, ?_, ?_, ?_, ?_, ?_⟩
  · rw [hst]
    simp only [k1, hset, hbits]
  · rw [hst]
    simp only [k1, hcfg]
  · rw [hst]
    simp only [k2]
    exact eraseIdx_append_length _ _
  · rw [hst]
    simp only [k3]
    omega
  · rw [hst]
    simp only [k4, k1, hset]
    funext x
    by_cases hx : x ∈ for_each_cpu (create_cpu_set (env.config_at addr))
    · simp only [if_pos hx]
    · simp only [if_neg hx]

/-! ## Claims on `cell_destroy` -/


theorem map_set_same {β : Type} (f : cell → β) (l : List cell) (k : Nat) (c c1 : cell)
    (hk : l[k]? = some c) (hf : f c1 = f c) : (l.set k c1).map f = l.map f := by
  induction l generalizing k with
  | nil => simp
  | cons a l ih =>
    cases k with
    | zero =>
      simp only [List.getElem?_cons_zero, Option.some.injEq] at hk
      subst hk
      simp [hf]
    | succ k =>
      simp only [List.getElem?_cons_succ] at hk
      simp [ih k hk]

/-- C8: for a caller in the root cell `cell_destroy` returns `-ENOENT` if and
only if no cell of the list has the id, and `-EINVAL` if the id is the root
cell's; in both cases the root cell (CPU set, page table, comm region), the
chained cells, `num_cells`, the per-CPU records and the frame pool are
unchanged.  Whatever a call of `cell_destroy` returns, the root cell is still
the head of the list afterwards. -/
theorem C8_cell_destroy_lookup (env : Env) (fuel cpu id : Nat) (s : State) :
    ((s.per_cpu cpu).cell = s.root_cell.id →
      (((cell_destroy env fuel cpu id s).map Prod.fst = some (-ENOENT)) ↔
        ∀ c ∈ for_each_cell s, c.id ≠ id) ∧
      (id = s.root_cell.id → (cell_destroy env fuel cpu id s).map Prod.fst = some (-EINVAL)) ∧
      (∀ r, cell_destroy env fuel cpu id s = some r → (r.1 = -ENOENT ∨ r.1 = -EINVAL) →
        r.2.root_cell = s.root_cell ∧ r.2.cells = s.cells ∧ r.2.num_cells = s.num_cells ∧
        r.2.per_cpu = s.per_cpu ∧ r.2.mem_pool_used = s.mem_pool_used ∧
        r.2.parked = s.parked)) ∧
    (∀ r, cell_destroy env fuel cpu id s = some r →
      r.2.root_cell.id = s.root_cell.id ∧ r.2.root_cell.config = s.root_cell.config) := by
  by_cases hroot : (s.per_cpu cpu).cell = s.root_cell.id
  swap
  · refine ⟨fun h => absurd h hroot, ?_⟩
    intro r hr
    rw [cell_destroy_eperm env fuel cpu id s hroot] at hr
    simp only [Option.some.injEq] at hr
    rw [← hr]
    exact ⟨rfl, rfl⟩
  rcases cell_destroy_outcome env fuel cpu id s hroot with
    ⟨h, hr⟩ | ⟨h, hr⟩ | ⟨k, c, h, hc⟩
  · have hall := (find_cell_none s id).1 h
    refine ⟨fun _ => ⟨?_, ?_, ?_⟩, ?_⟩
    · rw [hr]; simp only [Option.map_some', true_iff]; exact hall
    · intro hid
      exact absurd hid.symm (hall s.root_cell (by simp [for_each_cell]))
    · intro r hr' _
      rw [hr] at hr'
      simp only [Option.some.injEq] at hr'
      rw [← hr']
      exact ⟨rfl, rfl, rfl, rfl, rfl, rfl⟩
    · intro r hr'
      rw [hr] at hr'
      simp only [Option.some.injEq] at hr'
      rw [← hr']
      exact ⟨rfl, rfl⟩
  · have hid := (find_cell_root s id).1 h
    refine ⟨fun _ => ⟨?_, ?_, ?_⟩, ?_⟩
    · rw [hr]
      simp only [Option.map_some', Option.some.injEq]
      constructor
      · intro hh; exact absurd hh (by decide)
      · intro hall
        exact absurd hid (hall s.root_cell (by simp [for_each_cell]))
    · intro _; rw [hr]; rfl
    · intro r hr' _
      rw [hr] at hr'
      simp only [Option.some.injEq] at hr'
      rw [← hr']
      exact ⟨rfl, rfl, rfl, rfl, rfl, rfl⟩
    · intro r hr'
      rw [hr] at hr'
      simp only [Option.some.injEq] at hr'
      rw [← hr']
      exact ⟨rfl, rfl⟩
  · have hch := (find_cell_chained s id k c).1 h
    have hsome := find_chained_some s.cells id k c hch.2
    have hmem : c ∈ for_each_cell s := by
      unfold for_each_cell
      exact List.mem_cons_of_mem _ (List.getElem?_mem hsome.1)
    have hnotall : ¬ ∀ c ∈ for_each_cell s, c.id ≠ id := fun hall => hall c hmem hsome.2.1
    rcases hc with ⟨_, hr⟩ | ⟨c1, _, hr⟩ | ⟨c1, st, _, hr, hst⟩
    · refine ⟨fun _ => ⟨?_, ?_, ?_⟩, ?_⟩
      · rw [hr]; simp only [Option.map_none']
        exact ⟨fun hh => (by cases hh), fun hh => absurd hh hnotall⟩
      · intro hid; exact absurd hid.symm hch.1
      · intro r hr'; rw [hr] at hr'; cases hr'
      · intro r hr'; rw [hr] at hr'; cases hr'
    · refine ⟨fun _ => ⟨?_, ?_, ?_⟩, ?_⟩
      · rw [hr]
        simp only [Option.map_some', Option.some.injEq]
        exact ⟨fun hh => absurd hh (by decide), fun hh => absurd hh hnotall⟩
      · intro hid; exact absurd hid.symm hch.1
      · intro r hr' hcode
        rw [hr] at hr'
        simp only [Option.some.injEq] at hr'
        rw [← hr'] at hcode
        simp only at hcode
        rcases hcode with hcode | hcode <;> exact absurd hcode (by decide)
      · intro r hr'
        rw [hr] at hr'
        simp only [Option.some.injEq] at hr'
        rw [← hr']
        exact ⟨rfl, rfl⟩
    · refine ⟨fun _ => ⟨?_, ?_, ?_⟩, ?_⟩
      · rw [hr]
        simp only [Option.map_some', Option.some.injEq]
        exact ⟨fun hh => absurd hh (by decide), fun hh => absurd hh hnotall⟩
      · intro hid; exact absurd hid.symm hch.1
      · intro r hr' hcode
        rw [hr] at hr'
        simp only [Option.some.injEq] at hr'
        rw [← hr'] at hcode
        simp only at hcode
        rcases hcode with hcode | hcode <;> exact absurd hcode (by decide)
      · intro r hr'
        rw [hr] at hr'
        simp only [Option.some.injEq] at hr'
        rw [← hr', hst]
        exact ⟨rfl, rfl⟩

/-- Witness for C8: in the root-only state no cell has id 7. -/
theorem C8_witness :
    (scenario_state.per_cpu 0).cell = scenario_state.root_cell.id ∧
    (cell_destroy (scenario_env scenario_guest_config 2) 1 0 7 scenario_state).map Prod.fst =
      some (-ENOENT) :=
  ⟨by decide,
   ((C8_cell_destroy_lookup (scenario_env scenario_guest_config 2) 1 0 7 scenario_state).1
      (by decide)).1.2 (by decide)⟩

/-- `cell_create` keeps the CPUs of the root's set referring to the root
cell. -/
theorem root_refs_create (env : Env) (cpu addr : Nat) (s : State) (h : root_refs s) :
    root_refs (cell_create env cpu addr s).2 := by
  by_cases hroot : (s.per_cpu cpu).cell = s.root_cell.id
  swap
  · rw [cell_create_eperm env cpu addr s hroot]
    exact h
  rcases cell_create_outcome env cpu addr s hroot with
    ⟨_, _, hs⟩ | ⟨_, _, _, hs⟩ | ⟨_, _, _, _, hs⟩ | ⟨_, _, _, _, _, hs⟩
  · rw [hs]; exact h
  · rw [hs]; exact h
  · rw [hs]; exact h
  · rw [hs]
    intro x hx
    simp only at hx ⊢
    rw [contains_clear_bits] at hx
    simp only [Bool.and_eq_true, Bool.not_eq_true'] at hx
    have hm : x ∉ for_each_cpu (create_cpu_set (env.config_at addr)) := by
      intro hm
      rw [(mem_for_each_cpu _ _).1 hm] at hx
      exact absurd hx.2 (by decide)
    rw [if_neg hm]
    exact h x hx.1

/-- A returning `cell_destroy` keeps the CPUs of the root's set referring to
the root cell. -/
theorem root_refs_destroy (env : Env) (fuel cpu id : Nat) (s : State) (r : Int × State)
    (hr : cell_destroy env fuel cpu id s = some r) (h : root_refs s) : root_refs r.2 := by
  by_cases hroot : (s.per_cpu cpu).cell = s.root_cell.id
  swap
  · rw [cell_destroy_eperm env fuel cpu id s hroot] at hr
    simp only [Option.some.injEq] at hr
    rw [← hr]
    exact h
  rcases cell_destroy_outcome env fuel cpu id s hroot with
    ⟨_, h'⟩ | ⟨_, h'⟩ | ⟨k, c, _, hc⟩
  · rw [h'] at hr
    simp only [Option.some.injEq] at hr
    rw [← hr]
    exact h
  · rw [h'] at hr
    simp only [Option.some.injEq] at hr
    rw [← hr]
    exact h
  · rcases hc with ⟨_, h'⟩ | ⟨c1, _, h'⟩ | ⟨c1, st, _, h', hst⟩
    · rw [h'] at hr; cases hr
    · rw [h'] at hr
      simp only [Option.some.injEq] at hr
      rw [← hr]
      exact h
    · rw [h'] at hr
      simp only [Option.some.injEq] at hr
      rw [← hr]
      simp only
      rw [hst]
      intro x hx
      simp only at hx ⊢
      by_cases hm : x ∈ for_each_cpu c.cpu_set
      · rw [if_pos hm]
      · rw [if_neg hm]
        rw [contains_set_bits] at hx
        have hn : c.cpu_set.contains x = false := by
          rw [Bool.eq_false_iff]
          exact fun hh => hm ((mem_for_each_cpu _ _).2 hh)
        rw [hn] at hx
        simp only [Bool.and_false, Bool.or_false] at hx
        exact h x hx

/-- In every state that the lifecycle reaches from a state in which all CPUs
refer to the root cell, the CPUs of the root's set refer to the root cell. -/
theorem lifecycle_root_refs (s0 s : State)
    (h0 : ∀ x, (s0.per_cpu x).cell = s0.root_cell.id) (hr : lifecycle s0 s) :
    root_refs s := by
  induction hr with
  | init => exact fun x _ => h0 x
  | create env cpu addr s _ _ ih => exact root_refs_create env cpu addr s ih
  | destroy env fuel cpu id s r s' _ hd ih =>
    exact root_refs_destroy env fuel cpu id s (r, s') hd ih

/-! ## The CPU partition -/


/-- C6 (amended): when `cell_create` succeeds with id `i` for a configuration
whose CPU bitmap fits (the new bitmap then has no bit above its cap) and the
guest consents to the following `cell_destroy(i)`, the destruction returns 0
and the root CPU set, the chained cells, `num_cells` and every `per_cpu.cell`
are those before the create.  For `per_cpu.cell` the states are those in
which the CPUs of the root's set refer to the root cell, as they do in every
state that the lifecycle reaches from a state holding only the root cell
(first part).  The root cell maps again every host address of a non-COMM
region of the created cell that it mapped before the create, when every
`arch_map_memory_region` of the remapping succeeds, the root configuration is
identity-mapped and describes all the root maps, and the regions of the
created cell do not wrap around 2^64. -/
theorem C6_create_destroy_round_trip (env env' : Env) (cpu addr fuel n i : Nat) (s : State)
    (hfits : cpu_set_fits (env.config_at addr))
    (hsucc : (cell_create env cpu addr s).1 = (i : Int))
    (hguest : guest_answers (env'.guest i) n JAILHOUSE_MSG_SHUTDOWN_OK)
    (hfuel : n < fuel) :
    (∀ s0, s0.cells = [] → (∀ x, (s0.per_cpu x).cell = s0.root_cell.id) → lifecycle s0 s →
      root_refs s) ∧
    (create_cpu_set (env.config_at addr)).bitmap <
      2 ^ ((create_cpu_set (env.config_at addr)).max_cpu_id + 1) ∧
    ∃ st, cell_destroy env' fuel cpu i (cell_create env cpu addr s).2 = some (0, st) ∧
      st.root_cell.cpu_set = s.root_cell.cpu_set ∧
      st.cells = s.cells ∧
      st.num_cells = s.num_cells ∧
      (root_refs s → ∀ x, (st.per_cpu x).cell = (s.per_cpu x).cell) ∧
      ((∀ o, env'.arch_map_ok s.root_cell.id o = true) →
        identity_mapped s.root_cell.config.mem_regions →
        (∀ a, s.root_cell.maps_host a →
          ∃ S ∈ s.root_cell.config.mem_regions, S.contains_phys a) →
        (∀ R ∈ (env.config_at addr).mem_regions, R.phys_start + R.size < 2 ^ 64) →
        ∀ R ∈ (env.config_at addr).mem_regions, R.flags &&& JAILHOUSE_MEM_COMM_REGION = 0 →
          ∀ a, R.contains_phys a → s.root_cell.maps_host a → st.root_cell.maps_host a) := by
  have hbd : (create_cpu_set (env.config_at addr)).bitmap <
      2 ^ ((create_cpu_set (env.config_at addr)).max_cpu_id + 1) := by
    have hnn : 0 ≤ (cell_create env cpu addr s).1 := by rw [hsucc]; exact Int.ofNat_nonneg _
    have hroot := cell_create_nonneg_root env cpu addr s hnn
    rcases cell_create_outcome env cpu addr s hroot with
      ⟨_, hc, _⟩ | ⟨_, _, hc, _⟩ | ⟨_, _, _, hc, _⟩ | ⟨hpass, _⟩
    · rcases hc with hc | hc | hc | hc <;> rw [hc] at hnn <;> exact absurd hnn (by decide)
    · rw [hc] at hnn; exact absurd hnn (by decide)
    · rw [hc] at hnn; exact absurd hnn (by decide)
    · exact create_cpu_set_bounded _ hpass.2.2.2.2.2.2.1 hfits
  obtain ⟨hnb, st, hd, h1, h2, h3, h4, h5⟩ :=
    create_destroy_outcome env env' cpu addr fuel n i s hsucc hguest hfuel
  refine ⟨fun s0 _ hb0 hl => lifecycle_root_refs s0 s hb0 hl, hbd, st, hd, h1, h3, h4, ?_, ?_⟩
  · intro hback x
    rw [h5]
    by_cases hx : x ∈ for_each_cpu (create_cpu_set (env.config_at addr))
    · simp only [if_pos hx]
      exact (hback x (not_busy_subset cpu _ _ hnb x ((mem_for_each_cpu _ _).1 hx))).symm
    · simp only [if_neg hx]
  · intro hmap hidm hcov hnw R hR hc a ha hbefore
    obtain ⟨S, hS, hin⟩ := hcov a hbefore
    obtain ⟨fl, e⟩ := release_pt_maps env' s.root_cell.id s.root_cell.config.mem_regions
      (env.config_at addr).mem_regions
      (unmap_pt env s.root_cell.id (env.config_at addr).mem_regions s.root_cell.mappings).2
      hmap hidm hnw R hR hc a ha S hS hin
    exact ⟨a, fl, by rw [h2]; exact e⟩

/-- C6 (counterexample): scenario 1 creates "guestA" with id 1 and the guest
consents to the destruction, but every `arch_map_memory_region` of
`remap_to_root_cell` fails, which the code only logs.  The destruction
returns 0 and the root cell, which mapped the host address 0x8000000 before
the create, maps it nowhere afterwards. -/
theorem C6_counterexample :
    (cell_create (scenario_env scenario_guest_config 2) 0 0x5000 scenario_state).1 = 1 ∧
    guest_answers ((failing_map_env scenario_guest_config).guest 1) 0
      JAILHOUSE_MSG_SHUTDOWN_OK ∧
    scenario_state.root_cell.maps_host 0x8000000 ∧
    ∃ st, cell_destroy (failing_map_env scenario_guest_config) 1 0 1
        (cell_create (scenario_env scenario_guest_config 2) 0 0x5000 scenario_state).2 =
          some (0, st) ∧
      ¬ st.root_cell.maps_host 0x8000000 := by
  have hg : guest_answers ((failing_map_env scenario_guest_config).guest 1) 0
      JAILHOUSE_MSG_SHUTDOWN_OK :=
    ⟨fun _ => rfl, fun j _ hj => if_neg hj⟩
  refine ⟨by decide, hg, ⟨0x8000000, 3, by decide⟩, ?_⟩
  obtain ⟨_, st, hd, _, h2, _⟩ :=
    create_destroy_outcome (scenario_env scenario_guest_config 2)
      (failing_map_env scenario_guest_config) 0 0x5000 1 0 1 scenario_state (by decide) hg
      (by decide)
  refine ⟨st, hd, ?_⟩
  rintro ⟨a, fl, e⟩
  rw [h2, release_pt_failing _ _ _ _ _ (fun _ => rfl)] at e
  have h0 : (3 &&& JAILHOUSE_MEM_COMM_REGION : Nat) = 0 := by decide
  simp only [scenario_env, scenario_guest_config, scenario_state, unmap_pt, h0, if_true,
    unmap_region, map_region, region_pte] at e
  by_cases hr : 0x8000000 ≤ a ∧ a < 0x8000000 + 0x1000000
  · rw [if_pos hr] at e
    cases e
  · rw [if_neg hr] at e
    by_cases hr0 : 0 ≤ a ∧ a < 0 + 0x10000000
    · rw [if_pos hr0] at e
      simp at e
      omega
    · rw [if_neg hr0] at e
      cases e

/-- Witness for C6 (scenario 4): scenario 1 followed by the destruction of
"guestA": the root owns CPUs 0..3 again, no cell is chained behind it, every
CPU refers to the root cell and the region at 0x8000000 is mapped. -/
theorem C6_witness :
    cpu_set_fits ((scenario_env scenario_guest_config 2).config_at 0x5000) ∧
    (cell_create (scenario_env scenario_guest_config 2) 0 0x5000 scenario_state).1 = 1 ∧
    ∃ st, cell_destroy (scenario_env scenario_guest_config 2) 1 0 1
        (cell_create (scenario_env scenario_guest_config 2) 0 0x5000 scenario_state).2 =
          some (0, st) ∧
      st.root_cell.cpu_set = { allocated := false, bitmap := 15 } ∧
      st.cells = [] ∧
      st.num_cells = 1 ∧
      (∀ x, (st.per_cpu x).cell = 0) ∧
      st.root_cell.maps_host 0x8000000 ∧ st.root_cell.maps_host 0x8ffffff := by
  have hR : ∀ R ∈ ((scenario_env scenario_guest_config 2).config_at 0x5000).mem_regions,
      R = { phys_start := 0x8000000, virt_start := 0x8000000, size := 0x1000000,
            flags := 3 } := by
    intro R hR
    simpa [scenario_env, scenario_guest_config] using hR
  have hS : ∀ S ∈ scenario_state.root_cell.config.mem_regions,
      S = { phys_start := 0, virt_start := 0, size := 0x10000000, flags := 3 } := by
    intro S hS
    simpa [scenario_state, scenario_root_config] using hS
  have hcov : ∀ a, scenario_state.root_cell.maps_host a →
      ∃ S ∈ scenario_state.root_cell.config.mem_regions, S.contains_phys a := by
    rintro a ⟨b, fl, e⟩
    refine ⟨{ phys_start := 0, virt_start := 0, size := 0x10000000, flags := 3 },
      by simp [scenario_state, scenario_root_config], ?_⟩
    have h0 : (3 &&& JAILHOUSE_MEM_COMM_REGION : Nat) = 0 := by decide
    simp only [scenario_state, map_region, region_pte, h0] at e
    by_cases hr0 : 0 ≤ b ∧ b < 0 + 0x10000000
    · rw [if_pos hr0] at e
      simp at e
      unfold jailhouse_memory.contains_phys
      simp only
      omega
    · rw [if_neg hr0] at e
      cases e
  obtain ⟨hrefs, _, st, hd, h1, h2, h3, h4, h5⟩ :=
    C6_create_destroy_round_trip (scenario_env scenario_guest_config 2)
      (scenario_env scenario_guest_config 2) 0 0x5000 1 0 1 scenario_state
      (cpu_set_fits_of_le _ (by decide)) (by decide)
      ⟨fun _ => rfl, fun j _ hj => if_neg hj⟩ (by decide)
  have h5' := h5 (fun _ => rfl) (fun S hS' => by rw [hS S hS']; decide) hcov
    (fun R hR' => by rw [hR R hR']; decide)
    { phys_start := 0x8000000, virt_start := 0x8000000, size := 0x1000000, flags := 3 }
    (by simp [scenario_env, scenario_guest_config]) (by decide)
  refine ⟨cpu_set_fits_of_le _ (by decide), by decide, st, hd, h1, h2, h3,
    fun x => (h4 (hrefs scenario_state rfl (fun _ => rfl) lifecycle.init) x).trans rfl,
    h5' 0x8000000 (by unfold jailhouse_memory.contains_phys; decide)
      ⟨0x8000000, 3, by decide⟩,
    h5' 0x8ffffff (by unfold jailhouse_memory.contains_phys; decide)
      ⟨0x8ffffff, 3, by decide⟩⟩

/-! ## Claims on the memory partition -/

theorem mem_inv_partitioned (s : State) (h : mem_inv s) : frames_partitioned s := by
  obtain ⟨_, _, _, h4, h5, h6⟩ := h
  unfold frames_partitioned for_each_cell
  rw [List.pairwise_cons]
  constructor
  · intro c hc p ⟨hr, hcp⟩
    have hv : (c.config.mem_regions, c.mappings) ∈ cell_views s :=
      List.mem_map.2 ⟨c, hc, rfl⟩
    obtain ⟨R, hR, hn, hin⟩ := h4 _ hv p hcp
    exact h5 _ hv R hR hn p hin hr
  · unfold cell_views at h4 h6
    rw [List.pairwise_map] at h6
    refine List.Pairwise.imp_of_mem ?_ h6
    intro c c' hc hc' hd p ⟨h1, h2⟩
    obtain ⟨R, hR, hn, hin⟩ := h4 _ (List.mem_map.2 ⟨c, hc, rfl⟩) p h1
    obtain ⟨R', hR', hn', hin'⟩ := h4 _ (List.mem_map.2 ⟨c', hc', rfl⟩) p h2
    exact hd R hR R' hR' hn hn' p ⟨hin, hin'⟩

/-- The invariant survives a change of the root page table that keeps old
translations or installs 1:1 translations outside the regions of the chained
cells. -/
theorem mem_inv_root (s s' : State)
    (hcfg : s'.root_cell.config.mem_regions = s.root_cell.config.mem_regions)
    (hv : cell_views s' = cell_views s)
    (hm : ∀ a x, s'.root_cell.mappings a = some x →
      s.root_cell.mappings a = some x ∨
      ((∃ fl, x = { target := backing.host a, flags := fl }) ∧
        ∀ v ∈ cell_views s, ∀ R ∈ v.1, R.flags &&& JAILHOUSE_MEM_COMM_REGION = 0 →
          ¬ R.contains_phys a))
    (h : mem_inv s) : mem_inv s' := by
  obtain ⟨h1, h2, h3, h4, h5, h6⟩ := h
  have h2' : ∀ a p fl, s'.root_cell.mappings a =
      some { target := backing.host p, flags := fl } → a = p := by
    intro a p fl e
    rcases hm a _ e with e' | ⟨⟨fl', e'⟩, _⟩
    · exact h2 a p fl e'
    · injection e' with e1 _
      injection e1 with e1
      exact e1.symm
  refine ⟨by rw [hcfg]; exact h1, h2', by rw [hv]; exact h3, by rw [hv]; exact h4, ?_,
    by rw [hv]; exact h6⟩
  rw [hv]
  intro v hvm R hR hn p hin ⟨a, fl, e⟩
  have hap := h2' a p fl e
  subst hap
  rcases hm a _ e with e' | ⟨_, hout⟩
  · exact h5 v hvm R hR hn a hin ⟨a, fl, e'⟩
  · exact hout v hvm R hR hn hin

/-- The invariant survives the chaining of a cell whose regions are
admissible and have left the root page table, which otherwise only shrinks. -/
theorem mem_inv_append (s s' : State) (regs : List jailhouse_memory) (m : Nat → Option pte)
    (hcfg : s'.root_cell.config.mem_regions = s.root_cell.config.mem_regions)
    (hv : cell_views s' = cell_views s ++ [(regs, m)])
    (hm : ∀ a x, s'.root_cell.mappings a = some x → s.root_cell.mappings a = some x)
    (hnw : ∀ R ∈ regs, R.phys_start + R.size < 2 ^ 64)
    (hmaps : ∀ p, pt_maps_host m p →
      ∃ R ∈ regs, R.flags &&& JAILHOUSE_MEM_COMM_REGION = 0 ∧ R.contains_phys p)
    (hgone : ∀ R ∈ regs, R.flags &&& JAILHOUSE_MEM_COMM_REGION = 0 →
      ∀ p, R.contains_phys p → s'.root_cell.mappings p = none)
    (hdis : ∀ v ∈ cell_views s, regions_disjoint v.1 regs)
    (h : mem_inv s) : mem_inv s' := by
  obtain ⟨h1, h2, h3, h4, h5, h6⟩ := h
  have h2' : ∀ a p fl, s'.root_cell.mappings a =
      some { target := backing.host p, flags := fl } → a = p :=
    fun a p fl e => h2 a p fl (hm a _ e)
  refine ⟨by rw [hcfg]; exact h1, h2', ?_, ?_, ?_, ?_⟩
  · rw [hv]
    intro v hvm
    rcases List.mem_append.1 hvm with hvm | hvm
    · exact h3 v hvm
    · rw [List.mem_singleton.1 hvm]; exact hnw
  · rw [hv]
    intro v hvm
    rcases List.mem_append.1 hvm with hvm | hvm
    · exact h4 v hvm
    · rw [List.mem_singleton.1 hvm]; exact hmaps
  · rw [hv]
    intro v hvm R hR hn p hin ⟨a, fl, e⟩
    have hap := h2' a p fl e
    subst hap
    rcases List.mem_append.1 hvm with hvm | hvm
    · exact h5 v hvm R hR hn a hin ⟨a, fl, hm a _ e⟩
    · rw [List.mem_singleton.1 hvm] at hR
      rw [hgone R hR hn a hin] at e
      cases e
  · rw [hv, List.pairwise_append]
    refine ⟨h6, List.pairwise_singleton _ _, ?_⟩
    intro v hvm v' hvm'
    rw [List.mem_singleton.1 hvm']
    exact hdis v hvm

theorem regions_disjoint_symm (l1 l2 : List jailhouse_memory) (h : regions_disjoint l1 l2) :
    regions_disjoint l2 l1 :=
  fun R hR R' hR' hn hn' p hp => h R' hR' R hR hn' hn p ⟨hp.2, hp.1⟩

/-- The invariant survives the removal of a chained cell whose regions go
back to the root page table. -/
theorem mem_inv_erase (s s' : State) (k : Nat) (v : List jailhouse_memory × (Nat → Option pte))
    (hcfg : s'.root_cell.config.mem_regions = s.root_cell.config.mem_regions)
    (hk : (cell_views s)[k]? = some v)
    (hv : cell_views s' = (cell_views s).eraseIdx k)
    (hm : ∀ a x, s'.root_cell.mappings a = some x →
      s.root_cell.mappings a = some x ∨
      ((∃ fl, x = { target := backing.host a, flags := fl }) ∧
        ∃ R ∈ v.1, R.flags &&& JAILHOUSE_MEM_COMM_REGION = 0 ∧ R.contains_phys a))
    (h : mem_inv s) : mem_inv s' := by
  obtain ⟨h1, h2, h3, h4, h5, h6⟩ := h
  have hsub : ∀ w ∈ cell_views s', w ∈ cell_views s := by
    intro w hw
    rw [hv] at hw
    exact (List.eraseIdx_sublist _ _).subset hw
  have h2' : ∀ a p fl, s'.root_cell.mappings a =
      some { target := backing.host p, flags := fl } → a = p := by
    intro a p fl e
    rcases hm a _ e with e' | ⟨⟨fl', e'⟩, _⟩
    · exact h2 a p fl e'
    · injection e' with e1 _
      injection e1 with e1
      exact e1.symm
  refine ⟨by rw [hcfg]; exact h1, h2', fun w hw => h3 w (hsub w hw),
    fun w hw => h4 w (hsub w hw), ?_, ?_⟩
  · intro w hw R hR hn p hin ⟨a, fl, e⟩
    have hap := h2' a p fl e
    subst hap
    rcases hm a _ e with e' | ⟨_, R', hR', hn', hin'⟩
    · exact h5 w (hsub w hw) R hR hn a hin ⟨a, fl, e'⟩
    · rw [hv] at hw
      exact pairwise_eraseIdx_rel (fun v v' => regions_disjoint v.1 v'.1)
        (fun a b hab => regions_disjoint_symm _ _ hab) (cell_views s) k v h6 hk w hw
        R' hR' R hR hn' hn a ⟨hin', hin⟩
  · rw [hv]
    exact h6.sublist (List.eraseIdx_sublist _ _)

/-- The unmapping loop only removes translations. -/
theorem unmap_pt_sub (env : Env) (root_id : Nat) (regs : List jailhouse_memory)
    (m : Nat → Option pte) (a : Nat) (x : pte)
    (h : (unmap_pt env root_id regs m).2 a = some x) : m a = some x := by
  rcases unmap_pt_pointwise env root_id regs m a with e | ⟨e, _⟩
  · rw [← e]; exact h
  · rw [e] at h; cases h

/-- Behind a successful unmapping loop no address of a region not flagged
COMM_REGION has a translation at the guest address equal to it. -/
theorem unmap_pt_removes (env : Env) (root_id : Nat) :
    ∀ (regs : List jailhouse_memory) (m : Nat → Option pte),
      (unmap_pt env root_id regs m).1 = 0 →
      ∀ R ∈ regs, R.flags &&& JAILHOUSE_MEM_COMM_REGION = 0 →
        ∀ p, R.contains_phys p → (unmap_pt env root_id regs m).2 p = none := by
  intro regs
  induction regs with
  | nil => intro m _ R hR; cases hR
  | cons Q regs ih =>
    intro m h0 R hR hn p hin
    simp only [unmap_pt] at h0 ⊢
    by_cases hc : Q.flags &&& JAILHOUSE_MEM_COMM_REGION = 0
    · rw [if_pos hc] at h0 ⊢
      by_cases hok : env.arch_unmap_ok root_id { Q with virt_start := Q.phys_start } = true
      · rw [if_pos hok] at h0 ⊢
        rcases List.mem_cons.1 hR with e | hR'
        · subst e
          rcases unmap_pt_pointwise env root_id regs
            (unmap_region { R with virt_start := R.phys_start } m) p with e | ⟨e, _⟩
          · rw [e]
            unfold unmap_region
            exact if_pos hin
          · exact e
        · exact ih _ h0 R hR' hn p hin
      · rw [if_neg hok] at h0
        have hne : (-ENOMEM : Int) = 0 := h0
        exact absurd hne (by decide)
    · rw [if_neg hc] at h0 ⊢
      rcases List.mem_cons.1 hR with e | hR'
      · subst e; exact absurd hn hc
      · exact ih _ h0 R hR' hn p hin

/-- What the remapping loop over `l` adds to an identity-mapped root is a
1:1 translation inside a region of `l`. -/
theorem rollback_pt_new (env : Env) (root_id : Nat) (root_regions l : List jailhouse_memory)
    (hid : identity_mapped root_regions)
    (hnw : ∀ R ∈ l, R.phys_start + R.size < 2 ^ 64)
    (m : Nat → Option pte) (a : Nat) (x : pte)
    (h : rollback_pt env root_id root_regions l m a = some x) :
    m a = some x ∨
    ((∃ fl, x = { target := backing.host a, flags := fl }) ∧ ∃ R ∈ l, R.contains_phys a) := by
  rcases rollback_pt_pointwise env root_id root_regions l l (fun _ hR => hR) m a with e | e
  · left; rw [← e]; exact h
  · right
    obtain ⟨R, hR, S, hS, o, ho, ha, e⟩ := e
    obtain ⟨i1, i2, i3⟩ := hid S hS
    obtain ⟨o1, o2, o3⟩ := identity_overlap R S o (hnw R hR) i2 i1 ho
    rw [identity_region_pte o a o1 (by rw [o2]; exact i3) ha] at e
    rw [h] at e
    injection e with e
    exact ⟨⟨o.flags, e⟩, R, hR, ((o3 a).1 ha).1⟩

/-- The page table that `arch_cell_create` builds maps host memory only
inside the regions not flagged COMM_REGION. -/
theorem create_cell_maps (regs : List jailhouse_memory) (p : Nat)
    (h : pt_maps_host (regs.foldl (fun m mem => map_region mem m) (fun _ => none)) p) :
    ∃ R ∈ regs, R.flags &&& JAILHOUSE_MEM_COMM_REGION = 0 ∧ R.contains_phys p := by
  have key := foldl_invariant
    (fun m : Nat → Option pte => ∀ a q fl, m a = some { target := backing.host q, flags := fl } →
      ∃ R ∈ regs, R.flags &&& JAILHOUSE_MEM_COMM_REGION = 0 ∧ R.contains_phys q)
    (fun m mem => map_region mem m) regs (fun _ => none)
    (by
      intro R hR st hst a q fl e
      simp only [map_region] at e
      by_cases hr : R.virt_start ≤ a ∧ a < R.virt_start + R.size
      · rw [if_pos hr] at e
        unfold region_pte at e
        injection e with e
        injection e with e1 _
        by_cases hc : R.flags &&& JAILHOUSE_MEM_COMM_REGION = 0
        · refine ⟨R, hR, hc, ?_⟩
          rw [if_neg (not_not.2 hc)] at e1
          injection e1 with e1
          unfold jailhouse_memory.contains_phys
          omega
        · rw [if_pos hc] at e1
          cases e1
      · rw [if_neg hr] at e
        exact hst a q fl e)
    (by intro a q fl e; cases e)
  obtain ⟨a, fl, e⟩ := h
  exact key a p fl e

/-- Every call of `cell_create` with an admissible configuration keeps the
invariant. -/
theorem mem_inv_create (env : Env) (cpu addr : Nat) (s : State)
    (hadm : admissible (env.config_at addr) s) (h : mem_inv s) :
    mem_inv (cell_create env cpu addr s).2 := by
  by_cases hroot : (s.per_cpu cpu).cell = s.root_cell.id
  swap
  · rw [cell_create_eperm env cpu addr s hroot]
    exact h
  have hout : ∀ v ∈ cell_views s, ∀ R ∈ (env.config_at addr).mem_regions,
      ∀ R' ∈ v.1, R'.flags &&& JAILHOUSE_MEM_COMM_REGION = 0 →
      ∀ p, ¬ (R.contains_phys p ∧ R'.contains_phys p) := by
    intro v hv
    obtain ⟨c, hc, e⟩ := List.mem_map.1 hv
    subst e
    exact hadm.2 c hc
  rcases cell_create_outcome env cpu addr s hroot with
    ⟨_, _, hs⟩ | ⟨_, _, _, hs⟩ | ⟨_, _, _, _, hs⟩ | ⟨_, _, h0, _, _, hs⟩
  · refine mem_inv_root s _ (by rw [hs]) (by unfold cell_views; rw [hs]) ?_ h
    intro a x e
    rw [hs] at e
    exact Or.inl e
  · refine mem_inv_root s _ (by rw [hs]) (by unfold cell_views; rw [hs]) ?_ h
    intro a x e
    rw [hs] at e
    exact Or.inl e
  · refine mem_inv_root s _ (by rw [hs]) (by unfold cell_views; rw [hs]) ?_ h
    intro a x e
    rw [hs] at e
    rcases rollback_pt_new env s.root_cell.id s.root_cell.config.mem_regions
      (env.config_at addr).mem_regions h.1 hadm.1 _ a x e with e' | ⟨hx, R, hR, hin⟩
    · exact Or.inl (unmap_pt_sub env _ _ _ a x e')
    · exact Or.inr ⟨hx, fun v hv R' hR' hn' hin' => hout v hv R hR R' hR' hn' a ⟨hin, hin'⟩⟩
  · refine mem_inv_append s _ (env.config_at addr).mem_regions
      ((env.config_at addr).mem_regions.foldl (fun m mem => map_region mem m) (fun _ => none))
      (by rw [hs]) ?_ ?_ hadm.1 (fun p hp => create_cell_maps _ p hp) ?_ ?_ h
    · unfold cell_views
      rw [hs]
      simp only [List.map_append, List.map_cons, List.map_nil]
      rfl
    · intro a x e
      rw [hs] at e
      exact unmap_pt_sub env _ _ _ a x e
    · intro R hR hn p hin
      rw [hs]
      exact unmap_pt_removes env s.root_cell.id (env.config_at addr).mem_regions
        s.root_cell.mappings h0 R hR hn p hin
    · intro v hv R hR R' hR' hn _ p hp
      exact hout v hv R' hR' R hR hn p ⟨hp.2, hp.1⟩

theorem map_eraseIdx {α β : Type} (f : α → β) :
    ∀ (l : List α) (k : Nat), (l.eraseIdx k).map f = (l.map f).eraseIdx k := by
  intro l
  induction l with
  | nil => intro k; rfl
  | cons a l ih =>
    intro k
    cases k with
    | zero => rfl
    | succ k => simp only [List.eraseIdx, List.map_cons, ih k]

/-- Every returning call of `cell_destroy` keeps the invariant. -/
theorem mem_inv_destroy (env : Env) (fuel cpu id : Nat) (s : State) (r : Int) (s' : State)
    (hd : cell_destroy env fuel cpu id s = some (r, s')) (h : mem_inv s) : mem_inv s' := by
  by_cases hroot : (s.per_cpu cpu).cell = s.root_cell.id
  swap
  · rw [cell_destroy_eperm env fuel cpu id s hroot] at hd
    simp only [Option.some.injEq, Prod.mk.injEq] at hd
    rw [← hd.2]
    exact h
  rcases cell_destroy_outcome env fuel cpu id s hroot with
    ⟨_, e⟩ | ⟨_, e⟩ | ⟨k, c, hf, hc⟩
  · rw [e] at hd
    simp only [Option.some.injEq, Prod.mk.injEq] at hd
    rw [← hd.2]
    exact mem_inv_root s _ rfl rfl (fun a x e => Or.inl e) h
  · rw [e] at hd
    simp only [Option.some.injEq, Prod.mk.injEq] at hd
    rw [← hd.2]
    exact mem_inv_root s _ rfl rfl (fun a x e => Or.inl e) h
  · have hk := (find_chained_some s.cells id k c ((find_cell_chained s id k c).1 hf).2).1
    have hk' : (cell_views s)[k]? = some (c.config.mem_regions, c.mappings) := by
      unfold cell_views
      rw [List.getElem?_map, hk]
      rfl
    rcases hc with ⟨_, e⟩ | ⟨c1, hc1, e⟩ | ⟨c1, st, _, e, hst⟩
    · rw [e] at hd; cases hd
    · rw [e] at hd
      simp only [Option.some.injEq, Prod.mk.injEq] at hd
      rw [← hd.2]
      have f := cell_shutdown_ok_frame env fuel c c1 false hc1
      refine mem_inv_root s _ rfl ?_ (fun a x e => Or.inl e) h
      unfold cell_views
      exact map_set_same (fun c => (c.config.mem_regions, c.mappings)) _ _ _ _ hk
        (by simp only [f.2.2.1, f.2.2.2.2])
    · rw [e] at hd
      simp only [Option.some.injEq, Prod.mk.injEq] at hd
      rw [← hd.2]
      refine mem_inv_erase s st k (c.config.mem_regions, c.mappings) (by rw [hst]) hk' ?_ ?_ h
      · unfold cell_views
        rw [hst]
        exact map_eraseIdx _ _ _
      · intro a x e
        rw [hst] at e
        simp only [release_pt_eq_rollback] at e
        have hnw := h.2.2.1 _ (List.getElem?_mem hk')
        rcases rollback_pt_new env s.root_cell.id s.root_cell.config.mem_regions _ h.1
          (fun R hR => hnw R (List.mem_filter.1 hR).1) _ a x e with e' | ⟨hx, R, hR, hin⟩
        · exact Or.inl e'
        · exact Or.inr ⟨hx, R, (List.mem_filter.1 hR).1,
            by simpa using (List.mem_filter.1 hR).2, hin⟩

theorem reachable_mem_inv (s0 s : State) (h0 : mem_inv s0) (hr : reachable s0 s) :
    mem_inv s := by
  induction hr with
  | init => exact h0
  | create env cpu addr s _ hadm _ ih => exact mem_inv_create env cpu addr s hadm ih
  | destroy env fuel cpu id s r s' _ hd ih => exact mem_inv_destroy env fuel cpu id s r s' hd ih

/-- C2 (amended): from a state that holds only the root cell, with an
identity-mapped root configuration and a root page table that maps 1:1, every
state reached by calls of `cell_create` and returning calls of
`cell_destroy`, whatever they return, has no host-physical address mapped by
two live cells, provided that each configuration handed to `cell_create` is
admissible: its regions do not wrap around 2^64 and share no host address
with a region, not flagged COMM_REGION, of a chained cell; the code does not
check that.  The CPU bitmap of each configuration fits, so that no call has
copied a bitmap past the frame of its CPU set. -/
theorem C2_memory_partition_amended (s0 s : State)
    (hcells : s0.cells = [])
    (hid : identity_mapped s0.root_cell.config.mem_regions)
    (h11 : ∀ a p fl, s0.root_cell.mappings a =
      some { target := backing.host p, flags := fl } → a = p)
    (hr : reachable s0 s) : frames_partitioned s := by
  have hv : cell_views s0 = [] := by unfold cell_views; rw [hcells]; rfl
  refine mem_inv_partitioned s (reachable_mem_inv s0 s ?_ hr)
  refine ⟨hid, h11, ?_, ?_, ?_, ?_⟩
  · rw [hv]; intro v h; cases h
  · rw [hv]; intro v h; cases h
  · rw [hv]; intro v h; cases h
  · rw [hv]; exact List.Pairwise.nil

/-- C2 (counterexample): from the root-only state of the scenarios "guestA"
is created with id 1 and then "guestB", whose configuration names the region
of "guestA" again, with id 2.  Both calls succeed, the region is not flagged
COMM_REGION, and both cells map the host address 0x8000000. -/
theorem C2_counterexample :
    scenario_state.cells = [] ∧
    (cell_create (scenario_env scenario_guest_config 2) 0 0x5000 scenario_state).1 = 1 ∧
    (cell_create (scenario_env scenario_second_config 2) 0 0x6000
      scenario_state_with_guest).1 = 2 ∧
    scenario_second_config.mem_regions.map (fun R => R.flags &&& JAILHOUSE_MEM_COMM_REGION) =
      [0] ∧
    (cell_create (scenario_env scenario_second_config 2) 0 0x6000
      scenario_state_with_guest).2.cells.map (fun c => (c.id, c.mappings 0x8000000)) =
      [(1, some { target := backing.host 0x8000000, flags := 3 }),
       (2, some { target := backing.host 0x8000000, flags := 3 })] ∧
    ¬ frames_partitioned (cell_create (scenario_env scenario_second_config 2) 0 0x6000
      scenario_state_with_guest).2 := by
  refine ⟨rfl, by decide, by decide, by decide, by decide, ?_⟩
  intro hp
  unfold frames_partitioned at hp
  exact List.pairwise_iff_getElem.1 hp 1 2 (by decide) (by decide) (by decide) 0x8000000
    ⟨⟨0x8000000, 3, by decide⟩, ⟨0x8000000, 3, by decide⟩⟩

/-- Witness for C2: scenario 1 is an admissible creation from the root-only
state; root and "guestA" share no host address. -/
theorem C2_witness :
    scenario_state.cells = [] ∧
    reachable scenario_state scenario_state_with_guest ∧
    frames_partitioned scenario_state_with_guest := by
  have hregs : ∀ R ∈ ((scenario_env scenario_guest_config 2).config_at 0x5000).mem_regions,
      R.phys_start + R.size < 2 ^ 64 := by
    intro R hR
    have e : R = { phys_start := 0x8000000, virt_start := 0x8000000, size := 0x1000000,
                   flags := 3 } := by
      simpa [scenario_env, scenario_guest_config] using hR
    rw [e]
    decide
  have hreach : reachable scenario_state scenario_state_with_guest :=
    reachable.create (scenario_env scenario_guest_config 2) 0 0x5000 scenario_state
      reachable.init ⟨hregs, fun c hc => absurd hc (List.not_mem_nil c)⟩
      (cpu_set_fits_of_le _ (by decide))
  refine ⟨rfl, hreach, C2_memory_partition_amended scenario_state scenario_state_with_guest
    rfl ?_ ?_ hreach⟩
  · intro S hS
    have e : S = { phys_start := 0, virt_start := 0, size := 0x10000000, flags := 3 } := by
      simpa [scenario_state, scenario_root_config] using hS
    rw [e]
    decide
  · intro a p fl e
    have h0 : (3 &&& JAILHOUSE_MEM_COMM_REGION : Nat) = 0 := by decide
    simp only [scenario_state, map_region, region_pte, h0] at e
    by_cases hr0 : 0 ≤ a ∧ a < 0 + 0x10000000
    · rw [if_pos hr0] at e
      simp at e
      omega
    · rw [if_neg hr0] at e
      cases e

/-! ## Region validation and size check -/

theorem and_page_mask_eq_zero (x : Nat) : x &&& (PAGE_SIZE - 1) = 0 ↔ PAGE_SIZE ∣ x := by
  have h : PAGE_SIZE - 1 = 2 ^ 12 - 1 := by decide
  rw [h, Nat.and_pow_two_sub_one_eq_mod, Nat.dvd_iff_mod_eq_zero]
  rfl

theorem outside_mask_eq_zero (x m : Nat) :
    x ^^^ (x &&& m) = 0 ↔ ∀ i, x.testBit i = true → m.testBit i = true := by
  constructor
  · intro h i hi
    have := congrArg (fun y => Nat.testBit y i) h
    simp only [Nat.testBit_xor, Nat.testBit_and, Nat.zero_testBit, hi, Bool.true_and] at this
    cases hm : m.testBit i
    · rw [hm] at this; simp at this
    · rfl
  · intro h
    apply Nat.eq_of_testBit_eq
    intro i
    simp only [Nat.testBit_xor, Nat.testBit_and, Nat.zero_testBit]
    cases hx : x.testBit i
    · simp
    · simp [h i hx]

theorem check_mem_regions_loop_zero (l : List jailhouse_memory) :
    check_mem_regions_loop l = 0 ↔
      ∀ R ∈ l, PAGE_SIZE ∣ R.phys_start ∧ PAGE_SIZE ∣ R.virt_start ∧ PAGE_SIZE ∣ R.size ∧
        ∀ i, R.flags.testBit i = true → JAILHOUSE_MEM_VALID_FLAGS.testBit i = true := by
  induction l with
  | nil => simp [check_mem_regions_loop]
  | cons R l ih =>
    simp only [check_mem_regions_loop, List.mem_cons, forall_eq_or_imp]
    rw [← and_page_mask_eq_zero, ← and_page_mask_eq_zero, ← and_page_mask_eq_zero,
      ← outside_mask_eq_zero, ← ih]
    by_cases h : R.phys_start &&& (PAGE_SIZE - 1) ≠ 0 ∨ R.virt_start &&& (PAGE_SIZE - 1) ≠ 0 ∨
        R.size &&& (PAGE_SIZE - 1) ≠ 0 ∨
        R.flags ^^^ (R.flags &&& JAILHOUSE_MEM_VALID_FLAGS) ≠ 0
    · rw [if_pos h]
      constructor
      · intro e
        exact absurd e (by decide)
      · rintro ⟨⟨h1, h2, h3, h4⟩, _⟩
        rcases h with h | h | h | h
        · exact absurd h1 h
        · exact absurd h2 h
        · exact absurd h3 h
        · exact absurd h4 h
    · rw [if_neg h]
      simp only [not_or, not_not] at h
      constructor
      · intro e
        exact ⟨h, e⟩
      · intro e
        exact e.2

/-- The exit of `cell_create` at a configuration that fails the region
validation. -/
theorem cell_create_einval (env : Env) (cpu addr : Nat) (s : State)
    (hroot : (s.per_cpu cpu).cell = s.root_cell.id)
    (hmap1 : env.page_map_create_ok (addr - (addr &&& (PAGE_SIZE - 1)))
      ((addr &&& (PAGE_SIZE - 1)) + env.sizeof_cell_desc) = true)
    (hsize : (env.config_at addr).config_size + (addr &&& (PAGE_SIZE - 1)) ≤
      NUM_TEMPORARY_PAGES * PAGE_SIZE)
    (hname : ∀ c ∈ for_each_cell s, c.config.name ≠ (env.config_at addr).name)
    (hmap2 : env.page_map_create_ok (addr - (addr &&& (PAGE_SIZE - 1)))
      ((env.config_at addr).config_size + (addr &&& (PAGE_SIZE - 1))) = true)
    (hchk : check_mem_regions (env.config_at addr) ≠ 0) :
    cell_create env cpu addr s =
      (-EINVAL, cell_resume cpu (cell_suspend s.root_cell cpu s)) := by
  have hE : check_mem_regions (env.config_at addr) = -EINVAL := by
    rcases check_mem_regions_loop_cases (env.config_at addr).mem_regions with h | h
    · exact absurd h hchk
    · exact h
  have hn : (for_each_cell (cell_suspend s.root_cell cpu s)).any
      (fun c => c.config.name == (env.config_at addr).name) = false := by
    rw [Bool.eq_false_iff]
    intro h
    rw [List.any_eq_true] at h
    obtain ⟨c, hc, e⟩ := h
    have hc' : c ∈ for_each_cell s := by
      simpa [for_each_cell] using hc
    exact hname c hc' (by simpa using e)
  unfold cell_create
  simp only [hroot, ne_eq, not_true_eq_false, if_false, hmap1, Bool.true_eq_false,
    Nat.not_lt.2 hsize, hn, hmap2, hchk, not_false_eq_true, if_true, err_resume, hE]
  rw [if_neg Bool.false_ne_true, if_pos (by decide)]

/-- C11: `check_mem_regions` returns 0 if and only if every region of the
configuration has `phys_start`, `virt_start` and `size` that are multiples of
the page size and flags without a bit outside `JAILHOUSE_MEM_VALID_FLAGS`;
otherwise it returns `-EINVAL`, and a `cell_create` that reaches the
validation (caller in the root cell, both temporary mappings built, size and
name accepted) then returns `-EINVAL` with the frame pool, the cell list and
everything else but the suspend flags as before the call. -/
theorem C11_region_validation (env : Env) (cpu addr : Nat) (s : State) :
    (check_mem_regions (env.config_at addr) = 0 ↔
      ∀ R ∈ (env.config_at addr).mem_regions,
        PAGE_SIZE ∣ R.phys_start ∧ PAGE_SIZE ∣ R.virt_start ∧ PAGE_SIZE ∣ R.size ∧
        ∀ i, R.flags.testBit i = true → JAILHOUSE_MEM_VALID_FLAGS.testBit i = true) ∧
    (check_mem_regions (env.config_at addr) ≠ 0 →
      check_mem_regions (env.config_at addr) = -EINVAL) ∧
    ((s.per_cpu cpu).cell = s.root_cell.id →
      env.page_map_create_ok (addr - (addr &&& (PAGE_SIZE - 1)))
        ((addr &&& (PAGE_SIZE - 1)) + env.sizeof_cell_desc) = true →
      (env.config_at addr).config_size + (addr &&& (PAGE_SIZE - 1)) ≤
        NUM_TEMPORARY_PAGES * PAGE_SIZE →
      (∀ c ∈ for_each_cell s, c.config.name ≠ (env.config_at addr).name) →
      env.page_map_create_ok (addr - (addr &&& (PAGE_SIZE - 1)))
        ((env.config_at addr).config_size + (addr &&& (PAGE_SIZE - 1))) = true →
      check_mem_regions (env.config_at addr) ≠ 0 →
      (cell_create env cpu addr s).1 = -EINVAL ∧
      (cell_create env cpu addr s).2.mem_pool_used = s.mem_pool_used ∧
      (cell_create env cpu addr s).2.cells = s.cells ∧
      (cell_create env cpu addr s).2 =
        { s with suspended := (cell_create env cpu addr s).2.suspended }) := by
  refine ⟨check_mem_regions_loop_zero _, ?_, ?_⟩
  · intro h
    rcases check_mem_regions_loop_cases (env.config_at addr).mem_regions with e | e
    · exact absurd e h
    · exact e
  · intro hroot hmap1 hsize hname hmap2 hchk
    have hc := cell_create_einval env cpu addr s hroot hmap1 hsize hname hmap2 hchk
    have hst : (cell_create env cpu addr s).2 =
        { s with suspended := (cell_create env cpu addr s).2.suspended } := by
      rcases cell_create_validate env cpu addr s hroot with ⟨hp, _⟩ | ⟨_, _, h⟩
      · exact absurd hp.2.2.2.2.1 hchk
      · exact h
    refine ⟨by rw [hc], by rw [hst], by rw [hst], hst⟩

/-- A configuration as that of scenario 1 whose region starts in the middle
of a page. -/
theorem C11_witness :
    check_mem_regions { scenario_guest_config with
      mem_regions := [{ phys_start := 0x8000800, virt_start := 0x8000000, size := 0x1000000,
                        flags := 3 }] } ≠ 0 ∧
    (cell_create (scenario_env { scenario_guest_config with
      mem_regions := [{ phys_start := 0x8000800, virt_start := 0x8000000, size := 0x1000000,
                        flags := 3 }] } 2) 0 0x5000 scenario_state).1 = -EINVAL ∧
    (cell_create (scenario_env { scenario_guest_config with
      mem_regions := [{ phys_start := 0x8000800, virt_start := 0x8000000, size := 0x1000000,
                        flags := 3 }] } 2) 0 0x5000 scenario_state).2.mem_pool_used = 10 :=
  have h := (C11_region_validation (scenario_env { scenario_guest_config with
      mem_regions := [{ phys_start := 0x8000800, virt_start := 0x8000000, size := 0x1000000,
                        flags := 3 }] } 2) 0 0x5000 scenario_state).2.2
    (by decide) (by decide) (by decide) (by decide) (by decide) (by decide)
  ⟨by decide, h.1, h.2.1⟩

/-- The exit of `cell_create` at a configuration that does not fit into the
temporary window behind the page offset of its address. -/
theorem cell_create_too_big (env : Env) (cpu addr : Nat) (s : State)
    (hroot : (s.per_cpu cpu).cell = s.root_cell.id)
    (hmap1 : env.page_map_create_ok (addr - (addr &&& (PAGE_SIZE - 1)))
      ((addr &&& (PAGE_SIZE - 1)) + env.sizeof_cell_desc) = true)
    (hsize : (env.config_at addr).config_size + (addr &&& (PAGE_SIZE - 1)) >
      NUM_TEMPORARY_PAGES * PAGE_SIZE) :
    cell_create env cpu addr s = (-E2BIG, cell_resume cpu (cell_suspend s.root_cell cpu s)) := by
  unfold cell_create
  simp only [hroot, ne_eq, not_true_eq_false, if_false, hmap1, Bool.true_eq_false, hsize,
    if_true, err_resume]

/-- A configuration that fits into the temporary window behind the page
offset of its address is not answered with `-E2BIG`. -/
theorem cell_create_not_too_big (env : Env) (cpu addr : Nat) (s : State)
    (hsize : (env.config_at addr).config_size + (addr &&& (PAGE_SIZE - 1)) ≤
      NUM_TEMPORARY_PAGES * PAGE_SIZE) :
    (cell_create env cpu addr s).1 ≠ -E2BIG := by
  by_cases hroot : (s.per_cpu cpu).cell = s.root_cell.id
  swap
  · rw [cell_create_eperm env cpu addr s hroot]
    show (-EPERM : Int) ≠ -E2BIG
    decide
  rcases cell_create_outcome env cpu addr s hroot with
    ⟨hnp, _, _⟩ | ⟨_, _, hc, _⟩ | ⟨_, _, _, hc, _⟩ | ⟨_, _, _, _, hc, _⟩
  · unfold create_stages_pass at hnp
    unfold cell_create
    simp only [ne_eq, hroot, not_true_eq_false, if_false]
    by_cases h1 : env.page_map_create_ok (addr - (addr &&& (PAGE_SIZE - 1)))
        ((addr &&& (PAGE_SIZE - 1)) + env.sizeof_cell_desc) = true
    swap
    · simp only [Bool.not_eq_true] at h1
      rw [if_pos h1]
      simp only [err_resume]
      decide
    rw [if_neg (by simp [h1]), if_neg (Nat.not_lt.2 hsize)]
    by_cases h3 : (for_each_cell (cell_suspend s.root_cell cpu s)).any
        (fun c => c.config.name == (env.config_at addr).name) = true
    · rw [if_pos h3]
      simp only [err_resume]
      decide
    rw [if_neg h3]
    have h3' : ∀ c ∈ for_each_cell s, c.config.name ≠ (env.config_at addr).name := by
      intro c hc hname
      apply h3
      rw [List.any_eq_true]
      exact ⟨c, by simpa [for_each_cell] using hc, by simpa using hname⟩
    by_cases h4 : env.page_map_create_ok (addr - (addr &&& (PAGE_SIZE - 1)))
        ((env.config_at addr).config_size + (addr &&& (PAGE_SIZE - 1))) = true
    swap
    · simp only [Bool.not_eq_true] at h4
      rw [if_pos h4]
      simp only [err_resume]
      decide
    rw [if_neg (by simp [h4])]
    by_cases h5 : check_mem_regions (env.config_at addr) = 0
    swap
    · rw [if_pos h5]
      simp only [err_resume]
      rcases check_mem_regions_loop_cases (env.config_at addr).mem_regions with h | h
      · exact absurd h h5
      · unfold check_mem_regions
        rw [h]
        decide
    rw [if_neg (by simp [h5])]
    have h6 : ¬ (env.page_alloc_ok (cell_suspend s.root_cell cpu s).mem_pool_used
          (create_pages env (env.config_at addr)) = true ∧
        (env.config_at addr).cpu_set_size ≤ PAGE_SIZE ∧
        ((env.config_at addr).cpu_set_size > SMALL_BITMAP_BYTES →
          env.page_alloc_ok ((cell_suspend s.root_cell cpu s).mem_pool_used +
            create_pages env (env.config_at addr)) 1 = true)) := by
      intro h6
      simp only [cell_suspend_mem_pool_used] at h6
      exact hnp ⟨h1, hsize, h3', h4, h5, h6.1, h6.2.1, h6.2.2⟩
    rcases (cell_create_alloc_fail env cpu (env.config_at addr) _ h6).1 with e | e
    · rw [e]; decide
    · rw [e]; decide
  · rw [hc]; decide
  · rw [hc]; decide
  · rw [hc]
    intro h
    have h0 : (0 : Int) ≤ (get_free_cell_id s : Int) := Int.ofNat_nonneg _
    rw [h] at h0
    exact absurd h0 (by decide)

/-- C12 (amended): for a caller in the root cell whose header mapping is
built, `cell_create` answers `-E2BIG` exactly when the total size of the
configuration plus the offset of `config_address` in its page exceeds
`NUM_TEMPORARY_PAGES * PAGE_SIZE`.  A configuration of one byte more than the
window is too big at every address; a configuration of exactly the window is
not too big at a page-aligned address, and is created there when it passes
the other stages, its CPU set is admitted and the arch layer succeeds; at
every other address it is too big. -/
theorem C12_config_size_boundary (env : Env) (cpu addr : Nat) (s : State)
    (hroot : (s.per_cpu cpu).cell = s.root_cell.id)
    (hmap1 : env.page_map_create_ok (addr - (addr &&& (PAGE_SIZE - 1)))
      ((addr &&& (PAGE_SIZE - 1)) + env.sizeof_cell_desc) = true) :
    ((cell_create env cpu addr s).1 = -E2BIG ↔
      (env.config_at addr).config_size + (addr &&& (PAGE_SIZE - 1)) >
        NUM_TEMPORARY_PAGES * PAGE_SIZE) ∧
    ((env.config_at addr).config_size = NUM_TEMPORARY_PAGES * PAGE_SIZE + 1 →
      (cell_create env cpu addr s).1 = -E2BIG) ∧
    ((env.config_at addr).config_size = NUM_TEMPORARY_PAGES * PAGE_SIZE →
      ((cell_create env cpu addr s).1 = -E2BIG ↔ addr &&& (PAGE_SIZE - 1) ≠ 0) ∧
      (addr &&& (PAGE_SIZE - 1) = 0 →
        create_stages_pass env addr s →
        ¬ create_busy cpu (create_cpu_set (env.config_at addr)) s.root_cell.cpu_set →
        (unmap_pt env s.root_cell.id (env.config_at addr).mem_regions
          s.root_cell.mappings).1 = 0 →
        env.arch_cell_create_ok (env.config_at addr) = true →
        (cell_create env cpu addr s).1 = (get_free_cell_id s : Int))) := by
  have hiff : (cell_create env cpu addr s).1 = -E2BIG ↔
      (env.config_at addr).config_size + (addr &&& (PAGE_SIZE - 1)) >
        NUM_TEMPORARY_PAGES * PAGE_SIZE := by
    constructor
    · intro h
      by_contra hn
      exact cell_create_not_too_big env cpu addr s (Nat.not_lt.1 hn) h
    · intro h
      rw [cell_create_too_big env cpu addr s hroot hmap1 h]
  refine ⟨hiff, ?_, ?_⟩
  · intro h
    exact hiff.2 (by omega)
  · intro h
    refine ⟨?_, ?_⟩
    · rw [hiff, h]
      omega
    · intro _ hp hnb hu ha
      rcases cell_create_outcome env cpu addr s hroot with
        ⟨hnp, _⟩ | ⟨_, hb, _⟩ | ⟨_, _, hf, _⟩ | ⟨_, _, _, _, hc, _⟩
      · exact absurd hp hnp
      · exact absurd hb hnb
      · rcases hf with hf | hf
        · exact absurd hu hf
        · rw [ha] at hf; cases hf
      · exact hc

/-- C12 (counterexample): the configuration of scenario 1 with a total size
of exactly the temporary window is created when it lies at the page-aligned
address 0x5000, and is answered with `-E2BIG` when it lies at 0x5008. -/
theorem C12_counterexample :
    ({ scenario_guest_config with config_size := 65536 } : jailhouse_cell_desc).config_size =
      NUM_TEMPORARY_PAGES * PAGE_SIZE ∧
    (cell_create (scenario_env { scenario_guest_config with config_size := 65536 } 2) 0 0x5000
      scenario_state).1 = 1 ∧
    (cell_create (scenario_env { scenario_guest_config with config_size := 65536 } 2) 0 0x5008
      scenario_state).1 = -E2BIG :=
  ⟨by decide, by decide, by decide⟩

/-- Witness for C12: at the page-aligned address 0x5000 the configuration of
scenario 1 with a total size of exactly the window is created with id 1, and
with one byte more it is too big. -/
theorem C12_witness :
    (cell_create (scenario_env { scenario_guest_config with config_size := 65536 } 2) 0 0x5000
      scenario_state).1 = 1 ∧
    (cell_create (scenario_env { scenario_guest_config with config_size := 65537 } 2) 0 0x5000
      scenario_state).1 = -E2BIG :=
  ⟨(((C12_config_size_boundary
      (scenario_env { scenario_guest_config with config_size := 65536 } 2) 0 0x5000
      scenario_state (by decide) (by decide)).2.2 (by decide)).2 (by decide)
      (by unfold create_stages_pass; decide)
      (fun hb => absurd ((create_busy_iff _ _ _).2 hb) (by decide)) (by decide)
      (by decide)).trans
      (by decide),
   (C12_config_size_boundary
      (scenario_env { scenario_guest_config with config_size := 65537 } 2) 0 0x5000
      scenario_state (by decide) (by decide)).2.1 (by decide)⟩

/-! ## The forms of a CPU set -/

/-- C13: `cell_init` gives a configuration whose CPU set has at most the
inline capacity (`sizeof(small_cpu_set.bitmap)` bytes, in particular exactly
that many) the inline form: no frame is taken and `max_cpu_id` is the number
of inline bits minus one.  A CPU set of more bytes (in particular of one byte
more, the next size a configuration can ask for), up to a page, gets the
allocated form: one frame of `mem_pool`, and `max_cpu_id` is
`(PAGE_SIZE - sizeof(unsigned long)) * 8 - 1`; when the pool has no frame
left the call fails with `-ENOMEM` and takes nothing. -/
theorem C13_cpu_set_form (env : Env) (c : cell) (copy_cpu_set : Bool) (s : State) :
    (c.config.cpu_set_size ≤ SMALL_BITMAP_BYTES →
      (cell_init env c copy_cpu_set s).1 = 0 ∧
      (cell_init env c copy_cpu_set s).2.1.cpu_set.allocated = false ∧
      (cell_init env c copy_cpu_set s).2.1.cpu_set.max_cpu_id = SMALL_BITMAP_BYTES * 8 - 1 ∧
      (cell_init env c copy_cpu_set s).2.2 = s) ∧
    (SMALL_BITMAP_BYTES < c.config.cpu_set_size → c.config.cpu_set_size ≤ PAGE_SIZE →
      (env.page_alloc_ok s.mem_pool_used 1 = true →
        (cell_init env c copy_cpu_set s).1 = 0 ∧
        (cell_init env c copy_cpu_set s).2.1.cpu_set.allocated = true ∧
        (cell_init env c copy_cpu_set s).2.1.cpu_set.max_cpu_id =
          (PAGE_SIZE - SIZEOF_LONG) * 8 - 1 ∧
        (cell_init env c copy_cpu_set s).2.2 =
          { s with mem_pool_used := s.mem_pool_used + 1 }) ∧
      (env.page_alloc_ok s.mem_pool_used 1 = false →
        (cell_init env c copy_cpu_set s).1 = -ENOMEM ∧
        (cell_init env c copy_cpu_set s).2.2 = s)) := by
  constructor
  · intro h
    have h1 : ¬ c.config.cpu_set_size > PAGE_SIZE := by
      unfold SMALL_BITMAP_BYTES at h
      unfold PAGE_SIZE
      omega
    have h2 : ¬ c.config.cpu_set_size > SMALL_BITMAP_BYTES := by omega
    unfold cell_init
    simp only [h1, h2, if_false]
    cases copy_cpu_set <;> simp [cpu_set.max_cpu_id]
  · intro h hp
    have h1 : ¬ c.config.cpu_set_size > PAGE_SIZE := by omega
    constructor
    · intro ha
      unfold cell_init
      simp only [h1, h, if_false, if_true, page_alloc, ha]
      cases copy_cpu_set <;> simp [cpu_set.max_cpu_id]
    · intro ha
      unfold cell_init
      simp only [h1, h, if_false, if_true, page_alloc, ha, Bool.false_eq_true]
      exact ⟨trivial, trivial⟩

/-- Witness for C13: the cell record of scenario 1 with a CPU set of 8 bytes
and with one of 9 bytes. -/
theorem C13_witness :
    ((cell_init (scenario_env scenario_guest_config 2)
        (new_cell { scenario_guest_config with cpu_set_size := 8 } 2) true
        scenario_state).2.1.cpu_set.allocated = false ∧
      (cell_init (scenario_env scenario_guest_config 2)
        (new_cell { scenario_guest_config with cpu_set_size := 8 } 2) true
        scenario_state).2.1.cpu_set.max_cpu_id = 63 ∧
      (cell_init (scenario_env scenario_guest_config 2)
        (new_cell { scenario_guest_config with cpu_set_size := 8 } 2) true
        scenario_state).2.2.mem_pool_used = 10) ∧
    ((cell_init (scenario_env scenario_guest_config 2)
        (new_cell { scenario_guest_config with cpu_set_size := 9 } 2) true
        scenario_state).2.1.cpu_set.allocated = true ∧
      (cell_init (scenario_env scenario_guest_config 2)
        (new_cell { scenario_guest_config with cpu_set_size := 9 } 2) true
        scenario_state).2.1.cpu_set.max_cpu_id = 32703 ∧
      (cell_init (scenario_env scenario_guest_config 2)
        (new_cell { scenario_guest_config with cpu_set_size := 9 } 2) true
        scenario_state).2.2.mem_pool_used = 11) := by
  have h8 := (C13_cpu_set_form (scenario_env scenario_guest_config 2)
    (new_cell { scenario_guest_config with cpu_set_size := 8 } 2) true scenario_state).1
    (by decide)
  have h9 := ((C13_cpu_set_form (scenario_env scenario_guest_config 2)
    (new_cell { scenario_guest_config with cpu_set_size := 9 } 2) true scenario_state).2
    (by decide) (by decide)).1 (by decide)
  refine ⟨⟨h8.2.1, h8.2.2.1.trans (by decide), by rw [h8.2.2.2]; decide⟩,
    ⟨h9.2.1, h9.2.2.1.trans (by decide), by rw [h9.2.2.2]; decide⟩⟩

/-! ## State queries and panic -/

theorem find_id_none (l : List cell) (id : Nat) :
    l.find? (fun c => c.id == id) = none ↔ ∀ c ∈ l, c.id ≠ id := by
  rw [List.find?_eq_none]
  constructor
  · intro h c hc e
    exact h c hc (by simpa using e)
  · intro h c hc e
    exact h c hc (by simpa using e)

theorem find_id_of_pairwise (l : List cell) (id : Nat)
    (hp : l.Pairwise (fun c c' => c.id ≠ c'.id)) (c : cell) (hc : c ∈ l) (hid : c.id = id) :
    l.find? (fun c => c.id == id) = some c := by
  induction l with
  | nil => cases hc
  | cons a l ih =>
    rw [List.pairwise_cons] at hp
    rcases List.mem_cons.1 hc with e | hc'
    · subst e
      simp [List.find?, hid]
    · have hne : a.id ≠ id := by
        rw [← hid]
        exact hp.1 c hc'
      simp only [List.find?, beq_iff_eq, hne]
      have hb : (a.id == id) = false := by simpa using hne
      rw [hb]
      exact ih hp.2 hc'

/-- C14: for a caller in the root cell `cell_get_state` returns `-ENOENT`
when no cell of the list has the id; otherwise it returns the `cell_state`
word of the comm region of the cell with that id when the word is RUNNING,
SHUT_DOWN or FAILED, and `-EINVAL` for every other value.  The state is not
modified. -/
theorem C14_cell_get_state (cpu id : Nat) (s : State)
    (hroot : (s.per_cpu cpu).cell = s.root_cell.id) :
    ((∀ c ∈ for_each_cell s, c.id ≠ id) → (cell_get_state cpu id s).1 = -ENOENT) ∧
    (∀ c, (for_each_cell s).find? (fun c => c.id == id) = some c →
      ((c.comm_region.cell_state = JAILHOUSE_CELL_RUNNING ∨
          c.comm_region.cell_state = JAILHOUSE_CELL_SHUT_DOWN ∨
          c.comm_region.cell_state = JAILHOUSE_CELL_FAILED) →
        (cell_get_state cpu id s).1 = (c.comm_region.cell_state : Int)) ∧
      (¬ (c.comm_region.cell_state = JAILHOUSE_CELL_RUNNING ∨
          c.comm_region.cell_state = JAILHOUSE_CELL_SHUT_DOWN ∨
          c.comm_region.cell_state = JAILHOUSE_CELL_FAILED) →
        (cell_get_state cpu id s).1 = -EINVAL)) ∧
    ((for_each_cell s).Pairwise (fun c c' => c.id ≠ c'.id) →
      ∀ c ∈ for_each_cell s, c.id = id →
        (for_each_cell s).find? (fun c => c.id == id) = some c) ∧
    (cell_get_state cpu id s).2 = s := by
  refine ⟨?_, ?_, ?_, ?_⟩
  · intro h
    unfold cell_get_state
    simp only [hroot, ne_eq, not_true_eq_false, if_false, (find_id_none _ id).2 h]
  · intro c hc
    constructor
    · intro hk
      unfold cell_get_state
      simp only [hroot, ne_eq, not_true_eq_false, if_false, hc, hk, if_true]
    · intro hk
      unfold cell_get_state
      simp only [hroot, ne_eq, not_true_eq_false, if_false, hc, hk]
  · intro hp c hc hid
    exact find_id_of_pairwise _ id hp c hc hid
  · unfold cell_get_state
    simp only [hroot, ne_eq, not_true_eq_false, if_false]
    cases (for_each_cell s).find? (fun c => c.id == id) with
    | none => rfl
    | some c =>
      simp only
      split <;> rfl

/-- Witness for C14: after both CPUs of "guestA" have panicked (scenario 6)
the state of cell 1 is FAILED, and no cell has id 5. -/
theorem C14_witness :
    (cell_get_state 0 1 scenario_panic_second).1 = (JAILHOUSE_CELL_FAILED : Int) ∧
    (cell_get_state 0 5 scenario_panic_second).1 = -ENOENT ∧
    (cell_get_state 0 1 scenario_panic_second).2 = scenario_panic_second :=
  ⟨(((C14_cell_get_state 0 1 scenario_panic_second (by decide)).2.1
      { scenario_guest_cell with comm_region :=
          { msg_to_cell := 0, reply_from_cell := 0, cell_state := JAILHOUSE_CELL_FAILED } }
      rfl).1 (by decide)),
   (C14_cell_get_state 0 5 scenario_panic_second (by decide)).1 (by decide),
   (C14_cell_get_state 0 1 scenario_panic_second (by decide)).2.2.2⟩

theorem find_eq_find_chained (l : List cell) (id : Nat) :
    l.find? (fun c => c.id == id) = (find_chained l id).map Prod.snd := by
  induction l with
  | nil => rfl
  | cons a l ih =>
    by_cases h : a.id = id
    · simp [List.find?, find_chained, h]
    · have hb : (a.id == id) = false := by simpa using h
      simp only [List.find?, hb, find_chained, if_neg h, ih, Option.map_map]
      cases find_chained l id <;> rfl

theorem find_chained_set (f : cell → cell) (hf : ∀ c, (f c).id = c.id) (id : Nat) :
    ∀ (l : List cell) (k : Nat) (c : cell), find_chained l id = some (k, c) →
      find_chained (l.set k (f c)) id = some (k, f c) := by
  intro l
  induction l with
  | nil => intro k c h; cases h
  | cons a l ih =>
    intro k c h
    by_cases ha : a.id = id
    · simp only [find_chained, if_pos ha, Option.some.injEq, Prod.mk.injEq] at h
      obtain ⟨h1, h2⟩ := h
      subst h1; subst h2
      simp only [List.set_cons_zero, find_chained, hf, if_pos ha]
    · simp only [find_chained, if_neg ha, Option.map_eq_some', Prod.mk.injEq] at h
      obtain ⟨p, hp, h1, h2⟩ := h
      subst h1; subst h2
      have := ih p.1 p.2 hp
      simp only [List.set_cons_succ, find_chained, if_neg ha, this, Option.map_some']

theorem deref_eq (s : State) (ptr : Nat) :
    deref s ptr = if s.root_cell.id = ptr then s.root_cell
      else ((find_chained s.cells ptr).map Prod.snd).getD s.root_cell := by
  unfold deref for_each_cell
  by_cases h : s.root_cell.id = ptr
  · simp [List.find?, h]
  · have hb : (s.root_cell.id == ptr) = false := by simpa using h
    simp only [List.find?, hb, if_neg h, find_eq_find_chained]

/-- A store through a cell pointer is seen by a load through it. -/
theorem deref_update_cell (s : State) (ptr : Nat) (f : cell → cell)
    (hf : ∀ c, (f c).id = c.id) :
    deref (update_cell s ptr f) ptr = f (deref s ptr) := by
  rw [deref_eq, deref_eq]
  unfold update_cell
  by_cases h : s.root_cell.id = ptr
  · simp only [if_pos h, hf]
  · simp only [if_neg h]
    cases hc : find_chained s.cells ptr with
    | none =>
      simp only [hf, if_neg h, hc, Option.map_none', Option.getD_none]
    | some p =>
      obtain ⟨k, c⟩ := p
      simp only [if_neg h, find_chained_set f hf ptr s.cells k c hc, Option.map_some',
        Option.getD_some]

theorem update_cell_per_cpu (s : State) (ptr : Nat) (f : cell → cell) :
    (update_cell s ptr f).per_cpu = s.per_cpu := by
  unfold update_cell
  split
  · rfl
  · split <;> rfl

theorem update_cell_root_id (s : State) (ptr : Nat) (f : cell → cell)
    (hf : ∀ c, (f c).id = c.id) :
    (update_cell s ptr f).root_cell.id = s.root_cell.id := by
  unfold update_cell
  split
  · exact hf _
  · split
    · rfl
    · exact hf _

/-- The owner of the CPU behind `panic_halt`, and the per-CPU records. -/
theorem panic_halt_outcome (cpu : Nat) (s : State) :
    (panic_halt cpu s).per_cpu =
      (fun c => if c = cpu then { s.per_cpu c with failed := true } else s.per_cpu c) ∧
    (panic_halt cpu s).root_cell.id = s.root_cell.id ∧
    ((∀ x, (deref s (s.per_cpu cpu).cell).cpu_set.contains x = true →
        ((panic_halt cpu s).per_cpu x).failed = true) →
      deref (panic_halt cpu s) (s.per_cpu cpu).cell =
        { deref s (s.per_cpu cpu).cell with
          comm_region := { (deref s (s.per_cpu cpu).cell).comm_region with
            cell_state := JAILHOUSE_CELL_FAILED } }) ∧
    (¬ (∀ x, (deref s (s.per_cpu cpu).cell).cpu_set.contains x = true →
        ((panic_halt cpu s).per_cpu x).failed = true) →
      deref (panic_halt cpu s) (s.per_cpu cpu).cell = deref s (s.per_cpu cpu).cell) := by
  have hd1 : deref { s with per_cpu := fun c =>
      if c = cpu then { s.per_cpu c with failed := true } else s.per_cpu c }
      (s.per_cpu cpu).cell = deref s (s.per_cpu cpu).cell := rfl
  have hall : ((for_each_cpu (deref s (s.per_cpu cpu).cell).cpu_set).all
      (fun x => (if x = cpu then { s.per_cpu x with failed := true } else s.per_cpu x).failed) =
        true) ↔
      ∀ x, (deref s (s.per_cpu cpu).cell).cpu_set.contains x = true →
        (if x = cpu then { s.per_cpu x with failed := true } else s.per_cpu x).failed = true := by
    rw [List.all_eq_true]
    constructor
    · intro h x hx
      exact h x ((mem_for_each_cpu _ _).2 hx)
    · intro h x hx
      exact h x ((mem_for_each_cpu _ _).1 hx)
  have hcases : panic_halt cpu s =
      arch_panic_halt cpu
        (if (for_each_cpu (deref s (s.per_cpu cpu).cell).cpu_set).all
            (fun x => (if x = cpu then { s.per_cpu x with failed := true }
              else s.per_cpu x).failed) = true
         then update_cell { s with per_cpu := fun c =>
              if c = cpu then { s.per_cpu c with failed := true } else s.per_cpu c }
            (s.per_cpu cpu).cell
            (fun c => { c with comm_region :=
              { c.comm_region with cell_state := JAILHOUSE_CELL_FAILED } })
         else { s with per_cpu := fun c =>
              if c = cpu then { s.per_cpu c with failed := true } else s.per_cpu c }) := rfl
  have hp : (panic_halt cpu s).per_cpu =
      (fun c => if c = cpu then { s.per_cpu c with failed := true } else s.per_cpu c) := by
    rw [hcases]
    split
    · exact update_cell_per_cpu _ _ _
    · rfl
  refine ⟨hp, ?_, ?_, ?_⟩
  · rw [hcases]
    split
    · exact update_cell_root_id _ _ _ (fun _ => rfl)
    · rfl
  · intro h
    rw [hp] at h
    rw [hcases, if_pos (hall.2 h)]
    have key := deref_update_cell
      { s with per_cpu := fun c =>
          if c = cpu then { s.per_cpu c with failed := true } else s.per_cpu c }
      (s.per_cpu cpu).cell
      (fun c => { c with comm_region :=
        { c.comm_region with cell_state := JAILHOUSE_CELL_FAILED } })
      (fun _ => rfl)
    rw [hd1] at key
    exact key
  · intro h
    rw [hp] at h
    rw [hcases, if_neg (fun ha => h (hall.1 ha))]
    exact hd1

/-- C15: `panic_halt(cpu)` sets the `failed` flag of that CPU and of no
other; the `cell_state` of the cell the CPU refers to is FAILED afterwards
when every CPU of that cell's CPU set has `failed` set then, and is the old
value otherwise; nothing else of the cell changes.  Afterwards
`cpu_get_state` of that CPU, asked by a CPU of the root cell, returns FAILED,
the CPU being one of the system configuration. -/
theorem C15_panic_propagation (system : jailhouse_cell_desc) (caller cpu : Nat) (s : State) :
    ((panic_halt cpu s).per_cpu cpu).failed = true ∧
    (∀ x, x ≠ cpu → (panic_halt cpu s).per_cpu x = s.per_cpu x) ∧
    ((∀ x, (deref s (s.per_cpu cpu).cell).cpu_set.contains x = true →
        ((panic_halt cpu s).per_cpu x).failed = true) →
      (deref (panic_halt cpu s) (s.per_cpu cpu).cell).comm_region.cell_state =
        JAILHOUSE_CELL_FAILED) ∧
    (¬ (∀ x, (deref s (s.per_cpu cpu).cell).cpu_set.contains x = true →
        ((panic_halt cpu s).per_cpu x).failed = true) →
      (deref (panic_halt cpu s) (s.per_cpu cpu).cell).comm_region.cell_state =
        (deref s (s.per_cpu cpu).cell).comm_region.cell_state) ∧
    (deref (panic_halt cpu s) (s.per_cpu cpu).cell).cpu_set =
      (deref s (s.per_cpu cpu).cell).cpu_set ∧
    (deref (panic_halt cpu s) (s.per_cpu cpu).cell).id = (deref s (s.per_cpu cpu).cell).id ∧
    ((s.per_cpu caller).cell = s.root_cell.id → cpu_id_valid system cpu = true →
      (cpu_get_state system caller cpu (panic_halt cpu s)).1 = JAILHOUSE_CPU_FAILED) := by
  obtain ⟨hp, hr, hd, hd'⟩ := panic_halt_outcome cpu s
  have hf : ((panic_halt cpu s).per_cpu cpu).failed = true := by
    rw [hp]
    simp only [if_true]
  refine ⟨hf, ?_, ?_, ?_, ?_, ?_, ?_⟩
  · intro x hx
    rw [hp]
    simp only [if_neg hx]
  · intro h
    rw [hd h]
  · intro h
    rw [hd' h]
  · by_cases h : ∀ x, (deref s (s.per_cpu cpu).cell).cpu_set.contains x = true →
        ((panic_halt cpu s).per_cpu x).failed = true
    · rw [hd h]
    · rw [hd' h]
  · by_cases h : ∀ x, (deref s (s.per_cpu cpu).cell).cpu_set.contains x = true →
        ((panic_halt cpu s).per_cpu x).failed = true
    · rw [hd h]
    · rw [hd' h]
  · intro hroot hv
    have hc : ((panic_halt cpu s).per_cpu caller).cell = (panic_halt cpu s).root_cell.id := by
      rw [hr, hp]
      by_cases e : caller = cpu
      · subst e
        simp only [if_true]
        exact hroot
      · simp only [if_neg e]
        exact hroot
    unfold cpu_get_state
    simp only [hv, Bool.true_eq_false, if_false, hc, ne_eq, not_true_eq_false, false_and, hf,
      if_true]

/-- Witness for C15 (scenario 6): "guestA" runs on CPUs 2 and 3.  After
`panic_halt(2)` its cell state is still RUNNING; after `panic_halt(3)` it is
FAILED and `cpu_get_state` returns FAILED for CPU 2 and for CPU 3. -/
theorem C15_witness :
    (scenario_state_with_guest.cells.map (fun c => (c.id, c.cpu_set.bitmap))) = [(1, 12)] ∧
    scenario_panic_first.cells.map (fun c => c.comm_region.cell_state) =
      [JAILHOUSE_CELL_RUNNING] ∧
    scenario_panic_second.cells.map (fun c => c.comm_region.cell_state) =
      [JAILHOUSE_CELL_FAILED] ∧
    (cpu_get_state scenario_root_config 0 2 scenario_panic_second).1 = JAILHOUSE_CPU_FAILED ∧
    (cpu_get_state scenario_root_config 0 3 scenario_panic_second).1 = JAILHOUSE_CPU_FAILED :=
  ⟨by decide, by decide, by decide, by decide,
   (C15_panic_propagation scenario_root_config 0 3 scenario_panic_first).2.2.2.2.2.2
     (by decide) (by decide)⟩

/-! ## The shutdown handshake -/

theorem foldl_set_shutdown_state (state : Int) :
    ∀ (l : List Nat) (s : State),
      l.foldl (fun st cpu => set_shutdown_state cpu state st) s =
        { s with per_cpu := fun x => if x ∈ l then { s.per_cpu x with shutdown_state := state }
                                     else s.per_cpu x } := by
  intro l
  induction l with
  | nil => intro s; simp
  | cons a l ih =>
    intro s
    rw [List.foldl_cons, ih]
    simp only [set_shutdown_state, List.mem_cons]
    congr 1
    funext x
    by_cases h1 : x ∈ l <;> by_cases h2 : x = a <;> simp [h1, h2]

theorem shutdown_cells_fold (cpu : Nat) :
    ∀ (cells : List cell) (s s0 : State) (acc : List Nat), same_but_suspended s0 s →
      same_but_suspended s0 (cells.foldl
        (fun (r : State × List Nat) c =>
          (cell_suspend c cpu r.1, r.2 ++ for_each_cpu c.cpu_set)) (s, acc)).1 ∧
      (cells.foldl
        (fun (r : State × List Nat) c =>
          (cell_suspend c cpu r.1, r.2 ++ for_each_cpu c.cpu_set)) (s, acc)).2 =
        acc ++ cpus_of cells := by
  intro cells
  induction cells with
  | nil => intro s s0 acc h; exact ⟨h, by simp [cpus_of]⟩
  | cons c cells ih =>
    intro s s0 acc h
    rw [List.foldl_cons]
    have h' : same_but_suspended s0 (cell_suspend c cpu s) := by
      have e := cell_suspend_eq c cpu s
      unfold same_but_suspended at h e ⊢
      rw [e, h]
    obtain ⟨i1, i2⟩ := ih (cell_suspend c cpu s) s0 (acc ++ for_each_cpu c.cpu_set) h'
    exact ⟨i1, by rw [i2]; simp [cpus_of]⟩

theorem shutdown_cells_spec (cpu : Nat) (cells : List cell) (s : State) :
    same_but_suspended s (shutdown_cells cpu cells s).1 ∧
    (shutdown_cells cpu cells s).2 = cpus_of cells := by
  have h := shutdown_cells_fold cpu cells s s [] (by unfold same_but_suspended; rfl)
  unfold shutdown_cells
  exact ⟨h.1, by rw [h.2]; rfl⟩

theorem cpus_of_congr :
    ∀ (l l' : List cell), l'.map (fun c => c.cpu_set) = l.map (fun c => c.cpu_set) →
      cpus_of l' = cpus_of l := by
  intro l
  induction l with
  | nil =>
    intro l' h
    cases l' with
    | nil => rfl
    | cons a l' => simp at h
  | cons c l ih =>
    intro l' h
    cases l' with
    | nil => simp at h
    | cons a l' =>
      simp only [List.map_cons, List.cons.injEq] at h
      simp only [cpus_of, h.1, ih l' h.2]

/-- The first loop of `shutdown` when every cell answers: the chosen state
is the initial one when every cell passes and `-EPERM` when one refuses. -/
theorem shutdown_ask_total (env : Env) (fuel : Nat) :
    ∀ (l : List cell) (st : Int),
      (∀ c ∈ l, ∃ b c1, cell_shutdown_ok env fuel c = some (b, c1)) →
      ∃ chosen l', shutdown_ask env fuel st l = some (chosen, l') ∧
        ((∀ c ∈ l, ∃ c1, cell_shutdown_ok env fuel c = some (true, c1)) → chosen = st) ∧
        ((∃ c ∈ l, ∃ c1, cell_shutdown_ok env fuel c = some (false, c1)) → chosen = -EPERM) ∧
        (chosen = st ∨ chosen = -EPERM) ∧
        l'.map (fun c => c.cpu_set) = l.map (fun c => c.cpu_set) := by
  intro l
  induction l with
  | nil =>
    intro st _
    refine ⟨st, [], rfl, fun _ => rfl, ?_, Or.inl rfl, rfl⟩
    rintro ⟨c, hc, _⟩
    cases hc
  | cons c l ih =>
    intro st hans
    obtain ⟨b, c1, hc⟩ := hans c (List.mem_cons_self _ _)
    obtain ⟨chosen, l', h1, h2, h3, h4, h5⟩ :=
      ih (if b = true then st else -EPERM) (fun x hx => hans x (List.mem_cons_of_mem _ hx))
    have hfr := cell_shutdown_ok_frame env fuel c c1 b hc
    refine ⟨chosen, c1 :: l', ?_, ?_, ?_, ?_, ?_⟩
    · simp only [shutdown_ask, hc, h1, Option.map_some']
    · intro hall
      obtain ⟨c1', hc'⟩ := hall c (List.mem_cons_self _ _)
      rw [hc] at hc'
      simp only [Option.some.injEq, Prod.mk.injEq] at hc'
      have hb : b = true := hc'.1
      rw [h2 (fun x hx => hall x (List.mem_cons_of_mem _ hx)), if_pos hb]
    · rintro ⟨x, hx, x1, hx1⟩
      rcases List.mem_cons.1 hx with e | hx'
      · subst e
        rw [hc] at hx1
        simp only [Option.some.injEq, Prod.mk.injEq] at hx1
        have hb : b = false := hx1.1
        rcases h4 with h4 | h4
        · rw [h4, hb]
          simp
        · exact h4
      · exact h3 ⟨x, hx', x1, hx1⟩
    · rcases h4 with h4 | h4
      · rw [h4]
        by_cases hb : b = true
        · left; rw [if_pos hb]
        · right; rw [if_neg hb]
      · right; exact h4
    · simp only [List.map_cons, hfr.2.2.2.1, h5]

/-- A later arriver of `shutdown`: its stored state is returned (0 for
STARTED) and cleared; nothing else happens. -/
theorem shutdown_later (env : Env) (fuel y : Nat) (st : State)
    (hroot : (st.per_cpu y).cell = st.root_cell.id)
    (hne : (st.per_cpu y).shutdown_state ≠ SHUTDOWN_NONE) :
    shutdown env fuel y st =
      some ((if (st.per_cpu y).shutdown_state = SHUTDOWN_STARTED then 0
             else (st.per_cpu y).shutdown_state),
        set_shutdown_state y SHUTDOWN_NONE st,
        { lock_taken := true, cpus_shut_down := [], hypervisor_shut_down := false }) := by
  unfold shutdown
  simp only [hroot, ne_eq, not_true_eq_false, if_false, hne, Option.map_some']

/-- The first arriver of `shutdown` when every cell answers. -/
theorem shutdown_first_arriver (env : Env) (fuel cpu : Nat) (s : State)
    (hroot : (s.per_cpu cpu).cell = s.root_cell.id)
    (hin : s.root_cell.cpu_set.contains cpu = true)
    (hnone : (s.per_cpu cpu).shutdown_state = SHUTDOWN_NONE)
    (hans : ∀ c ∈ s.cells, ∃ b c1, cell_shutdown_ok env fuel c = some (b, c1)) :
    ∃ chosen l' susp tr,
      shutdown env fuel cpu s =
        some ((if chosen = SHUTDOWN_STARTED then 0 else chosen),
          { s with
            cells := l', suspended := susp,
            per_cpu := fun x =>
              if x = cpu then { s.per_cpu x with shutdown_state := SHUTDOWN_NONE }
              else if x ∈ for_each_cpu s.root_cell.cpu_set then
                { s.per_cpu x with shutdown_state := chosen }
              else s.per_cpu x }, tr) ∧
      (chosen = SHUTDOWN_STARTED ∨ chosen = -EPERM) ∧
      ((∀ c ∈ s.cells, ∃ c1, cell_shutdown_ok env fuel c = some (true, c1)) →
        chosen = SHUTDOWN_STARTED) ∧
      ((∃ c ∈ s.cells, ∃ c1, cell_shutdown_ok env fuel c = some (false, c1)) →
        chosen = -EPERM) ∧
      l'.map (fun c => c.cpu_set) = s.cells.map (fun c => c.cpu_set) ∧
      (chosen = SHUTDOWN_STARTED →
        tr = { lock_taken := true, cpus_shut_down := cpus_of s.cells,
               hypervisor_shut_down := true }) ∧
      (chosen = -EPERM →
        tr = { lock_taken := true, cpus_shut_down := [], hypervisor_shut_down := false } ∧
        susp = s.suspended) := by
  obtain ⟨chosen, l', h1, h2, h3, h4, h5⟩ := shutdown_ask_total env fuel s.cells SHUTDOWN_STARTED hans
  have hmem : cpu ∈ for_each_cpu s.root_cell.cpu_set := (mem_for_each_cpu _ _).2 hin
  rcases h4 with h4 | h4
  · subst h4
    have hd := shutdown_cells_spec cpu l' { s with cells := l' }
    refine ⟨SHUTDOWN_STARTED, l', (shutdown_cells cpu l' { s with cells := l' }).1.suspended,
      { lock_taken := true, cpus_shut_down := cpus_of s.cells, hypervisor_shut_down := true },
      ?_, Or.inl rfl, fun _ => rfl, h3, h5, fun _ => rfl, fun h => absurd h (by decide)⟩
    unfold shutdown
    simp only [hroot, ne_eq, not_true_eq_false, if_false, hnone, if_true, shutdown_first, h1,
      Option.map_some', foldl_set_shutdown_state, hd.2, cpus_of_congr _ _ h5]
    have e := hd.1
    unfold same_but_suspended at e
    rw [e]
    simp only [hmem, if_true, set_shutdown_state, Option.some.injEq, Prod.mk.injEq, true_and]
    refine ⟨?_, trivial⟩
    apply State.ext <;> try rfl
    funext x
    by_cases hx : x = cpu
    · subst hx
      simp [hmem]
    · simp [hx]
  · have hne : chosen ≠ SHUTDOWN_STARTED := by rw [h4]; decide
    refine ⟨chosen, l', s.suspended,
      { lock_taken := true, cpus_shut_down := [], hypervisor_shut_down := false },
      ?_, Or.inr h4, h2, h3, h5, fun h => absurd h hne, fun _ => ⟨rfl, rfl⟩⟩
    unfold shutdown
    simp only [hroot, ne_eq, not_true_eq_false, if_false, hnone, if_true, shutdown_first, h1,
      Option.map_some', foldl_set_shutdown_state, hne]
    simp only [hmem, if_true, set_shutdown_state, Option.some.injEq, Prod.mk.injEq, true_and,
      hne, if_false]
    refine ⟨?_, trivial⟩
    apply State.ext <;> try rfl
    funext x
    by_cases hx : x = cpu
    · subst hx
      simp [hmem]
    · simp [hx]

/-- The first loop of `shutdown` does not end while some cell leaves the
request unanswered. -/
theorem shutdown_ask_none (env : Env) (fuel : Nat) :
    ∀ (l : List cell) (st : Int), (∃ c ∈ l, cell_shutdown_ok env fuel c = none) →
      shutdown_ask env fuel st l = none := by
  intro l
  induction l with
  | nil =>
    rintro st ⟨c, hc, _⟩
    cases hc
  | cons a l ih =>
    rintro st ⟨c, hc, hn⟩
    simp only [shutdown_ask]
    cases ha : cell_shutdown_ok env fuel a with
    | none => rfl
    | some p =>
      rcases List.mem_cons.1 hc with e | hc'
      · subst e
        rw [ha] at hn
        cases hn
      · simp only [ih _ ⟨c, hc', hn⟩, Option.map_none']

/-- C16 (amended): a first arriver of `shutdown` (a CPU of the root cell whose
`shutdown_state` is NONE) asks every cell behind the root, also after a
refusal.  While some cell leaves the request unanswered the call does not
return.  When all cells answer, it returns 0 if every cell passes the check
and `-EPERM` if one refuses.  When one refuses no CPU is suspended and neither
`arch_shutdown_cpu` nor `arch_shutdown` is called; when all pass, the CPUs of
all cells are handed to `arch_shutdown_cpu` and `arch_shutdown` is called.
The chosen state is stored in the `shutdown_state` of every other CPU of the
root cell, the arriver's own `shutdown_state` is NONE when it returns, and
every later arriver of the root cell returns what the first returned, does
nothing else, and has `shutdown_state` NONE when it returns. -/
theorem C16_shutdown_handshake (env : Env) (fuel cpu : Nat) (s : State)
    (hroot : (s.per_cpu cpu).cell = s.root_cell.id)
    (hin : s.root_cell.cpu_set.contains cpu = true)
    (hnone : (s.per_cpu cpu).shutdown_state = SHUTDOWN_NONE) :
    ((∃ c ∈ s.cells, cell_shutdown_ok env fuel c = none) → shutdown env fuel cpu s = none) ∧
    ((∀ c ∈ s.cells, ∃ b c1, cell_shutdown_ok env fuel c = some (b, c1)) →
    ∃ r st tr, shutdown env fuel cpu s = some (r, st, tr) ∧
      ((∀ c ∈ s.cells, ∃ c1, cell_shutdown_ok env fuel c = some (true, c1)) →
        r = 0 ∧ tr.cpus_shut_down = cpus_of s.cells ∧ tr.hypervisor_shut_down = true) ∧
      ((∃ c ∈ s.cells, ∃ c1, cell_shutdown_ok env fuel c = some (false, c1)) →
        r = -EPERM ∧ st.suspended = s.suspended ∧ tr.cpus_shut_down = [] ∧
        tr.hypervisor_shut_down = false) ∧
      (r = 0 ∨ r = -EPERM) ∧
      (st.per_cpu cpu).shutdown_state = SHUTDOWN_NONE ∧
      (∀ y, y ≠ cpu → s.root_cell.cpu_set.contains y = true →
        (st.per_cpu y).shutdown_state = (if r = 0 then SHUTDOWN_STARTED else r)) ∧
      (∀ x, (st.per_cpu x).cell = (s.per_cpu x).cell) ∧
      st.root_cell = s.root_cell ∧
      (∀ y fuel', y ≠ cpu → s.root_cell.cpu_set.contains y = true →
        (s.per_cpu y).cell = s.root_cell.id →
        ∃ st', shutdown env fuel' y st =
            some (r, st', { lock_taken := true, cpus_shut_down := [],
                            hypervisor_shut_down := false }) ∧
          (st'.per_cpu y).shutdown_state = SHUTDOWN_NONE ∧
          (∀ x, x ≠ y → st'.per_cpu x = st.per_cpu x) ∧
          st'.cells = st.cells ∧ st'.root_cell = st.root_cell ∧
          st'.suspended = st.suspended ∧ st'.parked = st.parked)) := by
  refine ⟨?_, ?_⟩
  · intro hsil
    have hask := shutdown_ask_none env fuel s.cells SHUTDOWN_STARTED hsil
    unfold shutdown
    rw [if_neg (by simp [hroot]), if_pos hnone]
    unfold shutdown_first
    rw [hask]
    rfl
  intro hans
  obtain ⟨chosen, l', susp, tr, hres, hch, hpass, hrefuse, _, htr1, htr2⟩ :=
    shutdown_first_arriver env fuel cpu s hroot hin hnone hans
  have hr : (if chosen = SHUTDOWN_STARTED then (0 : Int) else chosen) = 0 ∨
      (if chosen = SHUTDOWN_STARTED then (0 : Int) else chosen) = -EPERM := by
    rcases hch with h | h
    · left; rw [if_pos h]
    · right; rw [h]; decide
  have hback : (if (if chosen = SHUTDOWN_STARTED then (0 : Int) else chosen) = 0
      then SHUTDOWN_STARTED
      else (if chosen = SHUTDOWN_STARTED then (0 : Int) else chosen)) = chosen := by
    rcases hch with h | h
    · rw [h]; decide
    · rw [h]; decide
  refine ⟨_, _, tr, hres, ?_, ?_, hr, ?_, ?_, ?_, rfl, ?_⟩
  · intro h
    have hc := hpass h
    exact ⟨by rw [if_pos hc], by rw [htr1 hc], by rw [htr1 hc]⟩
  · intro h
    have hc := hrefuse h
    obtain ⟨t1, t2⟩ := htr2 hc
    exact ⟨by rw [hc]; decide, t2, by rw [t1], by rw [t1]⟩
  · simp only [if_true]
  · intro y hy hiny
    simp only [if_neg hy, (mem_for_each_cpu _ _).2 hiny, if_true]
    exact hback.symm
  · intro x
    simp only
    by_cases hx : x = cpu
    · rw [if_pos hx]
    · rw [if_neg hx]
      by_cases hm : x ∈ for_each_cpu s.root_cell.cpu_set
      · rw [if_pos hm]
      · rw [if_neg hm]
  · intro y fuel' hy hiny hrooty
    have hsy : chosen ≠ SHUTDOWN_NONE := by
      rcases hch with h | h
      · rw [h]; decide
      · rw [h]; decide
    have hl := shutdown_later env fuel' y
      { s with
        cells := l', suspended := susp,
        per_cpu := fun x =>
          if x = cpu then { s.per_cpu x with shutdown_state := SHUTDOWN_NONE }
          else if x ∈ for_each_cpu s.root_cell.cpu_set then
            { s.per_cpu x with shutdown_state := chosen }
          else s.per_cpu x }
      (by simp only [if_neg hy, (mem_for_each_cpu _ _).2 hiny, if_true]; exact hrooty)
      (by simp only [if_neg hy, (mem_for_each_cpu _ _).2 hiny, if_true]; exact hsy)
    simp only [if_neg hy, (mem_for_each_cpu _ _).2 hiny, if_true] at hl
    refine ⟨_, hl, ?_, ?_, rfl, rfl, rfl, rfl⟩
    · simp only [set_shutdown_state, if_true]
    · intro x hx
      simp only [set_shutdown_state, if_neg hx]

/-- Witness for C16: with "guestA" on CPUs 2 and 3, CPU 0 is the first
arriver.  A guest that consents lets `shutdown` return 0 with CPUs 2 and 3
shut down; a guest that refuses makes it return `-EPERM` with nothing shut
down. -/
theorem C16_witness :
    (∃ st tr, shutdown (scenario_env scenario_guest_config 2) 1 0 scenario_state_with_guest =
        some (0, st, tr) ∧ tr.cpus_shut_down = [2, 3] ∧ tr.hypervisor_shut_down = true) ∧
    (∃ st tr, shutdown (scenario_env scenario_guest_config 1) 1 0 scenario_state_with_guest =
        some (-EPERM, st, tr) ∧ tr.cpus_shut_down = [] ∧ tr.hypervisor_shut_down = false ∧
        st.suspended = scenario_state_with_guest.suspended) := by
  have hcells : scenario_state_with_guest.cells = [scenario_guest_cell] := rfl
  constructor
  · have hpass : ∀ c ∈ scenario_state_with_guest.cells,
        ∃ c1, cell_shutdown_ok (scenario_env scenario_guest_config 2) 1 c = some (true, c1) := by
      intro c hc
      rw [hcells, List.mem_singleton] at hc
      subst hc
      exact ⟨_, rfl⟩
    obtain ⟨r, st, tr, h, h1, _⟩ :=
      (C16_shutdown_handshake (scenario_env scenario_guest_config 2) 1 0
        scenario_state_with_guest (by decide) (by decide) (by decide)).2
        (fun c hc => ⟨true, hpass c hc⟩)
    obtain ⟨e1, e2, e3⟩ := h1 hpass
    subst e1
    exact ⟨st, tr, h, e2.trans (by decide), e3⟩
  · have hden : ∀ c ∈ scenario_state_with_guest.cells,
        ∃ c1, cell_shutdown_ok (scenario_env scenario_guest_config 1) 1 c = some (false, c1) := by
      intro c hc
      rw [hcells, List.mem_singleton] at hc
      subst hc
      exact ⟨_, rfl⟩
    obtain ⟨r, st, tr, h, _, h2, _⟩ :=
      (C16_shutdown_handshake (scenario_env scenario_guest_config 1) 1 0
        scenario_state_with_guest (by decide) (by decide) (by decide)).2
        (fun c hc => ⟨false, hden c hc⟩)
    obtain ⟨e1, e2, e3, e4⟩ := h2 ⟨scenario_guest_cell, by rw [hcells]; simp,
      hden scenario_guest_cell (by rw [hcells]; simp)⟩
    subst e1
    exact ⟨st, tr, h, e3, e4, e2⟩

/-- C16 (counterexample): "guestA" and "guestB" are chained behind the root
cell and CPU 0 of the root cell is the first arriver of `shutdown`.  The
guest of "guestA" refuses at once, the guest of "guestB" does not answer.
The first loop of `shutdown` goes on asking after the refusal, so the call
does not return `-EPERM`: it spins on "guestB", whatever the number of rounds
it is given. -/
theorem C16_counterexample :
    scenario_state_two_guests.cells.map (fun c => c.config.name) = ["guestA", "guestB"] ∧
    (scenario_state_two_guests.per_cpu 0).cell = scenario_state_two_guests.root_cell.id ∧
    scenario_state_two_guests.root_cell.cpu_set.contains 0 = true ∧
    (scenario_state_two_guests.per_cpu 0).shutdown_state = SHUTDOWN_NONE ∧
    (∃ c ∈ scenario_state_two_guests.cells, ∃ c1,
      cell_shutdown_ok deny_and_silent_env 1 c = some (false, c1)) ∧
    ∀ fuel, shutdown deny_and_silent_env fuel 0 scenario_state_two_guests = none := by
  have hcells : scenario_state_two_guests.cells = [scenario_guest_cell, scenario_guest_b_cell] :=
    rfl
  refine ⟨by decide, by decide, by decide, by decide,
    ⟨scenario_guest_cell, by rw [hcells]; simp, _, rfl⟩, ?_⟩
  intro fuel
  have hb : cell_shutdown_ok deny_and_silent_env fuel scenario_guest_b_cell = none :=
    cell_shutdown_ok_silent deny_and_silent_env fuel scenario_guest_b_cell (by decide)
      (fun n x => by
        show (if (2 : Nat) = 1 ∧ n = 0 then
          jailhouse_send_reply_from_cell x JAILHOUSE_MSG_SHUTDOWN_DENIED else x) = x
        rw [if_neg (by omega)]) (by decide) (by decide)
  have hask := shutdown_ask_none deny_and_silent_env fuel scenario_state_two_guests.cells
    SHUTDOWN_STARTED ⟨scenario_guest_b_cell, by rw [hcells]; simp, hb⟩
  unfold shutdown
  rw [if_neg (by decide), if_pos (by decide)]
  unfold shutdown_first
  rw [hask]
  rfl

/-! ## Root-only management -/

/-- C17: for a caller whose `per_cpu.cell` is not the root cell,
`cell_create`, `cell_destroy`, `cell_get_state` and `shutdown` return `-EPERM`
and leave the state as it is: no CPU is suspended, no comm region written, no
CPU set, list or page table touched; `shutdown` does not take the lock and
makes no call into the arch layer.  `cell_destroy` and `shutdown` return at
once, whatever the guests do. -/
theorem C17_root_only_management (env : Env) (fuel cpu addr id : Nat) (s : State)
    (h : (s.per_cpu cpu).cell ≠ s.root_cell.id) :
    cell_create env cpu addr s = (-EPERM, s) ∧
    cell_destroy env fuel cpu id s = some (-EPERM, s) ∧
    cell_get_state cpu id s = (-EPERM, s) ∧
    shutdown env fuel cpu s =
      some (-EPERM, s,
        { lock_taken := false, cpus_shut_down := [], hypervisor_shut_down := false }) := by
  refine ⟨cell_create_eperm env cpu addr s h, cell_destroy_eperm env fuel cpu id s h, ?_, ?_⟩
  · unfold cell_get_state
    rw [if_pos h]
  · unfold shutdown
    rw [if_pos h]

/-- Witness for C17: CPU 2 belongs to "guestA"; its calls are refused, also
with no fuel for a spin loop. -/
theorem C17_witness :
    (scenario_state_with_guest.per_cpu 2).cell ≠ scenario_state_with_guest.root_cell.id ∧
    (cell_create (scenario_env scenario_second_config 2) 2 0x6000
      scenario_state_with_guest).1 = -EPERM ∧
    (cell_destroy (scenario_env scenario_guest_config 2) 0 2 1
      scenario_state_with_guest).map Prod.fst = some (-EPERM) ∧
    (cell_get_state 2 1 scenario_state_with_guest).1 = -EPERM ∧
    (shutdown (scenario_env scenario_guest_config 2) 0 2
      scenario_state_with_guest).map Prod.fst = some (-EPERM) := by
  have h := C17_root_only_management (scenario_env scenario_guest_config 2) 0 2 0x6000 1
    scenario_state_with_guest (by decide)
  have h' := C17_root_only_management (scenario_env scenario_second_config 2) 0 2 0x6000 1
    scenario_state_with_guest (by decide)
  refine ⟨by decide, ?_, ?_, ?_, ?_⟩
  · rw [h'.1]
  · rw [h.2.1]; rfl
  · rw [h.2.2.1]
  · rw [h.2.2.2]; rfl

/-! ## The registry -/

theorem shutdown_spin_round (pairs : Nat → Nat × Nat) (fuel t : Nat) :
    shutdown_spin (round_loads pairs) (fuel + 1) (4 * t) =
      if (pairs t).1 = JAILHOUSE_MSG_SHUTDOWN_DENIED then some (false, 4 * t)
      else if (pairs t).1 = JAILHOUSE_MSG_SHUTDOWN_OK then some (true, 4 * t + 1)
      else if (pairs t).2 = JAILHOUSE_CELL_SHUT_DOWN then some (true, 4 * t + 2)
      else if (pairs t).2 = JAILHOUSE_CELL_FAILED then some (true, 4 * t + 3)
      else shutdown_spin (round_loads pairs) fuel (4 * (t + 1)) := by
  have h0 : 4 * t / 4 = t := by omega
  have h1 : (4 * t + 1) / 4 = t := by omega
  have h2 : (4 * t + 2) / 4 = t := by omega
  have h3 : (4 * t + 3) / 4 = t := by omega
  have h4 : 4 * t + 4 = 4 * (t + 1) := by omega
  simp only [shutdown_spin, round_loads, h0, h1, h2, h3, h4]

/-- The spin loop leaves in the first decisive round, with false exactly for
a DENIED reply; its last load is one of that round. -/
theorem shutdown_spin_decides (pairs : Nat → Nat × Nat) (r : Nat)
    (hd : decisive (pairs r)) :
    ∀ (fuel t : Nat), t ≤ r → (∀ j, t ≤ j → j < r → ¬ decisive (pairs j)) → r < t + fuel →
      ∃ k, k / 4 = r ∧
        shutdown_spin (round_loads pairs) fuel (4 * t) =
          some (decide ((pairs r).1 ≠ JAILHOUSE_MSG_SHUTDOWN_DENIED), k) := by
  intro fuel
  induction fuel with
  | zero => intro t h1 _ h3; omega
  | succ n ih =>
    intro t h1 h2 h3
    rw [shutdown_spin_round]
    by_cases htr : t = r
    · subst htr
      by_cases hden : (pairs t).1 = JAILHOUSE_MSG_SHUTDOWN_DENIED
      · rw [if_pos hden]
        exact ⟨4 * t, by omega, by simp [hden]⟩
      · rw [if_neg hden]
        by_cases c1 : (pairs t).1 = JAILHOUSE_MSG_SHUTDOWN_OK
        · rw [if_pos c1]
          exact ⟨4 * t + 1, by omega, by simp [hden]⟩
        rw [if_neg c1]
        by_cases c2 : (pairs t).2 = JAILHOUSE_CELL_SHUT_DOWN
        · rw [if_pos c2]
          exact ⟨4 * t + 2, by omega, by simp [hden]⟩
        rw [if_neg c2]
        have c3 : (pairs t).2 = JAILHOUSE_CELL_FAILED := by
          rcases hd with h | h | h | h
          · exact absurd h hden
          · exact absurd h c1
          · exact absurd h c2
          · exact h
        rw [if_pos c3]
        exact ⟨4 * t + 3, by omega, by simp [hden]⟩
    · have hnd : ¬ decisive (pairs t) := h2 t (le_refl t) (by omega)
      unfold decisive at hnd
      rw [if_neg (fun h => hnd (Or.inl h)), if_neg (fun h => hnd (Or.inr (Or.inl h))),
        if_neg (fun h => hnd (Or.inr (Or.inr (Or.inl h)))),
        if_neg (fun h => hnd (Or.inr (Or.inr (Or.inr h))))]
      exact ih (t + 1) (by omega) (fun j hj1 hj2 => h2 j (by omega) hj2) (by omega)

/-- Without a decisive round the loop is still spinning. -/
theorem shutdown_spin_spins (pairs : Nat → Nat × Nat) :
    ∀ (fuel t : Nat), (∀ j, t ≤ j → j < t + fuel → ¬ decisive (pairs j)) →
      shutdown_spin (round_loads pairs) fuel (4 * t) = none := by
  intro fuel
  induction fuel with
  | zero => intro t _; rfl
  | succ n ih =>
    intro t h
    rw [shutdown_spin_round]
    have hnd : ¬ decisive (pairs t) := h t (le_refl t) (by omega)
    unfold decisive at hnd
    rw [if_neg (fun h => hnd (Or.inl h)), if_neg (fun h => hnd (Or.inr (Or.inl h))),
      if_neg (fun h => hnd (Or.inr (Or.inr (Or.inl h)))),
      if_neg (fun h => hnd (Or.inr (Or.inr (Or.inr h))))]
    exact ih (t + 1) (fun j hj1 hj2 => h j (by omega) (by omega))

/-- C20: `cell_shutdown_ok` returns true at once, without a load and without
a store, for a cell whose configuration has UNMANAGED_EXIT.  Otherwise it
stores MSG_NONE in `reply_from_cell` and MSG_SHUTDOWN_REQUESTED in
`msg_to_cell` before the first load (the region the guest acts on first is
the one with these two stores, and the region returned is the one of some
load) and spins over the observed pairs `(reply_from_cell, cell_state)`: it
returns in the first round whose pair has a reply DENIED or OK or a cell state
SHUT_DOWN or FAILED, with false exactly when the reply is DENIED, and it is
still spinning as long as no such pair was seen.  What `reply_from_cell` and
`msg_to_cell` held before the request does not enter the result: the call on
a cell whose comm region differs in these two words gives the same answer and
the same comm region; in particular a stale reply, whatever its value, in the
comm region of a cell that is neither shut down nor failed and whose guest
stays silent never ends the loop. -/
theorem C20_cooperative_shutdown (env : Env) (fuel : Nat) (c : cell) :
    (c.config.flags &&& JAILHOUSE_CELL_UNMANAGED_EXIT ≠ 0 →
      cell_shutdown_ok env fuel c = some (true, c)) ∧
    (c.config.flags &&& JAILHOUSE_CELL_UNMANAGED_EXIT = 0 →
      comm_at (jailhouse_send_msg_to_cell c.comm_region JAILHOUSE_MSG_SHUTDOWN_REQUESTED)
          (env.guest c.id) 0 =
        env.guest c.id 0
          { msg_to_cell := JAILHOUSE_MSG_SHUTDOWN_REQUESTED,
            reply_from_cell := JAILHOUSE_MSG_NONE,
            cell_state := c.comm_region.cell_state } ∧
      (∀ b c1, cell_shutdown_ok env fuel c = some (b, c1) →
        ∃ k, c1.comm_region =
            comm_at (jailhouse_send_msg_to_cell c.comm_region JAILHOUSE_MSG_SHUTDOWN_REQUESTED)
              (env.guest c.id) k ∧
          c1 = { c with comm_region := c1.comm_region }) ∧
      (∀ (pairs : Nat → Nat × Nat) (r : Nat),
        comm_loads (jailhouse_send_msg_to_cell c.comm_region JAILHOUSE_MSG_SHUTDOWN_REQUESTED)
          (env.guest c.id) = round_loads pairs →
        decisive (pairs r) → (∀ j, j < r → ¬ decisive (pairs j)) → r < fuel →
        ∃ c1, cell_shutdown_ok env fuel c =
            some (decide ((pairs r).1 ≠ JAILHOUSE_MSG_SHUTDOWN_DENIED), c1) ∧
          c1.comm_region.reply_from_cell = (pairs r).1 ∧
          c1.comm_region.cell_state = (pairs r).2) ∧
      (∀ (pairs : Nat → Nat × Nat),
        comm_loads (jailhouse_send_msg_to_cell c.comm_region JAILHOUSE_MSG_SHUTDOWN_REQUESTED)
          (env.guest c.id) = round_loads pairs →
        (∀ j, j < fuel → ¬ decisive (pairs j)) → cell_shutdown_ok env fuel c = none) ∧
      (∀ stale msg : Nat,
        cell_shutdown_ok env fuel
          { c with comm_region :=
            { c.comm_region with msg_to_cell := msg, reply_from_cell := stale } } =
          cell_shutdown_ok env fuel c) ∧
      (∀ stale msg : Nat, (∀ n x, env.guest c.id n x = x) →
        c.comm_region.cell_state ≠ JAILHOUSE_CELL_SHUT_DOWN →
        c.comm_region.cell_state ≠ JAILHOUSE_CELL_FAILED →
        cell_shutdown_ok env fuel
          { c with comm_region :=
            { c.comm_region with msg_to_cell := msg, reply_from_cell := stale } } = none)) := by
  constructor
  · intro h
    unfold cell_shutdown_ok
    rw [if_pos h]
  · intro h
    have hn : ¬ c.config.flags &&& JAILHOUSE_CELL_UNMANAGED_EXIT ≠ 0 := not_not.2 h
    have hstale : ∀ stale msg : Nat,
        cell_shutdown_ok env fuel
          { c with comm_region :=
            { c.comm_region with msg_to_cell := msg, reply_from_cell := stale } } =
          cell_shutdown_ok env fuel c := by
      intro stale msg
      unfold cell_shutdown_ok
      rw [if_neg hn, if_neg hn]
      rfl
    refine ⟨rfl, ?_, ?_, ?_, hstale, ?_⟩
    · intro b c1 hr
      unfold cell_shutdown_ok at hr
      rw [if_neg hn] at hr
      simp only at hr
      cases hs : shutdown_spin (comm_loads (jailhouse_send_msg_to_cell c.comm_region
          JAILHOUSE_MSG_SHUTDOWN_REQUESTED) (env.guest c.id)) fuel 0 with
      | none => rw [hs] at hr; cases hr
      | some p =>
        rw [hs] at hr
        simp only [Option.map_some', Option.some.injEq, Prod.mk.injEq] at hr
        rw [← hr.2]
        exact ⟨p.2, rfl, rfl⟩
    · intro pairs r hg hd hfirst hr
      obtain ⟨k, hk, hs⟩ := shutdown_spin_decides pairs r hd fuel 0 (Nat.zero_le r)
        (fun j _ hj => hfirst j hj) (by omega)
      simp only [Nat.mul_zero] at hs
      have hl := congrFun hg k
      simp only [comm_loads, round_loads, hk, Prod.ext_iff] at hl
      unfold cell_shutdown_ok
      rw [if_neg hn]
      simp only [hg, hs, Option.map_some']
      exact ⟨_, rfl, hl.1, hl.2⟩
    · intro pairs hg hnone
      unfold cell_shutdown_ok
      rw [if_neg hn]
      have := shutdown_spin_spins pairs fuel 0 (fun j _ hj => hnone j (by omega))
      simp only [Nat.mul_zero] at this
      simp only [hg, this, Option.map_none']
    · intro stale msg hsilent h2 h3
      rw [hstale]
      exact cell_shutdown_ok_silent env fuel c h hsilent h2 h3

/-- Witness for C20: the comm region of "guestA" holds a stale OK and the
guest stays silent: the loop is still spinning after five rounds.  When the
guest sends DENIED before the seventh load the call returns false. -/
theorem C20_witness :
    scenario_guest_cell.config.flags &&& JAILHOUSE_CELL_UNMANAGED_EXIT = 0 ∧
    cell_shutdown_ok
      { scenario_env scenario_guest_config 2 with guest := fun _ _ comm => comm }
      5
      { scenario_guest_cell with comm_region :=
        { scenario_guest_cell.comm_region with
          msg_to_cell := 0, reply_from_cell := JAILHOUSE_MSG_SHUTDOWN_OK } } =
      none ∧
    (cell_shutdown_ok
      { scenario_env scenario_guest_config 2 with
        guest := fun _ n comm =>
          if n = 6 then jailhouse_send_reply_from_cell comm JAILHOUSE_MSG_SHUTDOWN_DENIED
          else comm }
      5
      { scenario_guest_cell with comm_region :=
        { msg_to_cell := 0, reply_from_cell := JAILHOUSE_MSG_SHUTDOWN_OK,
          cell_state := 0 } }).map (fun r => (r.1, r.2.comm_region)) =
      some (false, { msg_to_cell := JAILHOUSE_MSG_NONE,
                     reply_from_cell := JAILHOUSE_MSG_SHUTDOWN_DENIED, cell_state := 0 }) :=
  ⟨by decide,
   ((C20_cooperative_shutdown
      { scenario_env scenario_guest_config 2 with guest := fun _ _ comm => comm }
      5 scenario_guest_cell).2 (by decide)).2.2.2.2.2
      JAILHOUSE_MSG_SHUTDOWN_OK 0 (fun _ _ => rfl) (by decide) (by decide),
   by decide⟩

/-! ## Register fields -/

theorem ffs_loop_spec (x : Nat) :
    ∀ (fuel i : Nat), (∃ j, i ≤ j ∧ j < i + fuel ∧ x.testBit j = true) →
      ∃ s, ffs_loop x fuel i = s + 1 ∧ i ≤ s ∧ s < i + fuel ∧ x.testBit s = true ∧
        ∀ j, i ≤ j → j < s → x.testBit j = false := by
  intro fuel
  induction fuel with
  | zero => rintro i ⟨j, h1, h2, _⟩; omega
  | succ n ih =>
    rintro i ⟨j, h1, h2, h3⟩
    simp only [ffs_loop]
    by_cases hi : x.testBit i = true
    · rw [if_pos hi]
      exact ⟨i, rfl, le_refl _, by omega, hi, fun j a b => by omega⟩
    · rw [if_neg hi]
      have hji : j ≠ i := fun e => hi (e ▸ h3)
      obtain ⟨s, e, s1, s2, s3, s4⟩ := ih (i + 1) ⟨j, by omega, by omega, h3⟩
      refine ⟨s, e, by omega, by omega, s3, ?_⟩
      intro k k1 k2
      by_cases hk : k = i
      · subst hk; simpa using hi
      · exact s4 k (by omega) k2

/-- The lowest set bit of a non-zero word of `w` bits. -/
theorem ffs_loop_word (x w : Nat) (hx : x < 2 ^ w) (h0 : x ≠ 0) :
    ∃ s, ffs_loop x w 0 = s + 1 ∧ s < w ∧ x.testBit s = true ∧
      ∀ j, j < s → x.testBit j = false := by
  obtain ⟨j, hj⟩ := Nat.ne_zero_implies_bit_true h0
  have hjw : j < w := by
    by_contra hge
    have : x < 2 ^ j := lt_of_lt_of_le hx (Nat.pow_le_pow_right (by norm_num) (by omega))
    rw [Nat.testBit_lt_two_pow this] at hj
    cases hj
  obtain ⟨s, e, _, s2, s3, s4⟩ := ffs_loop_spec x w 0 ⟨j, Nat.zero_le _, by omega, hj⟩
  exact ⟨s, e, by omega, s3, fun k hk => s4 k (Nat.zero_le _) hk⟩

/-- The update of a field in a word of `w` bits. -/
theorem field_update (w old mask value s : Nat) (hold : old < 2 ^ w) (hm : mask < 2 ^ w) :
    ((old &&& (2 ^ w - 1 - mask)) ||| (((value <<< s) % 2 ^ w) &&& mask)) < 2 ^ w ∧
    (∀ i, mask.testBit i = false →
      ((old &&& (2 ^ w - 1 - mask)) ||| (((value <<< s) % 2 ^ w) &&& mask)).testBit i =
        old.testBit i) ∧
    ((old &&& (2 ^ w - 1 - mask)) ||| (((value <<< s) % 2 ^ w) &&& mask)) &&& mask =
      (value <<< s) &&& mask := by
  have hc : 2 ^ w - 1 - mask = 2 ^ w - (mask + 1) := by omega
  have hhigh : ∀ (x : Nat), x < 2 ^ w → ∀ i, w ≤ i → x.testBit i = false := by
    intro x hx i hi
    exact Nat.testBit_lt_two_pow (lt_of_lt_of_le hx (Nat.pow_le_pow_right (by norm_num) hi))
  refine ⟨?_, ?_, ?_⟩
  · apply Nat.lt_pow_two_of_testBit
    intro i hi
    simp only [Nat.testBit_or, Nat.testBit_and, hhigh old hold i hi, hhigh mask hm i hi,
      Bool.false_and, Bool.and_false, Bool.or_false]
  · intro i hi
    simp only [Nat.testBit_or, Nat.testBit_and, hc, Nat.testBit_two_pow_sub_succ hm, hi,
      Bool.not_false, Bool.and_true, Bool.and_false, Bool.or_false]
    by_cases hiw : i < w
    · simp [hiw]
    · simp [hiw, hhigh old hold i (by omega)]
  · apply Nat.eq_of_testBit_eq
    intro i
    simp only [Nat.testBit_or, Nat.testBit_and, hc, Nat.testBit_two_pow_sub_succ hm,
      Nat.testBit_mod_two_pow]
    cases hmi : mask.testBit i
    · simp
    · have hiw : i < w := by
        by_contra hge
        rw [hhigh mask hm i (by omega)] at hmi
        cases hmi
      simp [hiw]

/-- The lowest set bit of a mask that is a run of `n` bits from position `s`
on is `s`. -/
theorem run_lowest_bit (mask s n t : Nat) (hn : 0 < n) (hmask : mask = (2 ^ n - 1) <<< s)
    (ht : mask.testBit t = true) (hlow : ∀ j, j < t → mask.testBit j = false) : t = s := by
  have hs : mask.testBit s = true := by
    rw [hmask]
    simp [hn]
  have hbelow : ∀ j, j < s → mask.testBit j = false := by
    intro j hj
    rw [hmask]
    simp [Nat.not_le.2 hj]
  by_contra hne
  rcases Nat.lt_or_gt_of_ne hne with h | h
  · rw [hbelow t h] at ht
    cases ht
  · rw [hlow s h] at hs
    cases hs

/-- Reading a field back. -/
theorem field_round_trip (mask s n value new : Nat) (hmask : mask = (2 ^ n - 1) <<< s)
    (hv : value < 2 ^ n) (hnew : new &&& mask = (value <<< s) &&& mask) :
    (new &&& mask) >>> s = value := by
  rw [hnew, hmask]
  apply Nat.eq_of_testBit_eq
  intro j
  simp only [Nat.testBit_shiftRight, Nat.testBit_and, Nat.testBit_shiftLeft,
    Nat.testBit_two_pow_sub_one, ge_iff_le, Nat.le_add_right, decide_True, Bool.true_and,
    Nat.add_sub_cancel_left]
  by_cases hj : j < n
  · simp [hj]
  · have : value.testBit j = false :=
      Nat.testBit_lt_two_pow (lt_of_lt_of_le hv (Nat.pow_le_pow_right (by norm_num) (by omega)))
    simp [hj, this]

/-- C21: for a non-zero mask of 32 bits, `mmio_write32_field` shifts the
value by the index `s` of the lowest set bit of the mask, leaves every bit of
the register outside the mask as it was and makes the masked bits those of
`(value << s) & mask`; no other register changes.  When the mask is a run of
`n` bits and the value is below `2^n`, `mmio_read32_field` with the same mask
then returns the value.  The same holds for `mmio_write64_field` and
`mmio_read64_field` with masks of 64 bits, `long` having 64 bits. -/
theorem C21_register_field_update (regs : Nat → Nat) (addr mask value : Nat)
    (hm0 : mask ≠ 0) :
    (mask < 2 ^ 32 →
      ∃ s new, mmio_write32_field regs addr mask value = some new ∧
        builtin_ffs mask = s + 1 ∧ mask.testBit s = true ∧
        (∀ j, j < s → mask.testBit j = false) ∧
        (∀ a, a ≠ addr → new a = regs a) ∧
        (∀ i, mask.testBit i = false →
          (mmio_read32 new addr).testBit i = (mmio_read32 regs addr).testBit i) ∧
        mmio_read32 new addr &&& mask = (value <<< s) &&& mask ∧
        (∀ n t, 0 < n → mask = (2 ^ n - 1) <<< t → value < 2 ^ n →
          mmio_read32_field new addr mask = some value)) ∧
    (mask < 2 ^ 64 →
      ∃ s new, mmio_write64_field regs addr mask value = some new ∧
        builtin_ffsl mask = s + 1 ∧ mask.testBit s = true ∧
        (∀ j, j < s → mask.testBit j = false) ∧
        (∀ a, a ≠ addr → new a = regs a) ∧
        (∀ i, mask.testBit i = false →
          (mmio_read64 new addr).testBit i = (mmio_read64 regs addr).testBit i) ∧
        mmio_read64 new addr &&& mask = (value <<< s) &&& mask ∧
        (∀ n t, 0 < n → mask = (2 ^ n - 1) <<< t → value < 2 ^ n →
          mmio_read64_field new addr mask = some value)) := by
  constructor
  · intro hm
    obtain ⟨s, e, _, hs, hlow⟩ := ffs_loop_word mask 32 hm hm0
    have hffs : builtin_ffs mask = s + 1 := by
      unfold builtin_ffs
      rw [Nat.mod_eq_of_lt hm]
      exact e
    obtain ⟨u1, u2, u3⟩ :=
      field_update 32 (mmio_read32 regs addr) mask value s (Nat.mod_lt _ (by norm_num)) hm
    have hread : mmio_read32 (mmio_write32 regs addr
        ((mmio_read32 regs addr &&& (2 ^ 32 - 1 - mask)) |||
          (((value <<< s) % 2 ^ 32) &&& mask))) addr =
        (mmio_read32 regs addr &&& (2 ^ 32 - 1 - mask)) |||
          (((value <<< s) % 2 ^ 32) &&& mask) := by
      simp only [mmio_read32, mmio_write32, if_true, Nat.mod_mod]
      exact Nat.mod_eq_of_lt u1
    refine ⟨s, mmio_write32 regs addr
        ((mmio_read32 regs addr &&& (2 ^ 32 - 1 - mask)) |||
          (((value <<< s) % 2 ^ 32) &&& mask)), ?_, hffs, hs, hlow, ?_, ?_, ?_, ?_⟩
    · unfold mmio_write32_field
      rw [hffs, if_neg (by omega), Nat.add_sub_cancel]
    · intro a ha
      simp only [mmio_write32, if_neg ha]
    · intro i hi
      rw [hread]
      exact u2 i hi
    · rw [hread]
      exact u3
    · intro n t hn hmask hv
      have hts : s = t := run_lowest_bit mask t n s hn hmask hs hlow
      unfold mmio_read32_field
      rw [hffs, if_neg (by omega), Nat.add_sub_cancel, hread,
        field_round_trip mask s n value _ (by rw [hts]; exact hmask) hv u3]
  · intro hm
    have h64 : 8 * SIZEOF_LONG = 64 := by decide
    obtain ⟨s, e, _, hs, hlow⟩ := ffs_loop_word mask 64 hm hm0
    have hffs : builtin_ffsl mask = s + 1 := by
      unfold builtin_ffsl
      rw [h64, Nat.mod_eq_of_lt hm]
      exact e
    obtain ⟨u1, u2, u3⟩ :=
      field_update 64 (mmio_read64 regs addr) mask value s (Nat.mod_lt _ (by norm_num)) hm
    have hread : mmio_read64 (mmio_write64 regs addr
        ((mmio_read64 regs addr &&& (2 ^ 64 - 1 - mask)) |||
          (((value <<< s) % 2 ^ 64) &&& mask))) addr =
        (mmio_read64 regs addr &&& (2 ^ 64 - 1 - mask)) |||
          (((value <<< s) % 2 ^ 64) &&& mask) := by
      simp only [mmio_read64, mmio_write64, if_true, Nat.mod_mod]
      exact Nat.mod_eq_of_lt u1
    refine ⟨s, mmio_write64 regs addr
        ((mmio_read64 regs addr &&& (2 ^ 64 - 1 - mask)) |||
          (((value <<< s) % 2 ^ 64) &&& mask)), ?_, hffs, hs, hlow, ?_, ?_, ?_, ?_⟩
    · unfold mmio_write64_field
      rw [hffs, if_neg (by omega), Nat.add_sub_cancel]
    · intro a ha
      simp only [mmio_write64, if_neg ha]
    · intro i hi
      rw [hread]
      exact u2 i hi
    · rw [hread]
      exact u3
    · intro n t hn hmask hv
      have hts : s = t := run_lowest_bit mask t n s hn hmask hs hlow
      unfold mmio_read64_field
      rw [hffs, if_neg (by omega), Nat.add_sub_cancel, hread,
        field_round_trip mask s n value _ (by rw [hts]; exact hmask) hv u3]

/-- Witness for C21: the field of four bits at position 8 of a register that
holds 0xffff0000 is set to 5; the register holds 0xffff0500 and the field
reads 5. -/
theorem C21_witness :
    (0xf00 : Nat) ≠ 0 ∧
    (mmio_write32_field (fun _ => 0xffff0000) 0x10 0xf00 5).map (fun regs => regs 0x10) =
      some 0xffff0500 ∧
    ∃ new, mmio_write32_field (fun _ => 0xffff0000) 0x10 0xf00 5 = some new ∧
      mmio_read32_field new 0x10 0xf00 = some 5 := by
  obtain ⟨s, new, h1, _, _, _, _, _, _, h8⟩ :=
    (C21_register_field_update (fun _ => 0xffff0000) 0x10 0xf00 5 (by decide)).1 (by decide)
  exact ⟨by decide, by decide, new, h1, h8 4 8 (by decide) (by decide) (by decide)⟩

/-! ## The CPU iteration -/

/-- An exception in the range of `int` excludes exactly itself among the
ids below the cap. -/
theorem exception_toNat (set : cpu_set) (exception : Int) (c : Nat)
    (h1 : -(2 ^ 31) ≤ exception) (h2 : exception < 2 ^ 31) (hc : c ≤ set.max_cpu_id + 1) :
    c ≠ (exception % 2 ^ 32).toNat ↔ (c : Int) ≠ exception := by
  have hmax := max_cpu_id_lt set
  by_cases h0 : 0 ≤ exception
  · rw [Int.emod_eq_of_lt h0 (by omega)]
    constructor
    · intro h e
      apply h
      rw [← e]
      rfl
    · intro h e
      apply h
      rw [e]
      exact Int.toNat_of_nonneg h0
  · have hm : exception % 2 ^ 32 = exception + 2 ^ 32 := by
      rw [← Int.add_emod_self]
      exact Int.emod_eq_of_lt (by omega) (by omega)
    rw [hm]
    constructor
    · intro _ e
      omega
    · intro _ e
      have : ((exception + 2 ^ 32).toNat : Int) = exception + 2 ^ 32 :=
        Int.toNat_of_nonneg (by omega)
      rw [← e] at this
      omega

/-- A start behind the cap: the loop leaves at once. -/
theorem next_cpu_loop_out (set : cpu_set) (exception : Int) (fuel cpu : Nat)
    (h : set.max_cpu_id < (cpu + 1) % 2 ^ 32) :
    next_cpu_loop set exception (fuel + 1) cpu = (cpu + 1) % 2 ^ 32 := by
  simp only [next_cpu_loop]
  rw [if_neg (fun hc => absurd hc.1 (by omega))]

/-- The result of `next_cpu` for every start. -/
theorem next_cpu_loop_total (set : cpu_set) (exception : Int) (fuel cpu : Nat)
    (hf : set.max_cpu_id + 2 ≤ fuel) :
    (cpu + 1) % 2 ^ 32 ≤ next_cpu_loop set exception fuel cpu ∧
    (next_cpu_loop set exception fuel cpu ≤ set.max_cpu_id →
      cpu_accepted set exception (next_cpu_loop set exception fuel cpu)) ∧
    (∀ j, (cpu + 1) % 2 ^ 32 ≤ j → j < next_cpu_loop set exception fuel cpu →
      j ≤ set.max_cpu_id ∧ ¬ cpu_accepted set exception j) ∧
    (set.max_cpu_id < next_cpu_loop set exception fuel cpu →
      next_cpu_loop set exception fuel cpu = max ((cpu + 1) % 2 ^ 32) (set.max_cpu_id + 1)) := by
  by_cases ha : (cpu + 1) % 2 ^ 32 ≤ set.max_cpu_id + 1
  · obtain ⟨r1, r2, r3, r4⟩ := next_cpu_loop_spec set exception fuel cpu _ rfl ha (by omega)
    refine ⟨r1, r3, fun j hj1 hj2 => ⟨by omega, r4 j hj1 hj2⟩, ?_⟩
    intro h
    rw [max_eq_right ha]
    omega
  · obtain ⟨n, hn⟩ : ∃ n, fuel = n + 1 := ⟨fuel - 1, by omega⟩
    subst hn
    rw [next_cpu_loop_out set exception n cpu (by omega)]
    refine ⟨le_refl _, fun h => by omega, fun j h1 h2 => by omega, ?_⟩
    intro _
    rw [max_eq_left (by omega)]

theorem next_cpu_loop_fuel (set : cpu_set) (exception : Int) (fuel cpu : Nat)
    (hf : set.max_cpu_id + 2 ≤ fuel) :
    next_cpu_loop set exception fuel cpu = next_cpu cpu set exception := by
  unfold next_cpu
  obtain ⟨a1, a2, a3, a4⟩ := next_cpu_loop_total set exception fuel cpu hf
  obtain ⟨b1, b2, b3, b4⟩ :=
    next_cpu_loop_total set exception (set.max_cpu_id + 2) cpu (le_refl _)
  by_contra hne
  rcases Nat.lt_or_gt_of_ne hne with hlt | hgt
  · have h := b3 _ a1 hlt
    exact h.2 (a2 h.1)
  · have h := a3 _ b1 hgt
    exact h.2 (b2 h.1)

/-- The ids visited by the iteration ascend strictly. -/
theorem for_each_cpu_loop_ascending (set : cpu_set) (exception : Int) :
    ∀ (fuel cpu a : Nat), a = (cpu + 1) % 2 ^ 32 → a ≤ set.max_cpu_id + 1 →
      set.max_cpu_id + 2 ≤ fuel + a →
      (for_each_cpu_loop set exception fuel cpu).Pairwise (fun x y => x < y) := by
  intro fuel
  induction fuel with
  | zero => intro cpu a _ h1 h2; omega
  | succ n ih =>
    intro cpu a ha h1 h2
    have hmax := max_cpu_id_lt set
    obtain ⟨r1, _, _, _⟩ :=
      next_cpu_loop_spec set exception (set.max_cpu_id + 2) cpu a ha h1 (by omega)
    simp only [for_each_cpu_loop, next_cpu]
    by_cases hr : next_cpu_loop set exception (set.max_cpu_id + 2) cpu ≤ set.max_cpu_id
    · rw [if_pos hr, List.pairwise_cons]
      have hr1 : next_cpu_loop set exception (set.max_cpu_id + 2) cpu + 1 =
          (next_cpu_loop set exception (set.max_cpu_id + 2) cpu + 1) % 2 ^ 32 := by
        rw [Nat.mod_eq_of_lt]; omega
      refine ⟨?_, ih _ _ hr1 (by omega) (by omega)⟩
      intro y hy
      have := (mem_for_each_cpu_loop set exception n _ _ hr1 (by omega) (by omega) y).1 hy
      omega
    · rw [if_neg hr]
      exact List.Pairwise.nil

theorem for_each_cpu_except_ascending (set : cpu_set) (exception : Int) :
    (for_each_cpu_except set exception).Pairwise (fun x y => x < y) := by
  unfold for_each_cpu_except
  exact for_each_cpu_loop_ascending set exception _ _ 0 (by norm_num) (by omega) (by omega)

/-- Two strictly ascending lists with the same members are equal. -/
theorem ascending_ext :
    ∀ (l1 l2 : List Nat), l1.Pairwise (fun x y => x < y) → l2.Pairwise (fun x y => x < y) →
      (∀ c, c ∈ l1 ↔ c ∈ l2) → l1 = l2 := by
  intro l1 l2 h1 h2 hm
  have hp : l1.Perm l2 :=
    (List.perm_ext_iff_of_nodup (h1.imp (fun h => Nat.ne_of_lt h))
      (h2.imp (fun h => Nat.ne_of_lt h))).2 hm
  exact List.eq_of_perm_of_sorted hp h1 h2

/-- C22: for every CPU set, every start `cpu` of the `unsigned int` cursor
and every `int` exception, `next_cpu` leaves its loop (more rounds than
`max_cpu_id + 2` are never used) and returns the smallest id behind the start
whose bit is set and which is not the exception, if there is one up to
`max_cpu_id`, and a value above `max_cpu_id` otherwise.  "Behind the start"
is `cpu < c`; for the start value `-1` of the iteration macros, which is
`2^32 - 1` in the cursor, it is every id from 0 on.  Hence `for_each_cpu`
visits exactly the ids of the set, strictly ascending, and
`for_each_cpu_except` the same ids without the excepted one. -/
theorem C22_cpu_iteration (set : cpu_set) (cpu : Nat) (exception : Int)
    (hcpu : cpu < 2 ^ 32) (h1 : -(2 ^ 31) ≤ exception) (h2 : exception < 2 ^ 31) :
    (∀ fuel, set.max_cpu_id + 2 ≤ fuel →
      next_cpu_loop set exception fuel cpu = next_cpu cpu set exception) ∧
    (next_cpu cpu set exception ≤ set.max_cpu_id →
      test_bit (next_cpu cpu set exception) set.bitmap = true ∧
      ((next_cpu cpu set exception : Nat) : Int) ≠ exception ∧
      (cpu < 2 ^ 32 - 1 → cpu < next_cpu cpu set exception) ∧
      ∀ j, (cpu < 2 ^ 32 - 1 → cpu < j) → j < next_cpu cpu set exception →
        ¬ (test_bit j set.bitmap = true ∧ (j : Int) ≠ exception)) ∧
    (set.max_cpu_id < next_cpu cpu set exception →
      ∀ j, (cpu < 2 ^ 32 - 1 → cpu < j) → j ≤ set.max_cpu_id →
        ¬ (test_bit j set.bitmap = true ∧ (j : Int) ≠ exception)) ∧
    (for_each_cpu set).Pairwise (fun x y => x < y) ∧
    (∀ c, c ∈ for_each_cpu set ↔ (c ≤ set.max_cpu_id ∧ test_bit c set.bitmap = true)) ∧
    (for_each_cpu_except set exception).Pairwise (fun x y => x < y) ∧
    (∀ c, c ∈ for_each_cpu_except set exception ↔
      (c ∈ for_each_cpu set ∧ (c : Int) ≠ exception)) ∧
    for_each_cpu_except set exception =
      (for_each_cpu set).filter (fun (c : Nat) => decide ((c : Int) ≠ exception)) := by
  obtain ⟨t1, t2, t3, _⟩ :=
    next_cpu_loop_total set exception (set.max_cpu_id + 2) cpu (le_refl _)
  have hr : next_cpu_loop set exception (set.max_cpu_id + 2) cpu = next_cpu cpu set exception :=
    rfl
  rw [hr] at t1 t2 t3
  have hstart : ∀ j, (cpu < 2 ^ 32 - 1 → cpu < j) → (cpu + 1) % 2 ^ 32 ≤ j := by
    intro j hj
    by_cases hc : cpu < 2 ^ 32 - 1
    · rw [Nat.mod_eq_of_lt (by omega)]
      exact hj hc
    · have e : cpu = 2 ^ 32 - 1 := by omega
      rw [e]
      norm_num
  have hmem : ∀ c, c ∈ for_each_cpu set ↔ (c ≤ set.max_cpu_id ∧ test_bit c set.bitmap = true) := by
    intro c
    rw [mem_for_each_cpu]
    unfold cpu_set.contains
    simp only [Bool.and_eq_true, decide_eq_true_eq]
  have hmemx : ∀ c, c ∈ for_each_cpu_except set exception ↔
      (c ∈ for_each_cpu set ∧ (c : Int) ≠ exception) := by
    intro c
    rw [mem_for_each_cpu_except, hmem]
    constructor
    · rintro ⟨a1, a2, a3⟩
      exact ⟨⟨a1, a3⟩, (exception_toNat set exception c h1 h2 (by omega)).1 a2⟩
    · rintro ⟨⟨a1, a3⟩, a2⟩
      exact ⟨a1, (exception_toNat set exception c h1 h2 (by omega)).2 a2, a3⟩
  refine ⟨fun fuel hf => next_cpu_loop_fuel set exception fuel cpu hf, ?_, ?_,
    for_each_cpu_except_ascending set (-1), hmem,
    for_each_cpu_except_ascending set exception, hmemx, ?_⟩
  · intro hle
    obtain ⟨a1, a2⟩ := t2 hle
    refine ⟨a2, (exception_toNat set exception _ h1 h2 (by omega)).1 a1, ?_, ?_⟩
    · intro hc
      rw [Nat.mod_eq_of_lt (by omega)] at t1
      omega
    · intro j hj hjr hacc
      obtain ⟨b1, b2⟩ := t3 j (hstart j hj) hjr
      exact b2 ⟨(exception_toNat set exception j h1 h2 (by omega)).2 hacc.2, hacc.1⟩
  · intro hgt j hj hjm hacc
    obtain ⟨b1, b2⟩ := t3 j (hstart j hj) (by omega)
    exact b2 ⟨(exception_toNat set exception j h1 h2 (by omega)).2 hacc.2, hacc.1⟩
  · apply ascending_ext _ _ (for_each_cpu_except_ascending set exception)
      ((for_each_cpu_except_ascending set (-1)).sublist (List.filter_sublist _))
    intro c
    rw [hmemx, List.mem_filter]
    simp only [decide_eq_true_eq]
    rfl

/-- Witness for C22: the CPU set {2, 3} of "guestA".  From the start value
`-1` the first id is 2, behind 3 there is none; the iteration visits 2 and 3,
and 3 alone when 2 is excepted. -/
theorem C22_witness :
    next_cpu (2 ^ 32 - 1) { allocated := false, bitmap := 12 } (-1) = 2 ∧
    next_cpu 3 { allocated := false, bitmap := 12 } (-1) = 64 ∧
    for_each_cpu { allocated := false, bitmap := 12 } = [2, 3] ∧
    for_each_cpu_except { allocated := false, bitmap := 12 } 2 = [3] ∧
    for_each_cpu_except { allocated := false, bitmap := 12 } 2 =
      (for_each_cpu { allocated := false, bitmap := 12 }).filter
        (fun (c : Nat) => decide ((c : Int) ≠ 2)) :=
  ⟨by decide, by decide, by decide, by decide,
   (C22_cpu_iteration { allocated := false, bitmap := 12 } (2 ^ 32 - 1) 2 (by decide)
      (by decide) (by decide)).2.2.2.2.2.2.2⟩

/-! ## The image table of the management tool -/

/-- The counting loop ends within `argc - arg_num + 1` iterations. -/
theorem count_images_total (argv : List String) (fuel arg_num images : Nat)
    (h : argv.length + 1 ≤ fuel + arg_num) (hle : arg_num ≤ argv.length) :
    Tool.count_images argv fuel arg_num images ≠ Tool.outcome.out_of_fuel := by
  induction fuel generalizing arg_num images with
  | zero => omega
  | succ n ih =>
    unfold Tool.count_images
    by_cases h1 : arg_num < argv.length
    · simp only [h1, if_true]
      split
      · split
        · intro e
          cases e
        · exact ih _ _ (by omega) (by omega)
      · exact ih _ _ (by omega) (by omega)
    · simp only [h1, if_false]
      intro e
      cases e

/-- The filling loop stores at every second index. -/
theorem fill_images_indices (host : Tool.Host) (argv : List String)
    (remaining arg_num index : Nat) (stores r : List (Nat × Tool.jailhouse_preload_image))
    (h : Tool.fill_images host argv remaining arg_num index stores = some r) :
    r.map Prod.fst =
      stores.map Prod.fst ++ (List.range remaining).map (fun i => index + 2 * i) := by
  induction remaining generalizing arg_num index stores with
  | zero =>
    simp only [Tool.fill_images, Option.some.injEq] at h
    subst h
    simp
  | succ n ih =>
    unfold Tool.fill_images at h
    split at h
    · cases h
    · dsimp only at h
      split at h
      · split at h
        · cases h
        · rw [ih _ _ _ h, List.range_succ_eq_map]
          simp only [List.map_append, List.map_cons, List.map_nil, List.append_assoc,
            List.singleton_append, List.map_map, Nat.mul_zero, Nat.add_zero]
          congr 2
          apply List.map_congr_left
          intro i _
          simp only [Function.comp]
          omega
      · rw [ih _ _ _ h, List.range_succ_eq_map]
        simp only [List.map_append, List.map_cons, List.map_nil, List.append_assoc,
          List.singleton_append, List.map_map, Nat.mul_zero, Nat.add_zero]
        congr 2
        apply List.map_congr_left
        intro i _
        simp only [Function.comp]
        omega

/-- The tool's `cell_create` ends: the bound on the counting loop is never
used up. -/
theorem tool_cell_create_total (host : Tool.Host) (argv : List String) :
    Tool.cell_create host argv ≠ Tool.outcome.out_of_fuel := by
  unfold Tool.cell_create
  split
  · intro e
    cases e
  · rename_i hlen
    have ht := count_images_total argv (argv.length + 1) 4 0 (by omega) (by omega)
    split
    · intro e
      cases e
    · rename_i e
      exact absurd e ht
    · split
      · intro e
        cases e
      · split
        · intro e
          cases e
        · split
          · intro e
            cases e
          · split
            · intro e
              cases e
            · intro e
              cases e

/-- What a returning run of the tool's `cell_create` has done. -/
theorem tool_cell_create_returns (host : Tool.Host) (argv : List String) (err : Int)
    (block : Tool.jailhouse_cell_init)
    (h : Tool.cell_create host argv = Tool.outcome.returns (err, block)) :
    Tool.count_images argv (argv.length + 1) 4 0 =
      Tool.outcome.returns block.num_preload_images ∧
    block.allocated_images = block.num_preload_images ∧
    Tool.fill_images host argv block.num_preload_images 4 0 [] = some block.stores := by
  unfold Tool.cell_create at h
  split at h
  · cases h
  · split at h
    · cases h
    · cases h
    · rename_i images hc
      split at h
      · cases h
      · split at h
        · cases h
        · split at h
          · cases h
          · rename_i stores hf
            split at h
            · cases h
            · simp only [Tool.outcome.returns.injEq, Prod.mk.injEq] at h
              obtain ⟨_, hb⟩ := h
              subst hb
              exact ⟨hc, rfl, hf⟩

/-- C23: the claim fails on the code.  Whenever the tool's `cell_create`
returns, `num_preload_images` is the number `n` of images counted on the
command line and the table is allocated with `n` entries, but the stores of
the filling loop go to the indices 0, 2, 4, ..., 2 (n - 1): the loop body
ends with an `image++` in addition to the one of the loop header.  With two
or more images, entry 1 is never written and a store lands at an index
`>= n`, behind the allocation. -/
theorem C23_preload_image_stride (host : Tool.Host) (argv : List String) (err : Int)
    (block : Tool.jailhouse_cell_init)
    (h : Tool.cell_create host argv = Tool.outcome.returns (err, block)) :
    Tool.count_images argv (argv.length + 1) 4 0 =
      Tool.outcome.returns block.num_preload_images ∧
    block.allocated_images = block.num_preload_images ∧
    block.stores.map Prod.fst =
      (List.range block.num_preload_images).map (fun i => 2 * i) ∧
    (2 ≤ block.num_preload_images →
      (∀ p ∈ block.stores, p.1 ≠ 1) ∧
      ∃ p ∈ block.stores, block.allocated_images ≤ p.1) := by
  obtain ⟨hc, ha, hf⟩ := tool_cell_create_returns host argv err block h
  have hi := fill_images_indices host argv _ _ _ _ _ hf
  simp only [List.map_nil, List.nil_append, Nat.zero_add] at hi
  refine ⟨hc, ha, hi, ?_⟩
  intro h2
  constructor
  · intro p hp e
    have hm : p.1 ∈ block.stores.map Prod.fst := List.mem_map_of_mem _ hp
    rw [hi, List.mem_map] at hm
    obtain ⟨i, _, hi2⟩ := hm
    omega
  · have hm : 2 * (block.num_preload_images - 1) ∈ block.stores.map Prod.fst := by
      rw [hi]
      exact List.mem_map_of_mem _ (List.mem_range.2 (by omega))
    rw [List.mem_map] at hm
    obtain ⟨p, hp, e⟩ := hm
    exact ⟨p, hp, by omega⟩

/-- Witness for C23: `jailhouse cell create cell.cfg linux.bin initrd.img`
returns with `num_preload_images = 2` and a table of two entries; the second
image is stored at index 2 and entry 1 is not written.  With a single image
(and a load address) the table is as intended. -/
theorem C23_witness :
    Tool.cell_create Tool.scenario_host Tool.two_images =
      Tool.outcome.returns (0,
        { config_address := 0x8000, config_size := 512, num_preload_images := 2,
          allocated_images := 2,
          stores := [(0, { source_address := 0x9000, size := 512, target_address := 0 }),
                     (2, { source_address := 0xa000, size := 512, target_address := 0 })] }) ∧
    Tool.cell_create Tool.scenario_host Tool.one_image =
      Tool.outcome.returns (0,
        { config_address := 0x8000, config_size := 512, num_preload_images := 1,
          allocated_images := 1,
          stores := [(0, { source_address := 0x9000, size := 512,
                           target_address := 0x200000 })] }) ∧
    ∃ block : Tool.jailhouse_cell_init,
      (∀ p ∈ block.stores, p.1 ≠ 1) ∧ ∃ p ∈ block.stores, block.allocated_images ≤ p.1 := by
  have hb : Tool.cell_create Tool.scenario_host Tool.two_images =
      Tool.outcome.returns (0,
        { config_address := 0x8000, config_size := 512, num_preload_images := 2,
          allocated_images := 2,
          stores := [(0, { source_address := 0x9000, size := 512, target_address := 0 }),
                     (2, { source_address := 0xa000, size := 512, target_address := 0 })] }) := by
    decide
  exact ⟨hb, by decide, _,
    (C23_preload_image_stride Tool.scenario_host Tool.two_images 0 _ hb).2.2.2 (by decide)⟩

/-! ## The bound of the bitmap copy -/

/-- C24: the claim fails on the code for CPU sets of 4089 to 4096 bytes.
When `cell_init` returns 0 for a CPU set of at most
`PAGE_SIZE - sizeof(unsigned long)` bytes, the bytes copied fit in the chosen
bitmap.  For a larger size up to `PAGE_SIZE` the guard
`cpu_set_size > PAGE_SIZE` lets the call through: with a frame available,
`cell_init` returns 0 with the allocated form, copies `cpu_set_size` bytes and
`cpu_set_size * 8` exceeds `max_cpu_id + 1`, the number of bits that the
bitmap of the frame holds. -/
theorem C24_bitmap_copy_bound (env : Env) (c : cell) (s : State) :
    ((cell_init env c true s).1 = 0 → c.config.cpu_set_size ≤ PAGE_SIZE - SIZEOF_LONG →
      c.config.cpu_set_size * 8 ≤ (cell_init env c true s).2.1.cpu_set.max_cpu_id + 1) ∧
    (PAGE_SIZE - SIZEOF_LONG < c.config.cpu_set_size → c.config.cpu_set_size ≤ PAGE_SIZE →
      env.page_alloc_ok s.mem_pool_used 1 = true →
      (cell_init env c true s).1 = 0 ∧
      (cell_init env c true s).2.1.cpu_set.allocated = true ∧
      (cell_init env c true s).2.1.cpu_set.bitmap =
        copy_bitmap 0 c.config.cpu_set c.config.cpu_set_size ∧
      (cell_init env c true s).2.1.cpu_set.max_cpu_id + 1 < c.config.cpu_set_size * 8) := by
  constructor
  · intro h0 hle
    have h1 : ¬ c.config.cpu_set_size > PAGE_SIZE := by
      unfold PAGE_SIZE SIZEOF_LONG at hle
      unfold PAGE_SIZE
      omega
    by_cases h2 : c.config.cpu_set_size > SMALL_BITMAP_BYTES
    · by_cases ha : env.page_alloc_ok s.mem_pool_used 1 = true
      · have e : (cell_init env c true s).2.1.cpu_set.allocated = true := by
          unfold cell_init
          simp only [h1, h2, if_false, if_true, page_alloc, ha]
        unfold cpu_set.max_cpu_id
        rw [e]
        unfold PAGE_SIZE SIZEOF_LONG at hle ⊢
        simp only [if_true]
        omega
      · exfalso
        have ha2 : env.page_alloc_ok s.mem_pool_used 1 = false := by simpa using ha
        unfold cell_init at h0
        simp only [h1, h2, if_false, if_true, page_alloc, ha2, Bool.false_eq_true] at h0
        have h3 : (-ENOMEM : Int) = 0 := h0
        exact absurd h3 (by decide)
    · have e : (cell_init env c true s).2.1.cpu_set.allocated = false := by
        unfold cell_init
        simp only [h1, h2, if_false, if_true]
      unfold cpu_set.max_cpu_id
      rw [e]
      unfold SMALL_BITMAP_BYTES at h2 ⊢
      simp only [Bool.false_eq_true, if_false]
      omega
  · intro hgt hle ha
    have h1 : ¬ c.config.cpu_set_size > PAGE_SIZE := by omega
    have h2 : c.config.cpu_set_size > SMALL_BITMAP_BYTES := by
      unfold PAGE_SIZE SIZEOF_LONG at hgt
      unfold SMALL_BITMAP_BYTES
      omega
    have e : (cell_init env c true s).2.1.cpu_set.allocated = true := by
      unfold cell_init
      simp only [h1, h2, if_false, if_true, page_alloc, ha]
    refine ⟨?_, e, ?_, ?_⟩
    · unfold cell_init
      simp only [h1, h2, if_false, if_true, page_alloc, ha]
    · unfold cell_init
      simp only [h1, h2, if_false, if_true, page_alloc, ha]
    · unfold cpu_set.max_cpu_id
      rw [e]
      unfold PAGE_SIZE SIZEOF_LONG at hgt ⊢
      simp only [if_true]
      omega

/-- Witness for C24: a CPU set of 4096 bytes.  `cell_init` returns 0, the
bitmap of the allocated frame holds 32704 bits, 32768 bits are copied and
bit 32767 of the configuration lands behind the bitmap. -/
theorem C24_witness :
    (cell_init (scenario_env page_sized_cpu_set_config 2)
      (new_cell page_sized_cpu_set_config 1) true scenario_state).1 = 0 ∧
    (cell_init (scenario_env page_sized_cpu_set_config 2)
      (new_cell page_sized_cpu_set_config 1) true scenario_state).2.1.cpu_set.max_cpu_id
      = 32703 ∧
    test_bit 32767 (cell_init (scenario_env page_sized_cpu_set_config 2)
      (new_cell page_sized_cpu_set_config 1) true scenario_state).2.1.cpu_set.bitmap = true ∧
    (32703 : Nat) + 1 < 4096 * 8 := by
  have h := (C24_bitmap_copy_bound (scenario_env page_sized_cpu_set_config 2)
    (new_cell page_sized_cpu_set_config 1) scenario_state).2 (by decide) (by decide) rfl
  refine ⟨h.1, ?_, ?_, by decide⟩
  · have e := h.2.1
    unfold cpu_set.max_cpu_id
    rw [e]
    decide
  · rw [h.2.2.1]
    show (copy_bitmap 0 (2 ^ 32767) 4096).testBit 32767 = true
    unfold copy_bitmap
    rw [Nat.zero_div, Nat.zero_mul, Nat.zero_add, Nat.testBit_mod_two_pow,
      Nat.testBit_two_pow_self]
    decide

end Jailhouse
